import Mathlib

/-!
Tracepoint lifecycle manager: a shallow embedding.

Embedding of `src/vizier/services/metadata/controllers/tracepoint/tracepoint.go`
and `src/utils/uuid.go`.

Conventions of the embedding:

* a Go pointer that the code tests against `nil` is an `Option`; a pointer the
  code dereferences unconditionally is taken as present;
* a slice is a `List` (a `nil` slice and an empty slice are both `[]`);
* `int32`/`uint64` values are `Int`/`Nat`;
* a `uuid.UUID` (sixteen bytes) is the natural number its bytes spell in
  big-endian order, `uuid.Nil` is `0`;
* a Go `error` result is an `Option GoError` (`none` is `nil`).
-/

namespace Pixie

/-! ## Errors -/

/-- A Go `error` value. The package sentinel is kept apart from errors made on the
spot (`errors.New`, `fmt.Errorf`) and from errors handed back by a collaborator
(store, messenger, id generator). -/
inductive GoError where
  | alreadyExists
  | text (message : String)
  | external (code : Nat)
deriving DecidableEq, Repr

/-- The sentinel `ErrTracepointAlreadyExists`. -/
def ErrTracepointAlreadyExists : GoError := GoError.alreadyExists

/-! ## utils/uuid.go -/

/-- A `uuid.UUID`, as the big-endian number of its sixteen bytes. -/
abbrev UUID := Nat

/-- The value `uuid.Nil`. -/
def UUID.Nil : UUID := 0

/-- The wire message `uuidpb.UUID` with its two `uint64` fields. -/
structure UUIDpb where
  HighBits : Nat
  LowBits : Nat
deriving DecidableEq, Repr

/-- `UUIDFromProto`: both halves must be non-zero; `PutUint64` of the two halves
followed by `uuid.FromBytes` spells `HighBits * 2^64 + LowBits`. -/
def UUIDFromProto (pb : Option UUIDpb) : UUID × Option GoError :=
  match pb with
  | none => (UUID.Nil, some (GoError.text "nil proto given"))
  | some p =>
    if p.HighBits ≠ 0 ∧ p.LowBits ≠ 0 then
      ((p.HighBits % 2 ^ 64) * 2 ^ 64 + p.LowBits % 2 ^ 64, none)
    else
      (UUID.Nil, some (GoError.text "uuid data in proto is nil"))

/-- `UUIDFromProtoOrNil`: the error is dropped. -/
def UUIDFromProtoOrNil (pb : Option UUIDpb) : UUID :=
  (UUIDFromProto pb).1

/-- `ProtoFromUUID`: bytes 0..7 and 8..15 read as big-endian `uint64`. -/
def ProtoFromUUID (u : UUID) : UUIDpb :=
  { HighBits := u / 2 ^ 64 % 2 ^ 64, LowBits := u % 2 ^ 64 }

/-- `IsNilUUID`. -/
def IsNilUUID (u : UUID) : Bool := decide (u = UUID.Nil)

/-- `IsNilUUIDProto`. -/
def IsNilUUIDProto (pb : Option UUIDpb) : Bool :=
  match pb with
  | none => true
  | some p => if p.HighBits ≠ 0 ∧ p.LowBits ≠ 0 then false else true

/-- `AreSameUUID`. -/
def AreSameUUID (pb1 pb2 : UUIDpb) : Bool :=
  decide (pb1.HighBits = pb2.HighBits) && decide (pb1.LowBits = pb2.LowBits)

/-! ## Messages used by the manager (agentpb, logicalpb, statuspb, storepb) -/

/-- The kernel version of a host, three `int32` fields. -/
structure KernelVersion where
  Major : Int
  Minor : Int
  Patch : Int
deriving DecidableEq, Repr

/-- Host information of an agent. -/
structure HostInfo where
  Kernel : KernelVersion
deriving DecidableEq, Repr

/-- The `Info` message of an agent. -/
structure AgentInfo where
  AgentID : Option UUIDpb
  HostInfo : HostInfo
deriving DecidableEq, Repr

/-- An `agentpb.Agent`. -/
structure Agent where
  Info : AgentInfo
deriving DecidableEq, Repr

/-- The selector kinds of `logicalpb`; `other` stands for any value the switch in
`FilterAgentsBySelector` does not name. -/
inductive SelectorType where
  | NO_CONDITION
  | MIN_KERNEL
  | MAX_KERNEL
  | other (tag : Nat)
deriving DecidableEq, Repr

/-- A `logicalpb.TracepointSelector`. -/
structure TracepointSelector where
  SelectorType : SelectorType
  Value : String
deriving DecidableEq, Repr

/-! ## `fmt.Sscanf(version, "%d.%d.%d", &major, &minor, &patch)`

The scanner of Go's `fmt` package, specialised to this one format and to `int32`
operands. Input is read rune by rune; an error anywhere makes the whole call fail,
which is all the callers look at. Input left over after the third number is not
inspected. -/

/-- The `isSpace` table of `fmt/scan.go`. -/
def isSpace (r : Char) : Bool :=
  let n := r.toNat
  (decide (0x0009 ≤ n) && decide (n ≤ 0x000d)) || decide (n = 0x0020) || decide (n = 0x0085)
    || decide (n = 0x00a0) || decide (n = 0x1680) || (decide (0x2000 ≤ n) && decide (n ≤ 0x200a))
    || (decide (0x2028 ≤ n) && decide (n ≤ 0x2029)) || decide (n = 0x202f)
    || decide (n = 0x205f) || decide (n = 0x3000)

/-- `SkipSpace` in the mode `Sscanf` sets (`nlIsSpace = false`): spaces are skipped,
a newline is the error "unexpected newline" (`none`). -/
def SkipSpace : List Char → Option (List Char)
  | [] => some []
  | r :: rest =>
    if r = '\n' then none
    else if isSpace r then SkipSpace rest
    else some (r :: rest)

/-- The runes `scanNumber` accepts for the verb `%d`: `getBase` gives base 10 with
the digit string "0123456789" (the underscore is accepted for `%v` only). -/
def acceptsDigit (r : Char) : Bool :=
  r.isDigit

/-- `scanNumber`: at least one accepted rune ("expected integer" otherwise, and
"unexpected EOF" on empty input), then as many as follow. Returns token and rest. -/
def scanNumber : List Char → Option (List Char × List Char)
  | [] => none
  | r :: rest =>
    if acceptsDigit r then
      some ((r :: rest).takeWhile acceptsDigit, (r :: rest).dropWhile acceptsDigit)
    else none

/-- `strconv.ParseUint(tok, 10, 64)` on a non-empty token: a rune that is not a
decimal digit is a syntax error, a value of `2^64` or more a range error. -/
def ParseUint (tok : List Char) : Option Nat :=
  if tok.all Char.isDigit then
    let v := tok.foldl (fun acc c => 10 * acc + (c.toNat - 48)) 0
    if v < 2 ^ 64 then some v else none
  else none

/-- `strconv.ParseInt(tok, 10, 64)` with the sign `scanInt` accepted in front. -/
def ParseInt (negative : Bool) (tok : List Char) : Option Int :=
  match ParseUint tok with
  | none => none
  | some un =>
    if negative then
      (if un ≤ 2 ^ 63 then some (-(un : Int)) else none)
    else
      (if un < 2 ^ 63 then some (un : Int) else none)

/-- `scanInt(verb = 'd', bitSize = 32)`: skip space, optional sign, number, and the
check that the value fits `int32` ("integer overflow on token"). -/
def scanInt (input : List Char) : Option (Int × List Char) :=
  match SkipSpace input with
  | none => none
  | some [] => none
  | some (r :: rest) =>
    let negative := decide (r = '-')
    let afterSign := if r = '+' ∨ r = '-' then rest else r :: rest
    match scanNumber afterSign with
    | none => none
    | some (tok, remaining) =>
      match ParseInt negative tok with
      | none => none
      | some i =>
        if -(2 ^ 31 : Int) ≤ i ∧ i < 2 ^ 31 then some (i, remaining) else none

/-- The literal `.` of the format: the next rune must be `.` ("unexpected EOF" or
"input does not match format" otherwise). -/
def advanceDot : List Char → Option (List Char)
  | [] => none
  | r :: rest => if r = '.' then some rest else none

/-- The call `fmt.Sscanf(version, "%d.%d.%d", &major, &minor, &patch)`: `none` when
it returns an error, the three numbers otherwise. -/
def Sscanf (version : String) : Option (Int × Int × Int) :=
  match scanInt version.toList with
  | none => none
  | some (major, r1) =>
    match advanceDot r1 with
    | none => none
    | some r2 =>
      match scanInt r2 with
      | none => none
      | some (minor, r3) =>
        match advanceDot r3 with
        | none => none
        | some r4 =>
          match scanInt r4 with
          | none => none
          | some (patch, _) => some (major, minor, patch)

/-! ## Selector evaluation -/

/-- `filterByMinKernel`. -/
def filterByMinKernel (agents : List Agent) (version : String) : List Agent :=
  match Sscanf version with
  | none => []
  | some (major, minor, patch) =>
    agents.filter (fun agent =>
      let kv := agent.Info.HostInfo.Kernel
      decide (kv.Major > major) || (decide (kv.Major = major) && decide (kv.Minor > minor))
        || (decide (kv.Major = major) && decide (kv.Minor = minor) && decide (kv.Patch ≥ patch)))

/-- `filterByMaxKernel`. -/
def filterByMaxKernel (agents : List Agent) (version : String) : List Agent :=
  match Sscanf version with
  | none => []
  | some (major, minor, patch) =>
    agents.filter (fun agent =>
      let kv := agent.Info.HostInfo.Kernel
      decide (kv.Major < major) || (decide (kv.Major = major) && decide (kv.Minor < minor))
        || (decide (kv.Major = major) && decide (kv.Minor = minor) && decide (kv.Patch ≤ patch)))

/-- `FilterAgentsBySelector`. -/
def FilterAgentsBySelector (agents : List Agent) (selector : TracepointSelector) : List Agent :=
  match selector.SelectorType with
  | SelectorType.MIN_KERNEL => filterByMinKernel agents selector.Value
  | SelectorType.MAX_KERNEL => filterByMaxKernel agents selector.Value
  | _ => agents

/-- The inner loop of `RegisterTracepoint`: the selectors of one program applied
one after the other, starting from all agents. -/
def applySelectors (agents : List Agent) (selectors : List TracepointSelector) : List Agent :=
  selectors.foldl FilterAgentsBySelector agents

/-! ## Specification-side notions for the selector claims -/

/-- The kernel triple of an agent in the lexicographic order on
`(major, minor, patch)`. -/
def kernelTriple (agent : Agent) : ℤ ×ₗ ℤ ×ₗ ℤ :=
  toLex (agent.Info.HostInfo.Kernel.Major,
    toLex (agent.Info.HostInfo.Kernel.Minor, agent.Info.HostInfo.Kernel.Patch))

/-- A version `(major, minor, patch)` in the same order. -/
def versionTriple (major minor patch : Int) : ℤ ×ₗ ℤ ×ₗ ℤ :=
  toLex (major, toLex (minor, patch))

/-! ## Remaining messages -/

/-- A `logicalpb.TracepointDeployment_TracepointProgram`. Only the selectors are
looked at by the manager; table name and probe specification are carried along. -/
structure TracepointProgram where
  TableName : String
  Spec : Nat
  Selectors : List TracepointSelector
deriving DecidableEq, Repr

/-- A `logicalpb.TracepointDeployment`. `Programs` is a slice of pointers, and
`CreateTracepoint` tests its entries against `nil`. -/
structure TracepointDeployment where
  Name : String
  TTL : Int
  DeploymentSpec : Nat
  Programs : List (Option TracepointProgram)
deriving DecidableEq, Repr

/-- The values of `statuspb.LifeCycleState`. -/
inductive LifeCycleState where
  | UNKNOWN_STATE
  | PENDING_STATE
  | RUNNING_STATE
  | FAILED_STATE
  | TERMINATED_STATE
deriving DecidableEq, Repr

/-- A `storepb.TracepointInfo`. -/
structure TracepointInfo where
  ID : Option UUIDpb
  Tracepoint : TracepointDeployment
  Name : String
  ExpectedState : LifeCycleState
deriving DecidableEq, Repr

/-- A `storepb.AgentTracepointStatus`; the `statuspb.Status` detail is carried as a code. -/
structure AgentTracepointStatus where
  State : LifeCycleState
  Status : Option Nat
  ID : Option UUIDpb
  AgentID : Option UUIDpb
deriving DecidableEq, Repr

/-- The two control messages the manager builds. `Marshal` is taken as a faithful
encoding that does not fail on them, so the payload handed to the messenger is the
message itself. -/
inductive VizierMessage where
  | RegisterTracepointRequest (TracepointDeployment : TracepointDeployment) (ID : UUIDpb)
  | RemoveTracepointRequest (ID : UUIDpb)
deriving DecidableEq, Repr

/-- The function `proto.Equal` on two program pointers: structural equality, with
`nil` equal to `nil` only. -/
def protoEqual (a b : Option TracepointProgram) : Bool := decide (a = b)

/-! ## Go maps

A map is kept as an association list without repeated keys, in order of first
insertion. The order in which `range` visits a map is not part of this
representation; it is a parameter wherever the code ranges over a map. -/

/-- Lookup of key `k`. -/
def assocGet {K V : Type} [DecidableEq K] (k : K) : List (K × V) → Option V
  | [] => none
  | e :: rest => if e.1 = k then some e.2 else assocGet k rest

/-- Assignment `m[k] = v`: replaces the entry of `k` or adds one. -/
def assocSet {K V : Type} [DecidableEq K] (k : K) (v : V) : List (K × V) → List (K × V)
  | [] => [(k, v)]
  | e :: rest => if e.1 = k then (k, v) :: rest else e :: assocSet k v rest

/-- Removal of every entry of key `k`. -/
def assocErase {K V : Type} [DecidableEq K] (k : K) : List (K × V) → List (K × V)
  | [] => []
  | e :: rest => if e.1 = k then assocErase k rest else e :: assocErase k rest

/-! ## The two collaborators and the calls made to them -/

/-- One call made by the manager to its store or to its messenger. -/
inductive Call where
  | UpsertTracepoint (id : UUID) (info : TracepointInfo)
  | GetTracepoint (id : UUID)
  | GetTracepoints
  | UpdateTracepointState (status : AgentTracepointStatus)
  | GetTracepointStates (id : UUID)
  | SetTracepointWithName (name : String) (id : UUID)
  | GetTracepointsWithNames (names : List String)
  | GetTracepointsForIDs (ids : List UUID)
  | SetTracepointTTL (id : UUID) (ttl : Int)
  | DeleteTracepointTTLs (ids : List UUID)
  | DeleteTracepoint (id : UUID)
  | DeleteTracepointsForAgent (agentID : UUID)
  | GetTracepointTTLs
  | MessageAgents (agentIDs : List UUID) (msg : VizierMessage)
  | MessageActiveAgents (msg : VizierMessage)
deriving DecidableEq, Repr

/-- The interface `Store`, over a store whose state has type `S`. A `(value, error)`
result is an `Except`; a plain `error` result an `Option`. -/
structure Store (S : Type) where
  UpsertTracepoint : S → UUID → TracepointInfo → S × Option GoError
  GetTracepoint : S → UUID → S × Except GoError (Option TracepointInfo)
  GetTracepoints : S → S × Except GoError (List TracepointInfo)
  UpdateTracepointState : S → AgentTracepointStatus → S × Option GoError
  GetTracepointStates : S → UUID → S × Except GoError (List AgentTracepointStatus)
  SetTracepointWithName : S → String → UUID → S × Option GoError
  GetTracepointsWithNames : S → List String → S × Except GoError (List (Option UUID))
  GetTracepointsForIDs : S → List UUID → S × Except GoError (List (Option TracepointInfo))
  SetTracepointTTL : S → UUID → Int → S × Option GoError
  DeleteTracepointTTLs : S → List UUID → S × Option GoError
  DeleteTracepoint : S → UUID → S × Option GoError
  DeleteTracepointsForAgent : S → UUID → S × Option GoError
  GetTracepointTTLs : S → S × Except GoError (List UUID × List Int)

/-- The interface `agentMessenger`, over a messenger whose state has type `M`. -/
structure AgentMessenger (M : Type) where
  MessageAgents : M → List UUID → VizierMessage → M × Option GoError
  MessageActiveAgents : M → VizierMessage → M × Option GoError

/-- The struct `Manager`: its store and its messenger. -/
structure Manager (S M : Type) where
  ts : Store S
  agtMgr : AgentMessenger M

/-- One entry of the trace: a call and the error it returned (`none` for `nil`). -/
structure Event where
  call : Call
  err : Option GoError
deriving DecidableEq, Repr

/-- The error of a `(value, error)` result. -/
def errorOf {α : Type} (r : Except GoError α) : Option GoError :=
  match r with
  | Except.error err => some err
  | Except.ok _ => none

/-- What a manager operation runs against: the state of the store, the state of the
messenger, and the calls made so far with their outcomes, oldest first. -/
structure World (S M : Type) where
  store : S
  messenger : M
  trace : List Event

/-- The world after a store call `c` that returned `err` and left the store in state `s`. -/
def World.afterStore {S M : Type} (w : World S M) (c : Call) (err : Option GoError) (s : S) :
    World S M :=
  { w with store := s, trace := w.trace ++ [{ call := c, err := err }] }

/-- The world after a messenger call `c` that returned `err` and left the messenger in
state `a`. -/
def World.afterMessenger {S M : Type} (w : World S M) (c : Call) (err : Option GoError)
    (a : M) : World S M :=
  { w with messenger := a, trace := w.trace ++ [{ call := c, err := err }] }

/-- The call `m.agtMgr.MessageAgents(agentIDs, msg)`. -/
def Manager.MessageAgents {S M : Type} (m : Manager S M) (w : World S M)
    (agentIDs : List UUID) (msg : VizierMessage) : World S M × Option GoError :=
  (w.afterMessenger (Call.MessageAgents agentIDs msg)
      (m.agtMgr.MessageAgents w.messenger agentIDs msg).2
      (m.agtMgr.MessageAgents w.messenger agentIDs msg).1,
    (m.agtMgr.MessageAgents w.messenger agentIDs msg).2)

/-! ## `RegisterTracepoint` -/

/-- The two maps of `RegisterTracepoint`, keyed by the fingerprint of an agent-ID list. -/
structure FanOut (K : Type) where
  agentsHashToPrograms : List (K × List TracepointProgram)
  agentsHashToAgents : List (K × List Agent)

/-- The agent IDs of a list of agents, as both loops of `RegisterTracepoint` compute them. -/
def agentIDsOf (validAgents : List Agent) : List UUID :=
  validAgents.map (fun agt => UUIDFromProtoOrNil agt.Info.AgentID)

/-- The first loop of `RegisterTracepoint`, over the programs of the deployment.
`utils.HashUUIDs` is not among the sources; it is the parameter `HashUUIDs`.
A `nil` program faults at `prgm.Selectors` (`none`). -/
def planLoop {K : Type} [DecidableEq K] (HashUUIDs : List UUID → K) (agents : List Agent) :
    List (Option TracepointProgram) → FanOut K → Option (FanOut K)
  | [], maps => some maps
  | none :: _, _ => none
  | some prgm :: rest, maps =>
    let validAgents := applySelectors agents prgm.Selectors
    let hash := HashUUIDs (agentIDsOf validAgents)
    planLoop HashUUIDs agents rest
      { agentsHashToPrograms :=
          assocSet hash (((assocGet hash maps.agentsHashToPrograms).getD []) ++ [prgm])
            maps.agentsHashToPrograms,
        agentsHashToAgents := assocSet hash validAgents maps.agentsHashToAgents }

/-- The message built in the second loop of `RegisterTracepoint` for a group with the
programs `programs`: name, TTL and deployment spec of the input, the given programs,
and the tracepoint id in wire form. -/
def registerRequest (tracepointID : UUID) (tracepointDeployment : TracepointDeployment)
    (programs : List TracepointProgram) : VizierMessage :=
  VizierMessage.RegisterTracepointRequest
    { Name := tracepointDeployment.Name,
      TTL := tracepointDeployment.TTL,
      DeploymentSpec := tracepointDeployment.DeploymentSpec,
      Programs := programs.map some }
    (ProtoFromUUID tracepointID)

/-- The second loop of `RegisterTracepoint`, over the entries of `agentsHashToAgents`
in the order given: one `MessageAgents` call per entry, stopping at the first error. -/
def sendLoop {S M K : Type} [DecidableEq K] (m : Manager S M) (tracepointID : UUID)
    (tracepointDeployment : TracepointDeployment)
    (agentsHashToPrograms : List (K × List TracepointProgram)) :
    List (K × List Agent) → World S M → World S M × Option GoError
  | [], w => (w, none)
  | (hash, validAgentsForProgram) :: rest, w =>
    match m.MessageAgents w (agentIDsOf validAgentsForProgram)
        (registerRequest tracepointID tracepointDeployment
          ((assocGet hash agentsHashToPrograms).getD [])) with
    | (w1, some err) => (w1, some err)
    | (w1, none) => sendLoop m tracepointID tracepointDeployment agentsHashToPrograms rest w1

/-- `RegisterTracepoint`. The parameter `range` is the order in which the Go runtime
visits the entries of `agentsHashToAgents`; the result is `none` when the first loop
faults on a `nil` program. -/
def RegisterTracepoint {S M K : Type} [DecidableEq K] (m : Manager S M)
    (HashUUIDs : List UUID → K) (range : List (K × List Agent) → List (K × List Agent))
    (agents : List Agent) (tracepointID : UUID) (tracepointDeployment : TracepointDeployment)
    (w : World S M) : Option (World S M × Option GoError) :=
  match planLoop HashUUIDs agents tracepointDeployment.Programs
      { agentsHashToPrograms := [], agentsHashToAgents := [] } with
  | none => none
  | some maps =>
    some (sendLoop m tracepointID tracepointDeployment maps.agentsHashToPrograms
      (range maps.agentsHashToAgents) w)

/-! ## `CreateTracepoint` -/

/-- The call `m.ts.GetTracepointsWithNames(names)`. -/
def Manager.GetTracepointsWithNames {S M : Type} (m : Manager S M) (w : World S M)
    (names : List String) : World S M × Except GoError (List (Option UUID)) :=
  (w.afterStore (Call.GetTracepointsWithNames names)
      (errorOf (m.ts.GetTracepointsWithNames w.store names).2)
      (m.ts.GetTracepointsWithNames w.store names).1,
    (m.ts.GetTracepointsWithNames w.store names).2)

/-- The call `m.ts.GetTracepoint(id)`. -/
def Manager.GetTracepoint {S M : Type} (m : Manager S M) (w : World S M) (id : UUID) :
    World S M × Except GoError (Option TracepointInfo) :=
  (w.afterStore (Call.GetTracepoint id) (errorOf (m.ts.GetTracepoint w.store id).2)
      (m.ts.GetTracepoint w.store id).1,
    (m.ts.GetTracepoint w.store id).2)

/-- The call `m.ts.SetTracepointTTL(id, ttl)`. -/
def Manager.SetTracepointTTL {S M : Type} (m : Manager S M) (w : World S M) (id : UUID)
    (ttl : Int) : World S M × Option GoError :=
  (w.afterStore (Call.SetTracepointTTL id ttl) (m.ts.SetTracepointTTL w.store id ttl).2
      (m.ts.SetTracepointTTL w.store id ttl).1,
    (m.ts.SetTracepointTTL w.store id ttl).2)

/-- The call `m.ts.DeleteTracepointTTLs(ids)`. -/
def Manager.DeleteTracepointTTLs {S M : Type} (m : Manager S M) (w : World S M)
    (ids : List UUID) : World S M × Option GoError :=
  (w.afterStore (Call.DeleteTracepointTTLs ids) (m.ts.DeleteTracepointTTLs w.store ids).2
      (m.ts.DeleteTracepointTTLs w.store ids).1,
    (m.ts.DeleteTracepointTTLs w.store ids).2)

/-- The call `m.ts.UpsertTracepoint(id, info)`. -/
def Manager.UpsertTracepoint {S M : Type} (m : Manager S M) (w : World S M) (id : UUID)
    (info : TracepointInfo) : World S M × Option GoError :=
  (w.afterStore (Call.UpsertTracepoint id info) (m.ts.UpsertTracepoint w.store id info).2
      (m.ts.UpsertTracepoint w.store id info).1,
    (m.ts.UpsertTracepoint w.store id info).2)

/-- The call `m.ts.SetTracepointWithName(name, id)`. -/
def Manager.SetTracepointWithName {S M : Type} (m : Manager S M) (w : World S M)
    (name : String) (id : UUID) : World S M × Option GoError :=
  (w.afterStore (Call.SetTracepointWithName name id)
      (m.ts.SetTracepointWithName w.store name id).2
      (m.ts.SetTracepointWithName w.store name id).1,
    (m.ts.SetTracepointWithName w.store name id).2)

/-- The comparison loop of `CreateTracepoint` (lines 210-217), run once the two
lengths are known to agree: `prev` are the stored programs, `incoming` the new ones.
An incoming `nil` is not compared; the first unequal pair ends the loop. -/
def sameLoop : List (Option TracepointProgram) → List (Option TracepointProgram) → Bool
  | [], _ => true
  | _ :: _, [] => true
  | p :: prev, n :: incoming =>
    match n with
    | none => sameLoop prev incoming
    | some _ => if protoEqual n p then sameLoop prev incoming else false

/-- The flag `allTpsSame` of `CreateTracepoint` (lines 207-220). -/
def allTpsSame (prevPrograms incomingPrograms : List (Option TracepointProgram)) : Bool :=
  if prevPrograms.length = incomingPrograms.length then
    sameLoop prevPrograms incomingPrograms
  else false

/-- Lines 238-260 of `CreateTracepoint`: mint an id, store the record as running, set
its TTL, bind the name. `newV4` is the result of `uuid.NewV4()`. -/
def createFresh {S M : Type} (m : Manager S M) (newV4 : Except GoError UUID)
    (tracepointName : String) (tracepointDeployment : TracepointDeployment) (ttl : Int)
    (w : World S M) : World S M × (Option UUID × Option GoError) :=
  match newV4 with
  | Except.error err => (w, (none, some err))
  | Except.ok tpID =>
    match m.UpsertTracepoint w tpID
        { ID := some (ProtoFromUUID tpID),
          Tracepoint := tracepointDeployment,
          Name := tracepointName,
          ExpectedState := LifeCycleState.RUNNING_STATE } with
    | (w1, some err) => (w1, (none, some err))
    | (w1, none) =>
      match m.SetTracepointTTL w1 tpID ttl with
      | (w2, some err) => (w2, (none, some err))
      | (w2, none) =>
        match m.SetTracepointWithName w2 tracepointName tpID with
        | (w3, some err) => (w3, (none, some err))
        | (w3, none) => (w3, (some tpID, none))

/-- Lines 195-236 of `CreateTracepoint`, for a name that is bound to `prevTracepointID`. -/
def createOverPrevious {S M : Type} (m : Manager S M) (newV4 : Except GoError UUID)
    (tracepointName : String) (tracepointDeployment : TracepointDeployment) (ttl : Int)
    (prevTracepointID : UUID) (w : World S M) : World S M × (Option UUID × Option GoError) :=
  match m.GetTracepoint w prevTracepointID with
  | (w1, Except.error err) => (w1, (none, some err))
  | (w1, Except.ok none) => createFresh m newV4 tracepointName tracepointDeployment ttl w1
  | (w1, Except.ok (some prevTracepoint)) =>
    if prevTracepoint.ExpectedState ≠ LifeCycleState.TERMINATED_STATE then
      if allTpsSame prevTracepoint.Tracepoint.Programs tracepointDeployment.Programs then
        match m.SetTracepointTTL w1 prevTracepointID ttl with
        | (w2, some err) => (w2, (none, some err))
        | (w2, none) => (w2, (some prevTracepointID, some ErrTracepointAlreadyExists))
      else
        match m.DeleteTracepointTTLs w1 [prevTracepointID] with
        | (w2, some err) => (w2, (none, some err))
        | (w2, none) => createFresh m newV4 tracepointName tracepointDeployment ttl w2
    else createFresh m newV4 tracepointName tracepointDeployment ttl w1

/-- `CreateTracepoint`. The result pairs the world afterwards with the Go result
`(*uuid.UUID, error)`. -/
def CreateTracepoint {S M : Type} (m : Manager S M) (newV4 : Except GoError UUID)
    (tracepointName : String) (tracepointDeployment : TracepointDeployment) (ttl : Int)
    (w : World S M) : World S M × (Option UUID × Option GoError) :=
  match m.GetTracepointsWithNames w [tracepointName] with
  | (w1, Except.error err) => (w1, (none, some err))
  | (w1, Except.ok resp) =>
    match resp with
    | [prevTracepointID] =>
      match prevTracepointID with
      | some prev =>
        createOverPrevious m newV4 tracepointName tracepointDeployment ttl prev w1
      | none => createFresh m newV4 tracepointName tracepointDeployment ttl w1
    | _ => (w1, (none, some (GoError.text "Could not fetch tracepoint")))

/-! ## `terminateTracepoint` and the reaper pass -/

/-- The call `m.ts.GetTracepoints()`. -/
def Manager.GetTracepoints {S M : Type} (m : Manager S M) (w : World S M) :
    World S M × Except GoError (List TracepointInfo) :=
  (w.afterStore Call.GetTracepoints (errorOf (m.ts.GetTracepoints w.store).2)
      (m.ts.GetTracepoints w.store).1,
    (m.ts.GetTracepoints w.store).2)

/-- The call `m.ts.GetTracepointTTLs()`. -/
def Manager.GetTracepointTTLs {S M : Type} (m : Manager S M) (w : World S M) :
    World S M × Except GoError (List UUID × List Int) :=
  (w.afterStore Call.GetTracepointTTLs (errorOf (m.ts.GetTracepointTTLs w.store).2)
      (m.ts.GetTracepointTTLs w.store).1,
    (m.ts.GetTracepointTTLs w.store).2)

/-- The call `m.agtMgr.MessageActiveAgents(msg)`. -/
def Manager.MessageActiveAgents {S M : Type} (m : Manager S M) (w : World S M)
    (msg : VizierMessage) : World S M × Option GoError :=
  (w.afterMessenger (Call.MessageActiveAgents msg)
      (m.agtMgr.MessageActiveAgents w.messenger msg).2
      (m.agtMgr.MessageActiveAgents w.messenger msg).1,
    (m.agtMgr.MessageActiveAgents w.messenger msg).2)

/-- `terminateTracepoint`. -/
def terminateTracepoint {S M : Type} (m : Manager S M) (id : UUID) (w : World S M) :
    World S M × Option GoError :=
  match m.GetTracepoint w id with
  | (w1, Except.error err) => (w1, some err)
  | (w1, Except.ok none) => (w1, none)
  | (w1, Except.ok (some tp)) =>
    match m.UpsertTracepoint w1 id
        { tp with ExpectedState := LifeCycleState.TERMINATED_STATE } with
    | (w2, some err) => (w2, some err)
    | (w2, none) =>
      m.MessageActiveAgents w2 (VizierMessage.RemoveTracepointRequest (ProtoFromUUID id))

/-- The first loop of `terminateExpiredTracepoints` (lines 119-122): the map
`tpActive`, filled from the two TTL arrays index by index. Reading `ttlVals[i]` past
the end of `ttlVals` faults (`none`). -/
def activeLoop (now : Int) : List UUID → List Int → List (UUID × Bool) →
    Option (List (UUID × Bool))
  | [], _, tpActive => some tpActive
  | _ :: _, [], _ => none
  | tp :: ttlKeys, expiry :: ttlVals, tpActive =>
    activeLoop now ttlKeys ttlVals (assocSet tp (decide (expiry > now)) tpActive)

/-- The second loop of `terminateExpiredTracepoints` (lines 124-138), over the listed
deployments. An error of `terminateTracepoint` is logged and the loop goes on. -/
def reapLoop {S M : Type} (m : Manager S M) (tpActive : List (UUID × Bool)) :
    List TracepointInfo → World S M → World S M
  | [], w => w
  | tp :: tps, w =>
    if (assocGet (UUIDFromProtoOrNil tp.ID) tpActive).getD false = true then
      reapLoop m tpActive tps w
    else if tp.ExpectedState = LifeCycleState.TERMINATED_STATE then
      reapLoop m tpActive tps w
    else
      reapLoop m tpActive tps (terminateTracepoint m (UUIDFromProtoOrNil tp.ID) w).1

/-- `terminateExpiredTracepoints`, one reaper pass. The parameter `now` is the value of
`time.Now()`; the result is `none` when the first loop faults. Log output is not part
of the world. -/
def terminateExpiredTracepoints {S M : Type} (m : Manager S M) (now : Int) (w : World S M) :
    Option (World S M) :=
  match m.GetTracepoints w with
  | (w1, Except.error _) => some w1
  | (w1, Except.ok tps) =>
    match m.GetTracepointTTLs w1 with
    | (w2, Except.error _) => some w2
    | (w2, Except.ok (ttlKeys, ttlVals)) =>
      match activeLoop now ttlKeys ttlVals [] with
      | none => none
      | some tpActive => some (reapLoop m tpActive tps w2)

/-! ## `UpdateAgentTracepointStatus` -/

/-- The call `m.ts.GetTracepointStates(id)`, made through `m.GetTracepointStates`. -/
def Manager.GetTracepointStates {S M : Type} (m : Manager S M) (w : World S M) (id : UUID) :
    World S M × Except GoError (List AgentTracepointStatus) :=
  (w.afterStore (Call.GetTracepointStates id) (errorOf (m.ts.GetTracepointStates w.store id).2)
      (m.ts.GetTracepointStates w.store id).1,
    (m.ts.GetTracepointStates w.store id).2)

/-- The call `m.ts.UpdateTracepointState(status)`. -/
def Manager.UpdateTracepointState {S M : Type} (m : Manager S M) (w : World S M)
    (status : AgentTracepointStatus) : World S M × Option GoError :=
  (w.afterStore (Call.UpdateTracepointState status)
      (m.ts.UpdateTracepointState w.store status).2
      (m.ts.UpdateTracepointState w.store status).1,
    (m.ts.UpdateTracepointState w.store status).2)

/-- The call `m.ts.DeleteTracepoint(id)`, made through `m.deleteTracepoint`. -/
def Manager.deleteTracepoint {S M : Type} (m : Manager S M) (w : World S M) (id : UUID) :
    World S M × Option GoError :=
  (w.afterStore (Call.DeleteTracepoint id) (m.ts.DeleteTracepoint w.store id).2
      (m.ts.DeleteTracepoint w.store id).1,
    (m.ts.DeleteTracepoint w.store id).2)

/-- The flag `allTerminated` of `UpdateAgentTracepointStatus` (lines 276-282): a status
that is not terminated and belongs to another agent ends the loop with `false`.
`Equal` on two id messages is structural equality, `nil` being equal to `nil` only. -/
def allTerminated (agentID : Option UUIDpb) : List AgentTracepointStatus → Bool
  | [] => true
  | s :: states =>
    if s.State ≠ LifeCycleState.TERMINATED_STATE ∧ ¬ (s.AgentID = agentID) then false
    else allTerminated agentID states

/-- `UpdateAgentTracepointStatus`. -/
def UpdateAgentTracepointStatus {S M : Type} (m : Manager S M)
    (tracepointID agentID : Option UUIDpb) (state : LifeCycleState) (status : Option Nat)
    (w : World S M) : World S M × Option GoError :=
  if state = LifeCycleState.TERMINATED_STATE then
    match m.GetTracepointStates w (UUIDFromProtoOrNil tracepointID) with
    | (w1, Except.error err) => (w1, some err)
    | (w1, Except.ok states) =>
      if allTerminated agentID states = true then
        m.deleteTracepoint w1 (UUIDFromProtoOrNil tracepointID)
      else
        m.UpdateTracepointState w1
          { State := state, Status := status, ID := tracepointID, AgentID := agentID }
  else
    m.UpdateTracepointState w
      { State := state, Status := status, ID := tracepointID, AgentID := agentID }

/-! ## `RemoveTracepoints` -/

/-- The loop of `RemoveTracepoints` (lines 441-446) over the looked-up ids, `names`
being the names from the current index on. A missing id ends the loop with the error
naming `names[i]`; reading `names[i]` past the end of `names` faults (`none`). -/
def collectLoop : List (Option UUID) → List String → Option (Except GoError (List UUID))
  | [], _ => some (Except.ok [])
  | none :: _, [] => none
  | none :: _, name :: _ =>
    some (Except.error
      (GoError.text ("Could not find tracepoint for given name: " ++ name)))
  | some id :: tpIDs, names =>
    match collectLoop tpIDs names.tail with
    | none => none
    | some (Except.error err) => some (Except.error err)
    | some (Except.ok ids) => some (Except.ok (id :: ids))

/-- `RemoveTracepoints`; the result is `none` when the loop faults. -/
def RemoveTracepoints {S M : Type} (m : Manager S M) (names : List String) (w : World S M) :
    Option (World S M × Option GoError) :=
  match m.GetTracepointsWithNames w names with
  | (w1, Except.error err) => some (w1, some err)
  | (w1, Except.ok tpIDs) =>
    match collectLoop tpIDs names with
    | none => none
    | some (Except.error err) => some (w1, some err)
    | some (Except.ok ids) => some (m.DeleteTracepointTTLs w1 ids)

/-! ## A reference store and messenger -/

/-- Modelled from the spec: the store behind the `Store` interface (section 4.1 of the
specification), whose implementation is not among the sources. Deployment records by
id, the name index, the TTL index with absolute expiries, the per-agent statuses, and
the clock the store reads when a TTL is set. -/
structure MemStore where
  now : Int
  deployments : List (UUID × TracepointInfo)
  names : List (String × UUID)
  ttls : List (UUID × Int)
  statuses : List AgentTracepointStatus
deriving DecidableEq, Repr

/-- Modelled from the spec: the operations of section 4.1 on `MemStore`, none of which
fails. Upsert is write-or-replace; a status is keyed by (tracepoint id, agent id) and
the last writer wins; name lookup answers in input order; setting a TTL stores the
absolute expiry `now + duration`; deleting TTLs removes the entries. -/
def memStore : Store MemStore where
  UpsertTracepoint := fun s id info =>
    ({ s with deployments := assocSet id info s.deployments }, none)
  GetTracepoint := fun s id => (s, Except.ok (assocGet id s.deployments))
  GetTracepoints := fun s => (s, Except.ok (s.deployments.map (fun e => e.2)))
  UpdateTracepointState := fun s status =>
    ({ s with statuses :=
        (s.statuses.filter (fun old =>
          !(decide (old.ID = status.ID) && decide (old.AgentID = status.AgentID))))
          ++ [status] }, none)
  GetTracepointStates := fun s id =>
    (s, Except.ok (s.statuses.filter (fun st => decide (UUIDFromProtoOrNil st.ID = id))))
  SetTracepointWithName := fun s name id => ({ s with names := assocSet name id s.names }, none)
  GetTracepointsWithNames := fun s names =>
    (s, Except.ok (names.map (fun name => assocGet name s.names)))
  GetTracepointsForIDs := fun s ids =>
    (s, Except.ok (ids.map (fun id => assocGet id s.deployments)))
  SetTracepointTTL := fun s id ttl => ({ s with ttls := assocSet id (s.now + ttl) s.ttls }, none)
  DeleteTracepointTTLs := fun s ids =>
    ({ s with ttls := s.ttls.filter (fun e => !(ids.contains e.1)) }, none)
  DeleteTracepoint := fun s id => ({ s with deployments := assocErase id s.deployments }, none)
  DeleteTracepointsForAgent := fun s agentID =>
    ({ s with statuses :=
        s.statuses.filter (fun st => !(decide (UUIDFromProtoOrNil st.AgentID = agentID))) }, none)
  GetTracepointTTLs := fun s =>
    (s, Except.ok (s.ttls.map (fun e => e.1), s.ttls.map (fun e => e.2)))

/-- The world after `elapsed` units of time have passed on the clock of the reference store. -/
def elapse {M : Type} (elapsed : Int) (w : World MemStore M) : World MemStore M :=
  { w with store := { w.store with now := w.store.now + elapsed } }

/-- One `CreateTracepoint` call of a series: the time that passes before it, its `ttl`
argument, and what `uuid.NewV4()` would return during it. -/
structure CreateCall where
  elapsed : Int
  ttl : Int
  newV4 : Except GoError UUID

/-- Consecutive `CreateTracepoint` calls with one name and one deployment over the
reference store; the results are listed oldest first. -/
def createRepeatedly {M : Type} (m : Manager MemStore M) (tracepointName : String)
    (tracepointDeployment : TracepointDeployment) :
    List CreateCall → World MemStore M →
      World MemStore M × List (Option UUID × Option GoError)
  | [], w => (w, [])
  | c :: rest, w =>
    ((createRepeatedly m tracepointName tracepointDeployment rest
        (CreateTracepoint m c.newV4 tracepointName tracepointDeployment c.ttl
          (elapse c.elapsed w)).1).1,
      (CreateTracepoint m c.newV4 tracepointName tracepointDeployment c.ttl
          (elapse c.elapsed w)).2 ::
        (createRepeatedly m tracepointName tracepointDeployment rest
          (CreateTracepoint m c.newV4 tracepointName tracepointDeployment c.ttl
            (elapse c.elapsed w)).1).2)

/-- The wording of the specification for "the stored program list equals the incoming
one": the two lists have the same length and, index by index, the incoming entry is
`nil` or `proto.Equal` to the stored entry. -/
def SamePrograms (prev incoming : List (Option TracepointProgram)) : Prop :=
  List.Forall₂ (fun p n => n = none ∨ protoEqual n p = true) prev incoming

/-- The record `CreateTracepoint` stores for a new id. -/
def runningInfo (tpID : UUID) (tracepointName : String)
    (tracepointDeployment : TracepointDeployment) : TracepointInfo :=
  { ID := some (ProtoFromUUID tpID),
    Tracepoint := tracepointDeployment,
    Name := tracepointName,
    ExpectedState := LifeCycleState.RUNNING_STATE }

/-- A trace entry of a call that returned `nil`. -/
def returnedNil (c : Call) : Event := { call := c, err := none }

/-- A messenger whose state is the number of calls it still accepts: a call made at
`0` returns an error, any other call succeeds. -/
def countdownMessenger : AgentMessenger Nat where
  MessageAgents := fun n _ _ =>
    match n with
    | 0 => (0, some (GoError.external 1))
    | k + 1 => (k, none)
  MessageActiveAgents := fun n _ =>
    match n with
    | 0 => (0, some (GoError.external 2))
    | k + 1 => (k, none)

/-- A messenger without state that accepts every call. -/
def reliableMessenger : AgentMessenger Unit where
  MessageAgents := fun _ _ _ => ((), none)
  MessageActiveAgents := fun _ _ => ((), none)

/-! ## Sequences of manager operations over the reference store -/

/-- One step in the life of a manager over the reference store: a call of one of its
operations, or time passing. -/
inductive ManagerOp where
  | create (newV4 : Except GoError UUID) (name : String) (d : TracepointDeployment) (ttl : Int)
  | remove (names : List String)
  | update (tracepointID agentID : Option UUIDpb) (state : LifeCycleState)
      (status : Option Nat)
  | terminate (id : UUID)
  | reap (now : Int)
  | wait (elapsed : Int)

/-- The world after one step; `none` when the operation faults. -/
def applyOp {M : Type} (m : Manager MemStore M) (op : ManagerOp) (w : World MemStore M) :
    Option (World MemStore M) :=
  match op with
  | ManagerOp.create newV4 name d ttl => some (CreateTracepoint m newV4 name d ttl w).1
  | ManagerOp.remove names => (RemoveTracepoints m names w).map (fun r => r.1)
  | ManagerOp.update tracepointID agentID state status =>
    some (UpdateAgentTracepointStatus m tracepointID agentID state status w).1
  | ManagerOp.terminate id => some (terminateTracepoint m id w).1
  | ManagerOp.reap now => terminateExpiredTracepoints m now w
  | ManagerOp.wait elapsed => some (elapse elapsed w)

/-- The world after a sequence of steps. -/
def applyOps {M : Type} (m : Manager MemStore M) :
    List ManagerOp → World MemStore M → Option (World MemStore M)
  | [], w => some w
  | op :: ops, w =>
    match applyOp m op w with
    | none => none
    | some w1 => applyOps m ops w1

/-- A step that is a `CreateTracepoint` during which `uuid.NewV4()` returns `id`. -/
def mintsID (id : UUID) (op : ManagerOp) : Prop :=
  ∃ name d ttl, op = ManagerOp.create (Except.ok id) name d ttl

/-- Consecutive `UpdateAgentTracepointStatus` calls for one tracepoint, each reporting
TERMINATED for one agent with its status detail. -/
def reportTerminated {S M : Type} (m : Manager S M) (tracepointID : Option UUIDpb) :
    List (Option UUIDpb × Option Nat) → World S M → World S M
  | [], w => w
  | report :: reports, w =>
    reportTerminated m tracepointID reports
      (UpdateAgentTracepointStatus m tracepointID report.1
        LifeCycleState.TERMINATED_STATE report.2 w).1

/-! ## Notions used in the statements -/

/-- The agents a program is valid for: its selectors applied to the input list. -/
def validAgents (agents : List Agent) (prgm : TracepointProgram) : List Agent :=
  applySelectors agents prgm.Selectors

/-- The map key `RegisterTracepoint` computes for a program. -/
def groupKey {K : Type} (HashUUIDs : List UUID → K) (agents : List Agent)
    (prgm : TracepointProgram) : K :=
  HashUUIDs (agentIDsOf (validAgents agents prgm))

/-- The trace entry of a successful `MessageAgents` call that sends the programs
`programs` to the agents `targets`. -/
def registerSent (tracepointID : UUID) (tracepointDeployment : TracepointDeployment)
    (targets : List Agent) (programs : List TracepointProgram) : Event :=
  { call := Call.MessageAgents (agentIDsOf targets)
      (registerRequest tracepointID tracepointDeployment programs),
    err := none }

/-- The state of the two maps of `RegisterTracepoint` once the first loop has gone
through the programs `done`: each key holds the programs of `done` with that key, in
order, and the valid agents of the last of them. -/
def PlanInv {K : Type} [DecidableEq K] (HashUUIDs : List UUID → K) (agents : List Agent)
    (done : List TracepointProgram) (maps : FanOut K) : Prop :=
  (∀ h, (assocGet h maps.agentsHashToPrograms).getD [] =
      done.filter (fun p => decide (groupKey HashUUIDs agents p = h))) ∧
  (maps.agentsHashToAgents.map Prod.fst).Nodup ∧
  (∀ h, assocGet h maps.agentsHashToAgents =
      ((done.filter (fun p => decide (groupKey HashUUIDs agents p = h))).getLast?).map
        (validAgents agents))

/-- The call the second loop of `RegisterTracepoint` makes for one map entry. -/
def sendCall {K : Type} [DecidableEq K] (tracepointID : UUID)
    (tracepointDeployment : TracepointDeployment)
    (agentsHashToPrograms : List (K × List TracepointProgram)) (entry : K × List Agent) : Call :=
  Call.MessageAgents (agentIDsOf entry.2)
    (registerRequest tracepointID tracepointDeployment
      ((assocGet entry.1 agentsHashToPrograms).getD []))

/-- A run of calls that stops at its first error: either every call returned `nil` and
so does the operation, or the last call made returned an error, every call before it
returned `nil`, and the operation returns that error. -/
def StopsAtFirstError (events : List Event) (result : Option GoError) : Prop :=
  (result = none ∧ ∀ e ∈ events, e.err = none) ∨
  (∃ earlier last err, events = earlier ++ [last] ∧ (∀ e ∈ earlier, e.err = none) ∧
    last.err = some err ∧ result = some err)

/-- The TTL entry of `id` in two parallel TTL arrays: the expiry of the last pair
listed for `id`, if there is one. -/
def ttlEntry (id : UUID) : List UUID → List Int → Option Int
  | k :: ttlKeys, expiry :: ttlVals =>
    match ttlEntry id ttlKeys ttlVals with
    | some later => some later
    | none => if k = id then some expiry else none
  | _, _ => none

/-- The wording of the specification for a listed deployment that is due for
termination at time `now`: its expected state is not TERMINATED, and its id has no
TTL entry or an expiry that is not strictly after `now`. -/
def dueForTermination (now : Int) (ttlKeys : List UUID) (ttlVals : List Int)
    (tp : TracepointInfo) : Bool :=
  decide (tp.ExpectedState ≠ LifeCycleState.TERMINATED_STATE) &&
    (match ttlEntry (UUIDFromProtoOrNil tp.ID) ttlKeys ttlVals with
     | none => true
     | some expiry => decide (expiry ≤ now))

/-- The ids a reaper pass at time `now` is to terminate, in listing order. -/
def dueIDs (now : Int) (ttlKeys : List UUID) (ttlVals : List Int)
    (tps : List TracepointInfo) : List UUID :=
  (tps.filter (dueForTermination now ttlKeys ttlVals)).map
    (fun tp => UUIDFromProtoOrNil tp.ID)

/-- Consecutive `terminateTracepoint` invocations, one per id, whatever each returns. -/
def runTerminations {S M : Type} (m : Manager S M) : List UUID → World S M → World S M
  | [], w => w
  | id :: ids, w => runTerminations m ids (terminateTracepoint m id w).1

/-- The trace entry of the broadcast `terminateTracepoint` makes for `id`, with the
error the messenger returned. -/
def removeBroadcast (id : UUID) (err : Option GoError) : Event :=
  { call := Call.MessageActiveAgents (VizierMessage.RemoveTracepointRequest (ProtoFromUUID id)),
    err := err }

/-- The record `terminateTracepoint` writes back: the record read, with the expected
state TERMINATED. -/
def markTerminated (tp : TracepointInfo) : TracepointInfo :=
  { tp with ExpectedState := LifeCycleState.TERMINATED_STATE }

/-- The store holds no record for `id` that is not TERMINATED: it holds none, or one
whose expected state is TERMINATED. -/
def AbsentOrTerminated (id : UUID) (s : MemStore) : Prop :=
  ∀ tp, assocGet id s.deployments = some tp →
    tp.ExpectedState = LifeCycleState.TERMINATED_STATE

/-- The statuses the reference store holds for a tracepoint while the agents `pending`
have yet to report TERMINATED: every status of the tracepoint either belongs to a
pending agent, is not TERMINATED and carries the wire id `tracepointID`, or belongs
to another agent and is TERMINATED; and every pending agent has a status. -/
def AwaitingReports (tracepointID : Option UUIDpb) (pending : List (Option UUIDpb))
    (s : MemStore) : Prop :=
  (∀ st ∈ s.statuses, UUIDFromProtoOrNil st.ID = UUIDFromProtoOrNil tracepointID →
    (st.AgentID ∈ pending ∧ st.State ≠ LifeCycleState.TERMINATED_STATE ∧
        st.ID = tracepointID) ∨
      (st.AgentID ∉ pending ∧ st.State = LifeCycleState.TERMINATED_STATE)) ∧
  (∀ a ∈ pending, ∃ st ∈ s.statuses,
    UUIDFromProtoOrNil st.ID = UUIDFromProtoOrNil tracepointID ∧ st.AgentID = a)

/-- The two trace entries of an `UpdateAgentTracepointStatus` call that writes the
TERMINATED status of one agent. -/
def writeEvents (tracepointID : Option UUIDpb) (report : Option UUIDpb × Option Nat) :
    List Event :=
  [returnedNil (Call.GetTracepointStates (UUIDFromProtoOrNil tracepointID)),
   returnedNil (Call.UpdateTracepointState
     { State := LifeCycleState.TERMINATED_STATE, Status := report.2, ID := tracepointID,
       AgentID := report.1 })]

/-- Whether a trace entry is a `DeleteTracepoint` call. -/
def isDeleteCall (e : Event) : Bool :=
  match e.call with
  | Call.DeleteTracepoint _ => true
  | _ => false

/-- What one selector asks of one agent, independently of the list the agent sits in:
the test of the kernel filters when the value scans, nothing passes when it does not,
everything passes for the other kinds. -/
def selectorKeeps (selector : TracepointSelector) (agent : Agent) : Bool :=
  match selector.SelectorType with
  | SelectorType.MIN_KERNEL =>
    match Sscanf selector.Value with
    | none => false
    | some (major, minor, patch) =>
      decide (versionTriple major minor patch ≤ kernelTriple agent)
  | SelectorType.MAX_KERNEL =>
    match Sscanf selector.Value with
    | none => false
    | some (major, minor, patch) =>
      decide (kernelTriple agent ≤ versionTriple major minor patch)
  | _ => true

/-- The pieces of a rune list between its dots. -/
def splitDots : List Char → List (List Char)
  | [] => [[]]
  | r :: rest =>
    if r = '.' then [] :: splitDots rest
    else
      match splitDots rest with
      | [] => [[r]]
      | piece :: pieces => (r :: piece) :: pieces

/-- The wording of the specification, "three decimal integers separated by dots":
exactly three pieces between dots, each a non-empty run of decimal digits. -/
def isDottedTriple (value : String) : Bool :=
  match splitDots value.toList with
  | [a, b, c] =>
    (!a.isEmpty && a.all Char.isDigit) && (!b.isEmpty && b.all Char.isDigit)
      && (!c.isEmpty && c.all Char.isDigit)
  | _ => false

/-! ## Sample data (scenarios of the specification) -/

/-- An agent with the given id halves and kernel version. -/
def mkAgent (high low : Nat) (major minor patch : Int) : Agent :=
  { Info := { AgentID := some { HighBits := high, LowBits := low },
              HostInfo := { Kernel := { Major := major, Minor := minor, Patch := patch } } } }

/-- Agent A, on kernel 5.10. -/
def agentA : Agent := mkAgent 1 1 5 10 0

/-- Agent B, on kernel 5.10. -/
def agentB : Agent := mkAgent 1 2 5 10 0

/-- Agent C, on kernel 6.1. -/
def agentC : Agent := mkAgent 1 3 6 1 0

/-- A selector of the given kind and value. -/
def mkSelector (kind : SelectorType) (value : String) : TracepointSelector :=
  { SelectorType := kind, Value := value }

/-- A program with the given table name and selectors. -/
def mkProgram (table : String) (selectors : List TracepointSelector) : TracepointProgram :=
  { TableName := table, Spec := 0, Selectors := selectors }

/-- The program of scenario 4 that asks for kernel 5.4 or later. -/
def programMin54 : TracepointProgram :=
  mkProgram "min54" [mkSelector SelectorType.MIN_KERNEL "5.4.0"]

/-- The program of scenario 4 that asks for kernel 6.0 or later. -/
def programMin60 : TracepointProgram :=
  mkProgram "min60" [mkSelector SelectorType.MIN_KERNEL "6.0.0"]

/-- A program that asks for kernel 5.10 or earlier. -/
def programMax510 : TracepointProgram :=
  mkProgram "max510" [mkSelector SelectorType.MAX_KERNEL "5.10.0"]

/-- A deployment with the given programs. -/
def mkDeployment (name : String) (programs : List (Option TracepointProgram)) :
    TracepointDeployment :=
  { Name := name, TTL := 600, DeploymentSpec := 0, Programs := programs }

/-- A manager over the reference store and the messenger that accepts every call. -/
def reliableManager : Manager MemStore Unit :=
  { ts := memStore, agtMgr := reliableMessenger }

/-- A manager over the reference store and the messenger that fails once its count is used up. -/
def countdownManager : Manager MemStore Nat :=
  { ts := memStore, agtMgr := countdownMessenger }

/-- The empty reference store at time `now`. -/
def emptyStore (now : Int) : MemStore :=
  { now := now, deployments := [], names := [], ttls := [], statuses := [] }

/-- A world with an empty store, the given messenger state and no call made yet. -/
def freshWorld {M : Type} (messenger : M) : World MemStore M :=
  { store := emptyStore 0, messenger := messenger, trace := [] }

/-- An agent whose id has a zero high half, on kernel 5.10. -/
def agentX : Agent := mkAgent 0 1 5 10 0

/-- An agent whose id has a zero high half, on kernel 6.1. -/
def agentY : Agent := mkAgent 0 2 6 1 0

/-- The id of Create scenarios: both halves of its wire form are non-zero. -/
def idU : UUID := 2 ^ 64 + 1

/-- A second id with two non-zero halves. -/
def idV : UUID := 2 ^ 64 + 2

/-- The wire form of agent A's id. -/
def wireA : Option UUIDpb := some { HighBits := 1, LowBits := 1 }

/-- The wire form of agent B's id. -/
def wireB : Option UUIDpb := some { HighBits := 1, LowBits := 2 }

/-- A record for `id` with one program, in the given state. -/
def sampleInfo (id : UUID) (state : LifeCycleState) : TracepointInfo :=
  { ID := some (ProtoFromUUID id),
    Tracepoint := mkDeployment "http-latency" [some programMin54],
    Name := "http-latency",
    ExpectedState := state }

/-- A world over the reference store at time 0 that holds one record for `idU` in the
given state, bound to the name "http-latency", with the given TTL entries and statuses. -/
def sampleWorld {M : Type} (messenger : M) (state : LifeCycleState) (ttls : List (UUID × Int))
    (statuses : List AgentTracepointStatus) : World MemStore M :=
  { store := { now := 0, deployments := [(idU, sampleInfo idU state)],
               names := [("http-latency", idU)], ttls := ttls, statuses := statuses },
    messenger := messenger, trace := [] }

/-- The wire form of `idU`, as agents report it. -/
def wireU : Option UUIDpb := some (ProtoFromUUID idU)

/-- The status of an agent for the tracepoint `idU`. -/
def statusOf (agentID : Option UUIDpb) (state : LifeCycleState) : AgentTracepointStatus :=
  { State := state, Status := none, ID := wireU, AgentID := agentID }

/-- A store over the state of the reference store whose status listing fails; every
other call is that of the reference store. -/
def listingFailsStore : Store MemStore :=
  { memStore with
    GetTracepointStates := fun s _ => (s, Except.error (GoError.external 3)) }

/-- The world a reaper pass is in once both listings have returned: the store as the
two listing calls left it, and the two calls on the trace. -/
def afterListings {S M : Type} (m : Manager S M) (w : World S M) : World S M :=
  { store := (m.ts.GetTracepointTTLs (m.ts.GetTracepoints w.store).1).1,
    messenger := w.messenger,
    trace := w.trace ++ [returnedNil Call.GetTracepoints, returnedNil Call.GetTracepointTTLs] }

/-- A store over the state of the reference store whose `GetTracepoint` and
`UpsertTracepoint` fail for the ids the two tables give an error for, leaving the
state as it is; every other call is that of the reference store. -/
def faultyStore (getFails upsertFails : UUID → Option GoError) : Store MemStore :=
  { memStore with
    GetTracepoint := fun s id =>
      match getFails id with
      | some err => (s, Except.error err)
      | none => memStore.GetTracepoint s id
    UpsertTracepoint := fun s id info =>
      match upsertFails id with
      | some err => (s, some err)
      | none => memStore.UpsertTracepoint s id info }

/-- The fault table that gives the error `err` for the id `bad` and none for any
other id. -/
def failsFor (bad : UUID) (err : GoError) (id : UUID) : Option GoError :=
  if id = bad then some err else none

/-- The fault table without faults. -/
def neverFails (_ : UUID) : Option GoError := none

/-- A world over the reference store at time 0 that holds running records for `idU`
and `idV`, in this order, and no TTL entry. -/
def twoRecordsWorld {M : Type} (messenger : M) : World MemStore M :=
  { store := { now := 0,
               deployments := [(idU, sampleInfo idU LifeCycleState.RUNNING_STATE),
                               (idV, sampleInfo idV LifeCycleState.RUNNING_STATE)],
               names := [], ttls := [], statuses := [] },
    messenger := messenger, trace := [] }

/-- A store over the state of the reference store whose listing of the deployments
fails; every other call is that of the reference store. -/
def deploymentListingFailsStore : Store MemStore :=
  { memStore with
    GetTracepoints := fun s => (s, Except.error (GoError.external 6)) }

/-! # Theorems -/

/-! ## Selector evaluation -/

theorem geFormula_iff (M m p major minor patch : Int) :
    (decide (M > major) || (decide (M = major) && decide (m > minor))
        || (decide (M = major) && decide (m = minor) && decide (p ≥ patch))) = true
      ↔ versionTriple major minor patch ≤ toLex (M, toLex (m, p)) := by
  simp only [versionTriple, Prod.Lex.le_iff, Bool.or_eq_true, Bool.and_eq_true,
    decide_eq_true_eq, ofLex_toLex]
  omega

theorem leFormula_iff (M m p major minor patch : Int) :
    (decide (M < major) || (decide (M = major) && decide (m < minor))
        || (decide (M = major) && decide (m = minor) && decide (p ≤ patch))) = true
      ↔ (toLex (M, toLex (m, p)) : ℤ ×ₗ ℤ ×ₗ ℤ) ≤ versionTriple major minor patch := by
  simp only [versionTriple, Prod.Lex.le_iff, Bool.or_eq_true, Bool.and_eq_true,
    decide_eq_true_eq, ofLex_toLex]
  omega

theorem filterByMinKernel_eq_filter (agents : List Agent) (version : String)
    (major minor patch : Int) (hparse : Sscanf version = some (major, minor, patch)) :
    filterByMinKernel agents version =
      agents.filter (fun agent => decide (versionTriple major minor patch ≤ kernelTriple agent)) := by
  unfold filterByMinKernel
  rw [hparse]
  refine List.filter_congr ?_
  intro agent _
  rw [Bool.eq_iff_iff, decide_eq_true_eq]
  exact geFormula_iff _ _ _ _ _ _

theorem filterByMaxKernel_eq_filter (agents : List Agent) (version : String)
    (major minor patch : Int) (hparse : Sscanf version = some (major, minor, patch)) :
    filterByMaxKernel agents version =
      agents.filter (fun agent => decide (kernelTriple agent ≤ versionTriple major minor patch)) := by
  unfold filterByMaxKernel
  rw [hparse]
  refine List.filter_congr ?_
  intro agent _
  rw [Bool.eq_iff_iff, decide_eq_true_eq]
  exact leFormula_iff _ _ _ _ _ _

theorem filterAgentsBySelector_eq_filter (agents : List Agent) (selector : TracepointSelector) :
    FilterAgentsBySelector agents selector = agents.filter (selectorKeeps selector) := by
  unfold FilterAgentsBySelector
  cases hk : selector.SelectorType with
  | NO_CONDITION =>
    have hfun : selectorKeeps selector = fun _ => true := by
      funext agent; simp [selectorKeeps, hk]
    simp [hfun]
  | other tag =>
    have hfun : selectorKeeps selector = fun _ => true := by
      funext agent; simp [selectorKeeps, hk]
    simp [hfun]
  | MIN_KERNEL =>
    cases hp : Sscanf selector.Value with
    | none =>
      have hfun : selectorKeeps selector = fun _ => false := by
        funext agent; simp [selectorKeeps, hk, hp]
      simp [filterByMinKernel, hfun, hp]
    | some t =>
      obtain ⟨major, minor, patch⟩ := t
      have hfun : selectorKeeps selector =
          fun agent => decide (versionTriple major minor patch ≤ kernelTriple agent) := by
        funext agent; simp [selectorKeeps, hk, hp]
      simp only [hfun]
      exact filterByMinKernel_eq_filter agents _ major minor patch hp
  | MAX_KERNEL =>
    cases hp : Sscanf selector.Value with
    | none =>
      have hfun : selectorKeeps selector = fun _ => false := by
        funext agent; simp [selectorKeeps, hk, hp]
      simp [filterByMaxKernel, hfun, hp]
    | some t =>
      obtain ⟨major, minor, patch⟩ := t
      have hfun : selectorKeeps selector =
          fun agent => decide (kernelTriple agent ≤ versionTriple major minor patch) := by
        funext agent; simp [selectorKeeps, hk, hp]
      simp only [hfun]
      exact filterByMaxKernel_eq_filter agents _ major minor patch hp

theorem applySelectors_eq_filter (selectors : List TracepointSelector) :
    ∀ agents : List Agent, applySelectors agents selectors =
      agents.filter (fun agent => selectors.all (fun selector => selectorKeeps selector agent)) := by
  induction selectors with
  | nil => intro agents; simp [applySelectors]
  | cons selector rest ih =>
    intro agents
    have step : applySelectors agents (selector :: rest) =
        applySelectors (FilterAgentsBySelector agents selector) rest := rfl
    rw [step, ih, filterAgentsBySelector_eq_filter, List.filter_filter]
    refine List.filter_congr ?_
    intro agent _
    simp [Bool.and_comm]

theorem mem_filterAgentsBySelector (agents : List Agent) (selector : TracepointSelector)
    (agent : Agent) :
    agent ∈ FilterAgentsBySelector agents selector ↔
      agent ∈ agents ∧ selectorKeeps selector agent = true := by
  rw [filterAgentsBySelector_eq_filter, List.mem_filter]

/-- C1: for a value that scans to (major, minor, patch), the MIN_KERNEL selector is
evaluated by `filterByMinKernel`, and the result is the input list restricted to the
agents whose kernel triple is lexicographically at least (major, minor, patch): those
agents, in their input order, and no others. -/
theorem minKernel_retains_exactly (agents : List Agent) (selector : TracepointSelector)
    (major minor patch : Int)
    (hkind : selector.SelectorType = SelectorType.MIN_KERNEL)
    (hparse : Sscanf selector.Value = some (major, minor, patch)) :
    FilterAgentsBySelector agents selector = filterByMinKernel agents selector.Value ∧
    filterByMinKernel agents selector.Value =
      agents.filter (fun agent => decide (versionTriple major minor patch ≤ kernelTriple agent)) ∧
    ∀ agent, agent ∈ FilterAgentsBySelector agents selector ↔
      agent ∈ agents ∧ versionTriple major minor patch ≤ kernelTriple agent := by
  have hsel : FilterAgentsBySelector agents selector =
      filterByMinKernel agents selector.Value := by
    unfold FilterAgentsBySelector
    rw [hkind]
  refine ⟨hsel, filterByMinKernel_eq_filter agents _ major minor patch hparse, ?_⟩
  intro agent
  rw [hsel, filterByMinKernel_eq_filter agents _ major minor patch hparse, List.mem_filter,
    decide_eq_true_eq]

/-- Witness for C1: agents A, B (kernel 5.10) and C (kernel 6.1) under MIN_KERNEL "6.0.0". -/
theorem minKernel_retains_exactly_witness :
    Sscanf "6.0.0" = some (6, 0, 0) ∧
    FilterAgentsBySelector [agentA, agentB, agentC]
        (mkSelector SelectorType.MIN_KERNEL "6.0.0") = [agentC] ∧
    filterByMinKernel [agentA, agentB, agentC] "6.0.0" =
      [agentA, agentB, agentC].filter
        (fun agent => decide (versionTriple 6 0 0 ≤ kernelTriple agent)) :=
  ⟨by decide, by decide,
    (minKernel_retains_exactly [agentA, agentB, agentC]
      (mkSelector SelectorType.MIN_KERNEL "6.0.0") 6 0 0 rfl (by decide)).2.1⟩

/-- C2: for a value that scans to (major, minor, patch), the MAX_KERNEL selector is
evaluated by `filterByMaxKernel`, and the result is the input list restricted to the
agents whose kernel triple is lexicographically at most (major, minor, patch): those
agents, in their input order, and no others. -/
theorem maxKernel_retains_exactly (agents : List Agent) (selector : TracepointSelector)
    (major minor patch : Int)
    (hkind : selector.SelectorType = SelectorType.MAX_KERNEL)
    (hparse : Sscanf selector.Value = some (major, minor, patch)) :
    FilterAgentsBySelector agents selector = filterByMaxKernel agents selector.Value ∧
    filterByMaxKernel agents selector.Value =
      agents.filter (fun agent => decide (kernelTriple agent ≤ versionTriple major minor patch)) ∧
    ∀ agent, agent ∈ FilterAgentsBySelector agents selector ↔
      agent ∈ agents ∧ kernelTriple agent ≤ versionTriple major minor patch := by
  have hsel : FilterAgentsBySelector agents selector =
      filterByMaxKernel agents selector.Value := by
    unfold FilterAgentsBySelector
    rw [hkind]
  refine ⟨hsel, filterByMaxKernel_eq_filter agents _ major minor patch hparse, ?_⟩
  intro agent
  rw [hsel, filterByMaxKernel_eq_filter agents _ major minor patch hparse, List.mem_filter,
    decide_eq_true_eq]

/-- Witness for C2: agents A, B (kernel 5.10) and C (kernel 6.1) under MAX_KERNEL "5.10.0". -/
theorem maxKernel_retains_exactly_witness :
    Sscanf "5.10.0" = some (5, 10, 0) ∧
    FilterAgentsBySelector [agentA, agentB, agentC]
        (mkSelector SelectorType.MAX_KERNEL "5.10.0") = [agentA, agentB] ∧
    filterByMaxKernel [agentA, agentB, agentC] "5.10.0" =
      [agentA, agentB, agentC].filter
        (fun agent => decide (kernelTriple agent ≤ versionTriple 5 10 0)) :=
  ⟨by decide, by decide,
    (maxKernel_retains_exactly [agentA, agentB, agentC]
      (mkSelector SelectorType.MAX_KERNEL "5.10.0") 5 10 0 rfl (by decide)).2.1⟩

theorem skipSpace_suffix : ∀ (input out : List Char), SkipSpace input = some out → out <:+ input := by
  intro input
  induction input with
  | nil =>
    intro out h
    simp [SkipSpace] at h
    subst h
    exact List.suffix_refl _
  | cons r rest ih =>
    intro out h
    unfold SkipSpace at h
    split_ifs at h with h1 h2
    · exact (ih out h).trans (List.suffix_cons r rest)
    · simp only [Option.some.injEq] at h
      subst h
      exact List.suffix_refl _

theorem scanInt_suffix (input remaining : List Char) (i : Int)
    (h : scanInt input = some (i, remaining)) : remaining <:+ input := by
  unfold scanInt at h
  split at h
  · exact absurd h (by simp)
  · exact absurd h (by simp)
  · rename_i r rest hskip
    have hs := skipSpace_suffix _ _ hskip
    simp only at h
    split at h
    · exact absurd h (by simp)
    · rename_i tok rem hnum
      split at h
      · exact absurd h (by simp)
      · split_ifs at h
        simp only [Option.some.injEq, Prod.mk.injEq] at h
        obtain ⟨_, hrem⟩ := h
        subst hrem
        have hafter : (if r = '+' ∨ r = '-' then rest else r :: rest) <:+ r :: rest := by
          split_ifs
          · exact List.suffix_cons r rest
          · exact List.suffix_refl _
        have hdrop : rem <:+ (if r = '+' ∨ r = '-' then rest else r :: rest) := by
          generalize (if r = '+' ∨ r = '-' then rest else r :: rest) = l at hnum
          cases l with
          | nil => simp [scanNumber] at hnum
          | cons c cs =>
            rw [scanNumber] at hnum
            split_ifs at hnum
            simp only [Option.some.injEq, Prod.mk.injEq] at hnum
            rw [← hnum.2]
            exact List.dropWhile_suffix _
        exact (hdrop.trans hafter).trans hs

theorem advanceDot_count (input out : List Char) (h : advanceDot input = some out) :
    input.count '.' = out.count '.' + 1 := by
  cases input with
  | nil => simp [advanceDot] at h
  | cons r rest =>
    rw [advanceDot] at h
    split_ifs at h with hr
    simp only [Option.some.injEq] at h
    subst h
    subst hr
    simp

theorem sscanf_two_dots (version : String) (t : Int × Int × Int)
    (h : Sscanf version = some t) : 2 ≤ version.toList.count '.' := by
  unfold Sscanf at h
  split at h
  · exact absurd h (by simp)
  · rename_i major r1 h1
    split at h
    · exact absurd h (by simp)
    · rename_i r2 h2
      split at h
      · exact absurd h (by simp)
      · rename_i minor r3 h3
        split at h
        · exact absurd h (by simp)
        · rename_i r4 h4
          have c1 := (scanInt_suffix _ _ _ h1).sublist.count_le '.'
          have c2 := advanceDot_count _ _ h2
          have c3 := (scanInt_suffix _ _ _ h3).sublist.count_le '.'
          have c4 := advanceDot_count _ _ h4
          omega

/-- C3, as amended: a MIN_KERNEL or MAX_KERNEL selector whose value `Sscanf` cannot
scan with "%d.%d.%d" retains no agent, and every value with fewer than two dots is
such a value. -/
theorem unscannable_value_retains_nothing (agents : List Agent) (selector : TracepointSelector)
    (hkind : selector.SelectorType = SelectorType.MIN_KERNEL ∨
      selector.SelectorType = SelectorType.MAX_KERNEL)
    (hfail : Sscanf selector.Value = none ∨ selector.Value.toList.count '.' < 2) :
    FilterAgentsBySelector agents selector = [] := by
  have hnone : Sscanf selector.Value = none := by
    rcases hfail with h | h
    · exact h
    · cases hp : Sscanf selector.Value with
      | none => rfl
      | some t =>
        have := sscanf_two_dots _ t hp
        omega
  unfold FilterAgentsBySelector
  rcases hkind with hk | hk
  · rw [hk]
    simp [filterByMinKernel, hnone]
  · rw [hk]
    simp [filterByMaxKernel, hnone]

/-- Witness for C3 as amended: the values "5.4" and "abc" of the claim. -/
theorem unscannable_value_retains_nothing_witness :
    Sscanf "abc" = none ∧
    FilterAgentsBySelector [agentA, agentB, agentC]
      (mkSelector SelectorType.MIN_KERNEL "abc") = [] ∧
    FilterAgentsBySelector [agentA, agentB, agentC]
      (mkSelector SelectorType.MAX_KERNEL "5.4") = [] :=
  ⟨by decide,
    unscannable_value_retains_nothing [agentA, agentB, agentC]
      (mkSelector SelectorType.MIN_KERNEL "abc") (Or.inl rfl) (Or.inl (by decide)),
    unscannable_value_retains_nothing [agentA, agentB, agentC]
      (mkSelector SelectorType.MAX_KERNEL "5.4") (Or.inr rfl) (Or.inr (by decide))⟩

/-- Counterexample for C3 as stated: "5.4.0-rc1" is not three decimal integers
separated by dots, yet `Sscanf` scans it as (5, 4, 0) and the MIN_KERNEL selector
retains all of A, B and C. -/
theorem trailing_text_is_scanned :
    isDottedTriple "5.4.0-rc1" = false ∧
    Sscanf "5.4.0-rc1" = some (5, 4, 0) ∧
    FilterAgentsBySelector [agentA, agentB, agentC]
      (mkSelector SelectorType.MIN_KERNEL "5.4.0-rc1") = [agentA, agentB, agentC] := by
  decide

/-- C4: the selectors folded from left to right retain exactly the agents of the
input that every selector retains on its own, in input order; so the result is the
same for every order of the selectors. -/
theorem applySelectors_is_intersection (agents : List Agent)
    (selectors : List TracepointSelector) :
    applySelectors agents selectors =
      agents.filter (fun agent =>
        decide (∀ selector ∈ selectors, agent ∈ FilterAgentsBySelector agents selector)) ∧
    (∀ agent, agent ∈ applySelectors agents selectors ↔
      agent ∈ agents ∧ ∀ selector ∈ selectors, agent ∈ FilterAgentsBySelector agents selector) ∧
    (∀ reordered : List TracepointSelector, reordered.Perm selectors →
      applySelectors agents reordered = applySelectors agents selectors) := by
  have hpoint : ∀ (sels : List TracepointSelector) (agent : Agent), agent ∈ agents →
      (sels.all (fun selector => selectorKeeps selector agent) = true ↔
        ∀ selector ∈ sels, agent ∈ FilterAgentsBySelector agents selector) := by
    intro sels agent hmem
    rw [List.all_eq_true]
    constructor
    · intro h selector hs
      exact (mem_filterAgentsBySelector agents selector agent).2 ⟨hmem, h selector hs⟩
    · intro h selector hs
      exact ((mem_filterAgentsBySelector agents selector agent).1 (h selector hs)).2
  have heq : applySelectors agents selectors =
      agents.filter (fun agent =>
        decide (∀ selector ∈ selectors, agent ∈ FilterAgentsBySelector agents selector)) := by
    rw [applySelectors_eq_filter]
    refine List.filter_congr ?_
    intro agent hmem
    rw [Bool.eq_iff_iff, decide_eq_true_eq]
    exact hpoint selectors agent hmem
  refine ⟨heq, ?_, ?_⟩
  · intro agent
    rw [heq, List.mem_filter, decide_eq_true_eq]
  · intro reordered hperm
    rw [applySelectors_eq_filter, applySelectors_eq_filter]
    refine List.filter_congr ?_
    intro agent _
    rw [Bool.eq_iff_iff, List.all_eq_true, List.all_eq_true]
    constructor
    · intro h selector hs
      exact h selector (hperm.mem_iff.2 hs)
    · intro h selector hs
      exact h selector (hperm.mem_iff.1 hs)

/-- Witness for C4: MIN_KERNEL "5.4.0" and MAX_KERNEL "5.10.0" in both orders, and
with a value that does not scan. -/
theorem applySelectors_is_intersection_witness :
    applySelectors [agentA, agentB, agentC]
      [mkSelector SelectorType.MIN_KERNEL "5.4.0", mkSelector SelectorType.MAX_KERNEL "5.10.0"]
      = [agentA, agentB] ∧
    applySelectors [agentA, agentB, agentC]
      [mkSelector SelectorType.MAX_KERNEL "5.10.0", mkSelector SelectorType.MIN_KERNEL "5.4.0"]
      = applySelectors [agentA, agentB, agentC]
        [mkSelector SelectorType.MIN_KERNEL "5.4.0", mkSelector SelectorType.MAX_KERNEL "5.10.0"] ∧
    applySelectors [agentA, agentB, agentC]
      [mkSelector SelectorType.MIN_KERNEL "x", mkSelector SelectorType.NO_CONDITION ""] = [] :=
  ⟨by decide,
    (applySelectors_is_intersection [agentA, agentB, agentC]
      [mkSelector SelectorType.MIN_KERNEL "5.4.0",
        mkSelector SelectorType.MAX_KERNEL "5.10.0"]).2.2 _ (List.Perm.swap _ _ []),
    by decide⟩

/-! ## Association lists -/

theorem assocGet_assocSet_self {K V : Type} [DecidableEq K] (k : K) (v : V) (l : List (K × V)) :
    assocGet k (assocSet k v l) = some v := by
  induction l with
  | nil => simp [assocSet, assocGet]
  | cons e rest ih =>
    by_cases h : e.1 = k
    · simp [assocSet, assocGet, h]
    · simp [assocSet, assocGet, h, ih]

theorem assocGet_assocSet_ne {K V : Type} [DecidableEq K] (k k' : K) (v : V) (l : List (K × V))
    (hne : k' ≠ k) : assocGet k' (assocSet k v l) = assocGet k' l := by
  induction l with
  | nil => simp [assocSet, assocGet, Ne.symm hne]
  | cons e rest ih =>
    by_cases h : e.1 = k
    · have h' : ¬ e.1 = k' := by rw [h]; exact Ne.symm hne
      simp [assocSet, assocGet, h, h', Ne.symm hne]
    · by_cases h2 : e.1 = k'
      · subst h2
        simp [assocSet, assocGet, h]
      · simp [assocSet, assocGet, h, h2, ih]

theorem keys_assocSet {K V : Type} [DecidableEq K] (k : K) (v : V) (l : List (K × V)) :
    (assocSet k v l).map Prod.fst =
      if k ∈ l.map Prod.fst then l.map Prod.fst else l.map Prod.fst ++ [k] := by
  induction l with
  | nil => simp [assocSet]
  | cons e rest ih =>
    by_cases h : e.1 = k
    · simp [assocSet, h]
    · have h' : ¬ k = e.1 := Ne.symm h
      simp only [assocSet, h, if_false, List.map_cons, ih, List.mem_cons, h', false_or]
      split_ifs <;> simp

theorem keys_assocSet_nodup {K V : Type} [DecidableEq K] (k : K) (v : V) (l : List (K × V))
    (hn : (l.map Prod.fst).Nodup) : ((assocSet k v l).map Prod.fst).Nodup := by
  rw [keys_assocSet]
  split_ifs with h
  · exact hn
  · exact List.Nodup.append hn (List.nodup_singleton k) (by simpa using h)

theorem mem_iff_assocGet {K V : Type} [DecidableEq K] (l : List (K × V))
    (hn : (l.map Prod.fst).Nodup) (k : K) (v : V) :
    (k, v) ∈ l ↔ assocGet k l = some v := by
  induction l with
  | nil => simp [assocGet]
  | cons e rest ih =>
    rw [List.map_cons, List.nodup_cons] at hn
    obtain ⟨k0, v0⟩ := e
    by_cases h : k0 = k
    · subst h
      simp only [assocGet, if_true, List.mem_cons, Prod.mk.injEq, true_and, Option.some.injEq]
      constructor
      · rintro (h1 | h1)
        · exact h1.symm
        · exact absurd (List.mem_map_of_mem Prod.fst h1) hn.1
      · intro h1; exact Or.inl h1.symm
    · have h' : ¬ k = k0 := Ne.symm h
      simp only [assocGet, h, if_false, List.mem_cons, Prod.mk.injEq, h', false_and, false_or]
      exact ih hn.2

/-! ## `RegisterTracepoint`: the first loop -/

theorem planInv_empty {K : Type} [DecidableEq K] (HashUUIDs : List UUID → K)
    (agents : List Agent) :
    PlanInv HashUUIDs agents [] { agentsHashToPrograms := [], agentsHashToAgents := [] } := by
  refine ⟨?_, ?_, ?_⟩ <;> simp [assocGet]

theorem planInv_step {K : Type} [DecidableEq K] (HashUUIDs : List UUID → K)
    (agents : List Agent) (done : List TracepointProgram) (maps : FanOut K)
    (prgm : TracepointProgram) (hinv : PlanInv HashUUIDs agents done maps) :
    PlanInv HashUUIDs agents (done ++ [prgm])
      { agentsHashToPrograms :=
          assocSet (groupKey HashUUIDs agents prgm)
            (((assocGet (groupKey HashUUIDs agents prgm) maps.agentsHashToPrograms).getD [])
              ++ [prgm])
            maps.agentsHashToPrograms,
        agentsHashToAgents :=
          assocSet (groupKey HashUUIDs agents prgm) (validAgents agents prgm)
            maps.agentsHashToAgents } := by
  obtain ⟨hprog, hnodup, hagents⟩ := hinv
  refine ⟨?_, ?_, ?_⟩
  · intro h
    by_cases hk : h = groupKey HashUUIDs agents prgm
    · subst hk
      simp only [assocGet_assocSet_self, Option.getD_some, hprog, List.filter_append]
      simp
    · have hk' : ¬ groupKey HashUUIDs agents prgm = h := fun e => hk e.symm
      simp only [assocGet_assocSet_ne _ _ _ _ hk, hprog, List.filter_append]
      simp [hk']
  · exact keys_assocSet_nodup _ _ _ hnodup
  · intro h
    by_cases hk : h = groupKey HashUUIDs agents prgm
    · subst hk
      simp only [assocGet_assocSet_self, List.filter_append]
      simp
    · have hk' : ¬ groupKey HashUUIDs agents prgm = h := fun e => hk e.symm
      simp only [assocGet_assocSet_ne _ _ _ _ hk, hagents, List.filter_append]
      simp [hk']

theorem planLoop_present {K : Type} [DecidableEq K] (HashUUIDs : List UUID → K)
    (agents : List Agent) (programs : List TracepointProgram) :
    ∀ (done : List TracepointProgram) (maps : FanOut K), PlanInv HashUUIDs agents done maps →
      ∃ result, planLoop HashUUIDs agents (programs.map some) maps = some result ∧
        PlanInv HashUUIDs agents (done ++ programs) result := by
  induction programs with
  | nil =>
    intro done maps hinv
    exact ⟨maps, rfl, by simpa using hinv⟩
  | cons prgm rest ih =>
    intro done maps hinv
    have hstep := planInv_step HashUUIDs agents done maps prgm hinv
    obtain ⟨result, hres, hinv'⟩ := ih (done ++ [prgm]) _ hstep
    refine ⟨result, ?_, by simpa using hinv'⟩
    rw [← hres]
    rfl

theorem planLoop_from_empty {K : Type} [DecidableEq K] (HashUUIDs : List UUID → K)
    (agents : List Agent) (programs : List TracepointProgram) :
    ∃ result, planLoop HashUUIDs agents (programs.map some)
        { agentsHashToPrograms := [], agentsHashToAgents := [] } = some result ∧
      PlanInv HashUUIDs agents programs result := by
  simpa using planLoop_present HashUUIDs agents programs [] _ (planInv_empty HashUUIDs agents)

/-! ## `RegisterTracepoint`: the second loop -/

theorem sendLoop_cons_ok {S M K : Type} [DecidableEq K] (m : Manager S M) (tracepointID : UUID)
    (d : TracepointDeployment) (pm : List (K × List TracepointProgram))
    (entry : K × List Agent) (rest : List (K × List Agent)) (w : World S M)
    (hok : (m.agtMgr.MessageAgents w.messenger (agentIDsOf entry.2)
      (registerRequest tracepointID d ((assocGet entry.1 pm).getD []))).2 = none) :
    sendLoop m tracepointID d pm (entry :: rest) w =
      sendLoop m tracepointID d pm rest
        (w.afterMessenger (sendCall tracepointID d pm entry) none
          (m.agtMgr.MessageAgents w.messenger (agentIDsOf entry.2)
            (registerRequest tracepointID d ((assocGet entry.1 pm).getD []))).1) := by
  obtain ⟨hash, va⟩ := entry
  simp only [sendLoop, Manager.MessageAgents, sendCall] at hok ⊢
  rw [hok]

theorem sendLoop_cons_err {S M K : Type} [DecidableEq K] (m : Manager S M) (tracepointID : UUID)
    (d : TracepointDeployment) (pm : List (K × List TracepointProgram))
    (entry : K × List Agent) (rest : List (K × List Agent)) (w : World S M) (err : GoError)
    (herr : (m.agtMgr.MessageAgents w.messenger (agentIDsOf entry.2)
      (registerRequest tracepointID d ((assocGet entry.1 pm).getD []))).2 = some err) :
    sendLoop m tracepointID d pm (entry :: rest) w =
      (w.afterMessenger (sendCall tracepointID d pm entry) (some err)
          (m.agtMgr.MessageAgents w.messenger (agentIDsOf entry.2)
            (registerRequest tracepointID d ((assocGet entry.1 pm).getD []))).1,
        some err) := by
  obtain ⟨hash, va⟩ := entry
  simp only [sendLoop, Manager.MessageAgents, sendCall] at herr ⊢
  rw [herr]

theorem sendLoop_shape {S M K : Type} [DecidableEq K] (m : Manager S M) (tracepointID : UUID)
    (d : TracepointDeployment) (pm : List (K × List TracepointProgram)) :
    ∀ (entries : List (K × List Agent)) (w : World S M),
      ∃ (n : Nat) (events : List Event), n ≤ entries.length ∧
        (sendLoop m tracepointID d pm entries w).1.trace = w.trace ++ events ∧
        (sendLoop m tracepointID d pm entries w).1.store = w.store ∧
        events.map Event.call = (entries.take n).map (sendCall tracepointID d pm) ∧
        StopsAtFirstError events (sendLoop m tracepointID d pm entries w).2 ∧
        ((sendLoop m tracepointID d pm entries w).2 = none → n = entries.length) := by
  intro entries
  induction entries with
  | nil =>
    intro w
    exact ⟨0, [], le_refl _, by simp [sendLoop], by simp [sendLoop], by simp,
      Or.inl ⟨by simp [sendLoop], by simp⟩, fun _ => rfl⟩
  | cons entry rest ih =>
    intro w
    cases hres : (m.agtMgr.MessageAgents w.messenger (agentIDsOf entry.2)
      (registerRequest tracepointID d ((assocGet entry.1 pm).getD []))).2 with
    | none =>
      rw [sendLoop_cons_ok m tracepointID d pm entry rest w hres]
      obtain ⟨n, events, hn, htrace, hstore, hcalls, hshape, hfull⟩ := ih
        (w.afterMessenger (sendCall tracepointID d pm entry) none
          (m.agtMgr.MessageAgents w.messenger (agentIDsOf entry.2)
            (registerRequest tracepointID d ((assocGet entry.1 pm).getD []))).1)
      refine ⟨n + 1, { call := sendCall tracepointID d pm entry, err := none } :: events,
        by simpa using hn, ?_, ?_, ?_, ?_, ?_⟩
      · rw [htrace]
        simp [World.afterMessenger]
      · rw [hstore]
        simp [World.afterMessenger]
      · simp [hcalls]
      · rcases hshape with ⟨hr, hall⟩ | ⟨earlier, last, err, he, hall, hlast, hr⟩
        · refine Or.inl ⟨hr, ?_⟩
          intro e he
          rcases List.mem_cons.1 he with h1 | h1
          · rw [h1]
          · exact hall e h1
        · refine Or.inr ⟨{ call := sendCall tracepointID d pm entry, err := none } :: earlier,
            last, err, by simp [he], ?_, hlast, hr⟩
          intro e he'
          rcases List.mem_cons.1 he' with h1 | h1
          · rw [h1]
          · exact hall e h1
      · intro hr
        simp [hfull hr]
    | some err =>
      rw [sendLoop_cons_err m tracepointID d pm entry rest w err hres]
      refine ⟨1, [{ call := sendCall tracepointID d pm entry, err := some err }],
        by simp, by simp [World.afterMessenger], by simp [World.afterMessenger], by simp, ?_, ?_⟩
      · exact Or.inr ⟨[], { call := sendCall tracepointID d pm entry, err := some err }, err,
          by simp, by simp, rfl, rfl⟩
      · intro hr
        simp at hr

theorem sendLoop_all_ok {S M K : Type} [DecidableEq K] (m : Manager S M) (tracepointID : UUID)
    (d : TracepointDeployment) (pm : List (K × List TracepointProgram))
    (hok : ∀ a ids msg, (m.agtMgr.MessageAgents a ids msg).2 = none) :
    ∀ (entries : List (K × List Agent)) (w : World S M),
      (sendLoop m tracepointID d pm entries w).2 = none ∧
      (sendLoop m tracepointID d pm entries w).1.store = w.store ∧
      (sendLoop m tracepointID d pm entries w).1.trace = w.trace ++
        entries.map (fun entry =>
          registerSent tracepointID d entry.2 ((assocGet entry.1 pm).getD [])) := by
  intro entries
  induction entries with
  | nil => intro w; simp [sendLoop]
  | cons entry rest ih =>
    intro w
    rw [sendLoop_cons_ok m tracepointID d pm entry rest w (hok _ _ _)]
    obtain ⟨h1, h2, h3⟩ := ih
      (w.afterMessenger (sendCall tracepointID d pm entry) none
        (m.agtMgr.MessageAgents w.messenger (agentIDsOf entry.2)
          (registerRequest tracepointID d ((assocGet entry.1 pm).getD []))).1)
    refine ⟨h1, ?_, ?_⟩
    · rw [h2]; simp [World.afterMessenger]
    · rw [h3]; simp [World.afterMessenger, registerSent, sendCall]

/-! ## `RegisterTracepoint`: groups -/

theorem validAgents_subset (agents : List Agent) (prgm : TracepointProgram) :
    ∀ agent ∈ validAgents agents prgm, agent ∈ agents := by
  intro agent h
  unfold validAgents at h
  rw [applySelectors_eq_filter] at h
  exact (List.mem_filter.1 h).1

theorem agentIDsOf_injOn (agents : List Agent) (hids : (agentIDsOf agents).Nodup) :
    ∀ (l1 l2 : List Agent), (∀ a ∈ l1, a ∈ agents) → (∀ a ∈ l2, a ∈ agents) →
      agentIDsOf l1 = agentIDsOf l2 → l1 = l2 := by
  have hinj := List.inj_on_of_nodup_map hids
  intro l1
  induction l1 with
  | nil =>
    intro l2 _ _ h
    cases l2 with
    | nil => rfl
    | cons b l2 => simp [agentIDsOf] at h
  | cons a l1 ih =>
    intro l2 h1 h2 h
    cases l2 with
    | nil => simp [agentIDsOf] at h
    | cons b l2 =>
      simp only [agentIDsOf, List.map_cons, List.cons.injEq] at h
      have hab : a = b :=
        hinj (h1 a (List.mem_cons_self _ _)) (h2 b (List.mem_cons_self _ _)) h.1
      have hrest : l1 = l2 :=
        ih l2 (fun x hx => h1 x (List.mem_cons_of_mem _ hx))
          (fun x hx => h2 x (List.mem_cons_of_mem _ hx)) h.2
      rw [hab, hrest]

/-- Every entry of `agentsHashToAgents` belongs to a program of the deployment. -/
theorem planInv_entry {K : Type} [DecidableEq K] (HashUUIDs : List UUID → K)
    (agents : List Agent) (programs : List TracepointProgram) (maps : FanOut K)
    (hinv : PlanInv HashUUIDs agents programs maps) (h : K) (va : List Agent)
    (hmem : (h, va) ∈ maps.agentsHashToAgents) :
    ∃ q ∈ programs, groupKey HashUUIDs agents q = h ∧ validAgents agents q = va := by
  obtain ⟨_, hnodup, hagents⟩ := hinv
  have hget := (mem_iff_assocGet _ hnodup h va).1 hmem
  rw [hagents h] at hget
  cases hl : (programs.filter (fun p => decide (groupKey HashUUIDs agents p = h))).getLast? with
  | none => rw [hl] at hget; simp at hget
  | some q =>
    rw [hl] at hget
    simp only [Option.map_some', Option.some.injEq] at hget
    have hq := List.mem_of_getLast?_eq_some hl
    rw [List.mem_filter, decide_eq_true_eq] at hq
    exact ⟨q, hq.1, hq.2, hget⟩

/-- Every program of the deployment has its key among the entries of `agentsHashToAgents`. -/
theorem planInv_covers {K : Type} [DecidableEq K] (HashUUIDs : List UUID → K)
    (agents : List Agent) (programs : List TracepointProgram) (maps : FanOut K)
    (hinv : PlanInv HashUUIDs agents programs maps) (p : TracepointProgram)
    (hp : p ∈ programs) :
    ∃ q ∈ programs, groupKey HashUUIDs agents q = groupKey HashUUIDs agents p ∧
      (groupKey HashUUIDs agents p, validAgents agents q) ∈ maps.agentsHashToAgents := by
  obtain ⟨_, hnodup, hagents⟩ := hinv
  have hmemf : p ∈ programs.filter
      (fun x => decide (groupKey HashUUIDs agents x = groupKey HashUUIDs agents p)) := by
    rw [List.mem_filter]; exact ⟨hp, by simp⟩
  cases hl : (programs.filter
      (fun x => decide (groupKey HashUUIDs agents x = groupKey HashUUIDs agents p))).getLast? with
  | none =>
    rw [List.getLast?_eq_none_iff] at hl
    rw [hl] at hmemf
    simp at hmemf
  | some q =>
    have hq := List.mem_of_getLast?_eq_some hl
    rw [List.mem_filter, decide_eq_true_eq] at hq
    refine ⟨q, hq.1, hq.2, ?_⟩
    rw [mem_iff_assocGet _ hnodup, hagents, hl]
    rfl

theorem planInv_keys_perm {K : Type} [DecidableEq K] (HashUUIDs : List UUID → K)
    (agents : List Agent) (programs : List TracepointProgram) (maps : FanOut K)
    (hinv : PlanInv HashUUIDs agents programs maps) :
    (maps.agentsHashToAgents.map Prod.fst).Perm
      ((programs.map (groupKey HashUUIDs agents)).dedup) := by
  rw [List.perm_ext_iff_of_nodup hinv.2.1 (List.nodup_dedup _)]
  intro h
  rw [List.mem_dedup, List.mem_map, List.mem_map]
  constructor
  · rintro ⟨⟨h', va⟩, hmem, rfl⟩
    obtain ⟨q, hq, hk, _⟩ := planInv_entry HashUUIDs agents programs maps hinv h' va hmem
    exact ⟨q, hq, hk⟩
  · rintro ⟨p, hp, rfl⟩
    obtain ⟨q, _, _, hmem⟩ := planInv_covers HashUUIDs agents programs maps hinv p hp
    exact ⟨_, hmem, rfl⟩

theorem registerTracepoint_eq {S M K : Type} [DecidableEq K] (m : Manager S M)
    (HashUUIDs : List UUID → K) (range : List (K × List Agent) → List (K × List Agent))
    (agents : List Agent) (tracepointID : UUID) (d : TracepointDeployment)
    (programs : List TracepointProgram) (w : World S M)
    (hprog : d.Programs = programs.map some) :
    ∃ maps : FanOut K, PlanInv HashUUIDs agents programs maps ∧
      RegisterTracepoint m HashUUIDs range agents tracepointID d w =
        some (sendLoop m tracepointID d maps.agentsHashToPrograms
          (range maps.agentsHashToAgents) w) := by
  obtain ⟨maps, hplan, hinv⟩ := planLoop_from_empty HashUUIDs agents programs
  refine ⟨maps, hinv, ?_⟩
  unfold RegisterTracepoint
  rw [hprog, hplan]

/-- C7: for every order in which the groups are visited, the `MessageAgents` calls of
`RegisterTracepoint` stop at the first one that returns an error, and that error is
the result; when no call fails the result is `nil` and every group has had its call. -/
theorem registerTracepoint_stops_at_first_error {S M K : Type} [DecidableEq K]
    (m : Manager S M) (HashUUIDs : List UUID → K)
    (range : List (K × List Agent) → List (K × List Agent))
    (agents : List Agent) (tracepointID : UUID) (d : TracepointDeployment)
    (programs : List TracepointProgram) (w : World S M)
    (hrange : ∀ entries, (range entries).Perm entries)
    (hprog : d.Programs = programs.map some) :
    ∃ (w1 : World S M) (result : Option GoError) (events : List Event),
      RegisterTracepoint m HashUUIDs range agents tracepointID d w = some (w1, result) ∧
      w1.trace = w.trace ++ events ∧
      (∀ e ∈ events, ∃ ids msg, e.call = Call.MessageAgents ids msg) ∧
      StopsAtFirstError events result ∧
      events.length ≤ ((programs.map (groupKey HashUUIDs agents)).dedup).length ∧
      (result = none →
        events.length = ((programs.map (groupKey HashUUIDs agents)).dedup).length) := by
  obtain ⟨maps, hinv, heq⟩ :=
    registerTracepoint_eq m HashUUIDs range agents tracepointID d programs w hprog
  obtain ⟨n, events, hn, htrace, _, hcalls, hshape, hfull⟩ :=
    sendLoop_shape m tracepointID d maps.agentsHashToPrograms (range maps.agentsHashToAgents) w
  have hlen : (range maps.agentsHashToAgents).length =
      ((programs.map (groupKey HashUUIDs agents)).dedup).length := by
    rw [(hrange _).length_eq, ← (planInv_keys_perm HashUUIDs agents programs maps hinv).length_eq,
      List.length_map]
  have hev : events.length = n := by
    have := congrArg List.length hcalls
    simpa [List.length_take, Nat.min_eq_left hn] using this
  refine ⟨_, _, events, heq, htrace, ?_, hshape, ?_, ?_⟩
  · intro e he
    have hc : e.call ∈ events.map Event.call := List.mem_map_of_mem _ he
    rw [hcalls, List.mem_map] at hc
    obtain ⟨entry, _, hentry⟩ := hc
    exact ⟨_, _, hentry.symm⟩
  · rw [hev, ← hlen]; exact hn
  · intro hr
    rw [hev, ← hlen]
    exact hfull hr

/-- Witness for C7: scenario 4 with a messenger that accepts one call and fails the
second, the groups visited in reverse order: two calls are made, the second one
returns the error, and that error is the result. -/
theorem registerTracepoint_stops_at_first_error_witness :
    (∃ (w1 : World MemStore Nat) (result : Option GoError) (events : List Event),
      RegisterTracepoint countdownManager (fun ids => ids) List.reverse
          [agentA, agentB, agentC] 7 (mkDeployment "d" [some programMin54, some programMin60])
          (freshWorld 1) = some (w1, result) ∧
      w1.trace = (freshWorld 1 : World MemStore Nat).trace ++ events ∧
      (∀ e ∈ events, ∃ ids msg, e.call = Call.MessageAgents ids msg) ∧
      StopsAtFirstError events result ∧
      events.length ≤ (([programMin54, programMin60].map
        (groupKey (fun ids => ids) [agentA, agentB, agentC])).dedup).length ∧
      (result = none → events.length = (([programMin54, programMin60].map
        (groupKey (fun ids => ids) [agentA, agentB, agentC])).dedup).length)) ∧
    (RegisterTracepoint countdownManager (fun ids => ids) List.reverse
        [agentA, agentB, agentC] 7 (mkDeployment "d" [some programMin54, some programMin60])
        (freshWorld 1)).map (fun r => (r.1.trace.map Event.err, r.2)) =
      some ([none, some (GoError.external 1)], some (GoError.external 1)) :=
  ⟨registerTracepoint_stops_at_first_error countdownManager (fun ids => ids) List.reverse
      [agentA, agentB, agentC] 7 (mkDeployment "d" [some programMin54, some programMin60])
      [programMin54, programMin60] (freshWorld 1) (fun l => List.reverse_perm l) rfl,
    by decide⟩

/-- C5, as amended: with an injective fingerprint, every send succeeding and the
agents of the input carrying pairwise distinct ids, `RegisterTracepoint` returns `nil`
after one `MessageAgents` call per distinct list of valid agents among the programs
(in the order the groups are visited); the call for a list is addressed to its agent
ids and carries exactly the programs valid for that list, in their original order.
The store is not touched. -/
theorem registerTracepoint_one_send_per_group {S M K : Type} [DecidableEq K]
    (m : Manager S M) (HashUUIDs : List UUID → K)
    (range : List (K × List Agent) → List (K × List Agent))
    (agents : List Agent) (tracepointID : UUID) (d : TracepointDeployment)
    (programs : List TracepointProgram) (w : World S M)
    (hhash : Function.Injective HashUUIDs)
    (hrange : ∀ entries, (range entries).Perm entries)
    (hsend : ∀ a ids msg, (m.agtMgr.MessageAgents a ids msg).2 = none)
    (hids : (agentIDsOf agents).Nodup)
    (hprog : d.Programs = programs.map some) :
    ∃ (w1 : World S M) (sent : List (List Agent)),
      RegisterTracepoint m HashUUIDs range agents tracepointID d w = some (w1, none) ∧
      sent.Perm ((programs.map (validAgents agents)).dedup) ∧
      w1.trace = w.trace ++ sent.map (fun targets =>
        registerSent tracepointID d targets
          (programs.filter (fun p => decide (validAgents agents p = targets)))) ∧
      w1.store = w.store := by
  obtain ⟨maps, hinv, heq⟩ :=
    registerTracepoint_eq m HashUUIDs range agents tracepointID d programs w hprog
  obtain ⟨hres, hstore, htrace⟩ :=
    sendLoop_all_ok m tracepointID d maps.agentsHashToPrograms hsend
      (range maps.agentsHashToAgents) w
  -- the key determines the valid agents, and the other way round
  have hkey : ∀ p ∈ programs, ∀ q ∈ programs,
      (groupKey HashUUIDs agents p = groupKey HashUUIDs agents q ↔
        validAgents agents p = validAgents agents q) := by
    intro p _ q _
    constructor
    · intro hpq
      exact agentIDsOf_injOn agents hids _ _ (validAgents_subset agents p)
        (validAgents_subset agents q) (hhash hpq)
    · intro hpq
      unfold groupKey
      rw [hpq]
  have hperm := hrange maps.agentsHashToAgents
  have hentries_nodup : maps.agentsHashToAgents.Nodup := List.Nodup.of_map _ hinv.2.1
  refine ⟨_, (range maps.agentsHashToAgents).map Prod.snd, ?_, ?_, ?_, hstore⟩
  · rw [heq]
    exact congrArg some (Prod.ext rfl hres)
  · refine (hperm.map Prod.snd).trans ?_
    rw [List.perm_ext_iff_of_nodup ?_ (List.nodup_dedup _)]
    · intro va
      rw [List.mem_dedup, List.mem_map, List.mem_map]
      constructor
      · rintro ⟨⟨h, va'⟩, hmem, rfl⟩
        obtain ⟨q, hq, _, hva⟩ := planInv_entry HashUUIDs agents programs maps hinv h va' hmem
        exact ⟨q, hq, hva⟩
      · rintro ⟨p, hp, rfl⟩
        obtain ⟨q, hq, hk, hmem⟩ := planInv_covers HashUUIDs agents programs maps hinv p hp
        exact ⟨_, hmem, (hkey q hq p hp).1 hk⟩
    · refine List.Nodup.map_on ?_ hentries_nodup
      rintro ⟨h1, va1⟩ hm1 ⟨h2, va2⟩ hm2 hva
      simp only at hva
      obtain ⟨q1, hq1, hk1, hv1⟩ := planInv_entry HashUUIDs agents programs maps hinv h1 va1 hm1
      obtain ⟨q2, hq2, hk2, hv2⟩ := planInv_entry HashUUIDs agents programs maps hinv h2 va2 hm2
      have : groupKey HashUUIDs agents q1 = groupKey HashUUIDs agents q2 :=
        (hkey q1 hq1 q2 hq2).2 (by rw [hv1, hv2, hva])
      rw [hk1, hk2] at this
      rw [this, hva]
  · rw [htrace, List.map_map]
    congr 1
    refine List.map_congr_left ?_
    rintro ⟨h, va⟩ hentry
    have hmem : (h, va) ∈ maps.agentsHashToAgents := hperm.mem_iff.1 hentry
    obtain ⟨q, hq, hk, hva⟩ := planInv_entry HashUUIDs agents programs maps hinv h va hmem
    simp only [Function.comp, hinv.1 h]
    congr 1
    refine List.filter_congr ?_
    intro p hp
    rw [Bool.eq_iff_iff, decide_eq_true_eq, decide_eq_true_eq, ← hk, ← hva]
    exact hkey p hp q hq

/-- Witness for C5 as amended: scenario 4 of the specification. Agents A and B run
kernel 5.10, agent C kernel 6.1; the program for 5.4 and later goes to A, B and C,
the program for 6.0 and later to C alone, in two calls. -/
theorem registerTracepoint_one_send_per_group_witness :
    (∃ (w1 : World MemStore Unit) (sent : List (List Agent)),
      RegisterTracepoint reliableManager (fun ids => ids) (fun entries => entries)
          [agentA, agentB, agentC] 7 (mkDeployment "d" [some programMin54, some programMin60])
          (freshWorld ()) = some (w1, none) ∧
      sent.Perm (([programMin54, programMin60].map
        (validAgents [agentA, agentB, agentC])).dedup) ∧
      w1.trace = (freshWorld () : World MemStore Unit).trace ++ sent.map (fun targets =>
        registerSent 7 (mkDeployment "d" [some programMin54, some programMin60]) targets
          ([programMin54, programMin60].filter
            (fun p => decide (validAgents [agentA, agentB, agentC] p = targets)))) ∧
      w1.store = (freshWorld () : World MemStore Unit).store) ∧
    (RegisterTracepoint reliableManager (fun ids => ids) (fun entries => entries)
        [agentA, agentB, agentC] 7 (mkDeployment "d" [some programMin54, some programMin60])
        (freshWorld ())).map (fun r => (r.1.trace, r.2)) =
      some ([registerSent 7 (mkDeployment "d" [some programMin54, some programMin60])
              [agentA, agentB, agentC] [programMin54],
            registerSent 7 (mkDeployment "d" [some programMin54, some programMin60])
              [agentC] [programMin60]], none) :=
  ⟨registerTracepoint_one_send_per_group reliableManager (fun ids => ids)
      (fun entries => entries) [agentA, agentB, agentC] 7
      (mkDeployment "d" [some programMin54, some programMin60])
      [programMin54, programMin60] (freshWorld ()) (fun _ _ h => h)
      (fun l => List.Perm.refl l) (fun _ _ _ => rfl) (by decide) rfl,
    by decide⟩

/-- Counterexample for C5 as stated: agents X (kernel 5.10) and Y (kernel 6.1) both
carry an id with a zero high half, which `UUIDFromProtoOrNil` reads as the nil id. The
program for 5.10 and earlier is valid for X alone, the program for 6.0 and later for
Y alone, yet under the injective fingerprint `id` both travel in one message. -/
theorem registerTracepoint_merges_groups_with_equal_ids :
    validAgents [agentX, agentY] programMax510 = [agentX] ∧
    validAgents [agentX, agentY] programMin60 = [agentY] ∧
    (RegisterTracepoint reliableManager (fun ids => ids) (fun entries => entries)
        [agentX, agentY] 7 (mkDeployment "d" [some programMax510, some programMin60])
        (freshWorld ())).map (fun r => (r.1.trace, r.2)) =
      some ([{ call := Call.MessageAgents [UUID.Nil]
                 (registerRequest 7 (mkDeployment "d" [some programMax510, some programMin60])
                   [programMax510, programMin60]),
               err := none }], none) ∧
    agentIDsOf [agentX] = [UUID.Nil] ∧ agentIDsOf [agentY] = [UUID.Nil] := by
  decide

/-! ## `CreateTracepoint` over the reference store -/

theorem createFresh_memStore {M : Type} (agt : AgentMessenger M) (tpID : UUID)
    (name : String) (d : TracepointDeployment) (ttl : Int) (w : World MemStore M) :
    createFresh { ts := memStore, agtMgr := agt } (Except.ok tpID) name d ttl w =
      ({ store :=
           { now := w.store.now,
             deployments := assocSet tpID (runningInfo tpID name d) w.store.deployments,
             names := assocSet name tpID w.store.names,
             ttls := assocSet tpID (w.store.now + ttl) w.store.ttls,
             statuses := w.store.statuses },
         messenger := w.messenger,
         trace := w.trace ++
           [returnedNil (Call.UpsertTracepoint tpID (runningInfo tpID name d)),
            returnedNil (Call.SetTracepointTTL tpID ttl),
            returnedNil (Call.SetTracepointWithName name tpID)] },
        (some tpID, none)) := by
  simp [createFresh, Manager.UpsertTracepoint, Manager.SetTracepointTTL,
    Manager.SetTracepointWithName, memStore, World.afterStore, runningInfo, returnedNil]

/-- C8: over the reference store, `CreateTracepoint` for a name without a binding
returns the id `uuid.NewV4()` produced, with a `nil` error, after exactly the calls
GetTracepointsWithNames, UpsertTracepoint, SetTracepointTTL, SetTracepointWithName.
Afterwards the store holds under that id the record with that id, name and deployment
in state RUNNING, a TTL entry expiring `ttl` after the current time, and the name
bound to the id. -/
theorem createTracepoint_unbound_name {M : Type} (agt : AgentMessenger M) (newID : UUID)
    (name : String) (d : TracepointDeployment) (ttl : Int) (w : World MemStore M)
    (hunbound : assocGet name w.store.names = none) :
    ∃ w1 : World MemStore M,
      CreateTracepoint { ts := memStore, agtMgr := agt } (Except.ok newID) name d ttl w =
        (w1, (some newID, none)) ∧
      assocGet newID w1.store.deployments =
        some { ID := some (ProtoFromUUID newID), Tracepoint := d, Name := name,
               ExpectedState := LifeCycleState.RUNNING_STATE } ∧
      assocGet newID w1.store.ttls = some (w.store.now + ttl) ∧
      assocGet name w1.store.names = some newID ∧
      w1.trace = w.trace ++
        [returnedNil (Call.GetTracepointsWithNames [name]),
         returnedNil (Call.UpsertTracepoint newID
           { ID := some (ProtoFromUUID newID), Tracepoint := d, Name := name,
             ExpectedState := LifeCycleState.RUNNING_STATE }),
         returnedNil (Call.SetTracepointTTL newID ttl),
         returnedNil (Call.SetTracepointWithName name newID)] ∧
      w1.messenger = w.messenger := by
  have heq : CreateTracepoint { ts := memStore, agtMgr := agt } (Except.ok newID) name d ttl w =
      createFresh { ts := memStore, agtMgr := agt } (Except.ok newID) name d ttl
        (w.afterStore (Call.GetTracepointsWithNames [name]) none w.store) := by
    simp only [CreateTracepoint, Manager.GetTracepointsWithNames, memStore, List.map_cons,
      List.map_nil, hunbound, errorOf]
  rw [createFresh_memStore] at heq
  refine ⟨_, heq, ?_⟩
  simp [assocGet_assocSet_self, World.afterStore, runningInfo, returnedNil]

/-- Witness for C8: scenario 1 of the specification on the empty store. -/
theorem createTracepoint_unbound_name_witness :
    (CreateTracepoint reliableManager (Except.ok 42) "http-latency"
        (mkDeployment "http-latency" [some programMin54]) 600 (freshWorld ())).2 =
      (some 42, none) ∧
    ∃ w1 : World MemStore Unit,
      CreateTracepoint { ts := memStore, agtMgr := reliableMessenger } (Except.ok 42)
          "http-latency" (mkDeployment "http-latency" [some programMin54]) 600 (freshWorld ()) =
        (w1, (some 42, none)) ∧
      assocGet 42 w1.store.deployments =
        some { ID := some (ProtoFromUUID 42),
               Tracepoint := mkDeployment "http-latency" [some programMin54],
               Name := "http-latency", ExpectedState := LifeCycleState.RUNNING_STATE } ∧
      assocGet 42 w1.store.ttls = some ((freshWorld () : World MemStore Unit).store.now + 600) ∧
      assocGet "http-latency" w1.store.names = some 42 ∧
      w1.trace = (freshWorld () : World MemStore Unit).trace ++
        [returnedNil (Call.GetTracepointsWithNames ["http-latency"]),
         returnedNil (Call.UpsertTracepoint 42
           { ID := some (ProtoFromUUID 42),
             Tracepoint := mkDeployment "http-latency" [some programMin54],
             Name := "http-latency", ExpectedState := LifeCycleState.RUNNING_STATE }),
         returnedNil (Call.SetTracepointTTL 42 600),
         returnedNil (Call.SetTracepointWithName "http-latency" 42)] ∧
      w1.messenger = (freshWorld () : World MemStore Unit).messenger :=
  ⟨by decide,
    createTracepoint_unbound_name reliableMessenger 42 "http-latency"
      (mkDeployment "http-latency" [some programMin54]) 600 (freshWorld ()) rfl⟩

theorem sameLoop_iff : ∀ (prev incoming : List (Option TracepointProgram)),
    prev.length = incoming.length →
      (sameLoop prev incoming = true ↔ SamePrograms prev incoming) := by
  intro prev
  induction prev with
  | nil =>
    intro incoming hlen
    cases incoming with
    | nil => simp [sameLoop, SamePrograms]
    | cons n rest => simp at hlen
  | cons p prev ih =>
    intro incoming hlen
    cases incoming with
    | nil => simp at hlen
    | cons n rest =>
      have hlen' : prev.length = rest.length := by simpa using hlen
      have hrec := ih rest hlen'
      unfold SamePrograms at hrec ⊢
      rw [List.forall₂_cons]
      cases n with
      | none => simp [sameLoop, hrec]
      | some q =>
        by_cases hq : protoEqual (some q) p = true
        · simp [sameLoop, hq, hrec]
        · simp [sameLoop, hq]

theorem allTpsSame_iff (prev incoming : List (Option TracepointProgram)) :
    allTpsSame prev incoming = true ↔ SamePrograms prev incoming := by
  unfold allTpsSame
  split_ifs with hlen
  · exact sameLoop_iff prev incoming hlen
  · constructor
    · intro h; exact absurd h (by simp)
    · intro h; exact absurd (List.Forall₂.length_eq h) hlen

theorem createTracepoint_same_eq {M : Type} (agt : AgentMessenger M)
    (newV4 : Except GoError UUID) (name : String) (d : TracepointDeployment) (ttl : Int)
    (prevID : UUID) (prev : TracepointInfo) (w : World MemStore M)
    (hname : assocGet name w.store.names = some prevID)
    (hprev : assocGet prevID w.store.deployments = some prev)
    (hlive : prev.ExpectedState ≠ LifeCycleState.TERMINATED_STATE)
    (hsame : SamePrograms prev.Tracepoint.Programs d.Programs) :
    CreateTracepoint { ts := memStore, agtMgr := agt } newV4 name d ttl w =
      ({ store := { w.store with ttls := assocSet prevID (w.store.now + ttl) w.store.ttls },
         messenger := w.messenger,
         trace := w.trace ++
           [returnedNil (Call.GetTracepointsWithNames [name]),
            returnedNil (Call.GetTracepoint prevID),
            returnedNil (Call.SetTracepointTTL prevID ttl)] },
        (some prevID, some ErrTracepointAlreadyExists)) := by
  have hflag := (allTpsSame_iff _ _).2 hsame
  simp [CreateTracepoint, createOverPrevious, Manager.GetTracepointsWithNames,
    Manager.GetTracepoint, Manager.SetTracepointTTL, memStore, World.afterStore, returnedNil,
    errorOf, hname, hprev, hlive, hflag]

theorem createTracepoint_changed_eq {M : Type} (agt : AgentMessenger M)
    (newV4 : Except GoError UUID) (name : String) (d : TracepointDeployment) (ttl : Int)
    (prevID : UUID) (prev : TracepointInfo) (w : World MemStore M)
    (hname : assocGet name w.store.names = some prevID)
    (hprev : assocGet prevID w.store.deployments = some prev)
    (hlive : prev.ExpectedState ≠ LifeCycleState.TERMINATED_STATE)
    (hdiff : ¬ SamePrograms prev.Tracepoint.Programs d.Programs) :
    CreateTracepoint { ts := memStore, agtMgr := agt } newV4 name d ttl w =
      createFresh { ts := memStore, agtMgr := agt } newV4 name d ttl
        { store := { w.store with
            ttls := w.store.ttls.filter (fun e => !([prevID].contains e.1)) },
          messenger := w.messenger,
          trace := w.trace ++
            [returnedNil (Call.GetTracepointsWithNames [name]),
             returnedNil (Call.GetTracepoint prevID),
             returnedNil (Call.DeleteTracepointTTLs [prevID])] } := by
  have hflag : allTpsSame prev.Tracepoint.Programs d.Programs = false := by
    rw [← Bool.not_eq_true]
    exact fun h => hdiff ((allTpsSame_iff _ _).1 h)
  simp [CreateTracepoint, createOverPrevious, Manager.GetTracepointsWithNames,
    Manager.GetTracepoint, Manager.DeleteTracepointTTLs, memStore, World.afterStore,
    returnedNil, errorOf, hname, hprev, hlive, hflag]

/-- C9: over the reference store, when the name is bound to a live deployment whose
programs equal the incoming ones, every call of a series of consecutive
`CreateTracepoint` calls (any length, any time passing between them, any `ttl` each)
returns the bound id together with `ErrTracepointAlreadyExists`. Each call makes
exactly the calls GetTracepointsWithNames, GetTracepoint and SetTracepointTTL with
its own `ttl`: no upsert, no name binding, no message. Records, name index, statuses
and messenger are as before, the TTL of other ids is as before, and after the last
call the TTL of the bound id expires that call's `ttl` after the current time. -/
theorem createTracepoint_same_programs_idempotent {M : Type} (agt : AgentMessenger M)
    (name : String) (d : TracepointDeployment) (prevID : UUID) (prev : TracepointInfo)
    (calls : List CreateCall) (w : World MemStore M)
    (hname : assocGet name w.store.names = some prevID)
    (hprev : assocGet prevID w.store.deployments = some prev)
    (hlive : prev.ExpectedState ≠ LifeCycleState.TERMINATED_STATE)
    (hsame : SamePrograms prev.Tracepoint.Programs d.Programs) :
    (createRepeatedly { ts := memStore, agtMgr := agt } name d calls w).2 =
      calls.map (fun _ => (some prevID, some ErrTracepointAlreadyExists)) ∧
    (createRepeatedly { ts := memStore, agtMgr := agt } name d calls w).1.trace =
      w.trace ++ (calls.map (fun c =>
        [returnedNil (Call.GetTracepointsWithNames [name]),
         returnedNil (Call.GetTracepoint prevID),
         returnedNil (Call.SetTracepointTTL prevID c.ttl)])).flatten ∧
    (createRepeatedly { ts := memStore, agtMgr := agt } name d calls w).1.store.deployments =
      w.store.deployments ∧
    (createRepeatedly { ts := memStore, agtMgr := agt } name d calls w).1.store.names =
      w.store.names ∧
    (createRepeatedly { ts := memStore, agtMgr := agt } name d calls w).1.store.statuses =
      w.store.statuses ∧
    (createRepeatedly { ts := memStore, agtMgr := agt } name d calls w).1.messenger =
      w.messenger ∧
    (∀ id, id ≠ prevID →
      assocGet id (createRepeatedly { ts := memStore, agtMgr := agt } name d calls w).1.store.ttls
        = assocGet id w.store.ttls) ∧
    (∀ earlier last, calls = earlier ++ [last] →
      assocGet prevID
          (createRepeatedly { ts := memStore, agtMgr := agt } name d calls w).1.store.ttls =
        some ((createRepeatedly { ts := memStore, agtMgr := agt } name d calls w).1.store.now
          + last.ttl)) := by
  induction calls generalizing w with
  | nil =>
    refine ⟨rfl, by simp [createRepeatedly], rfl, rfl, rfl, rfl, fun _ _ => rfl, ?_⟩
    intro earlier last h
    simp at h
  | cons c rest ih =>
    have hstep := createTracepoint_same_eq agt c.newV4 name d c.ttl prevID prev
      (elapse c.elapsed w) hname hprev hlive hsame
    obtain ⟨h1, h2, h3, h4, h5, h6, h7, h8⟩ :=
      ih (CreateTracepoint { ts := memStore, agtMgr := agt } c.newV4 name d c.ttl
        (elapse c.elapsed w)).1
        (by rw [hstep]; exact hname) (by rw [hstep]; exact hprev)
    simp only [createRepeatedly]
    refine ⟨?_, ?_, ?_, ?_, ?_, ?_, ?_, ?_⟩
    · rw [h1, hstep]; rfl
    · rw [h2, hstep]; simp [elapse]
    · rw [h3, hstep]; rfl
    · rw [h4, hstep]; rfl
    · rw [h5, hstep]; rfl
    · rw [h6, hstep]; rfl
    · intro id hid
      rw [h7 id hid, hstep]
      simp only [elapse]
      exact assocGet_assocSet_ne _ _ _ _ hid
    · intro earlier last hcalls
      cases earlier with
      | nil =>
        simp only [List.nil_append, List.cons.injEq] at hcalls
        obtain ⟨hc, hr⟩ := hcalls
        subst hr
        subst hc
        simp only [createRepeatedly]
        rw [hstep]
        simp only [elapse]
        exact assocGet_assocSet_self _ _ _
      | cons e earlier =>
        simp only [List.cons_append, List.cons.injEq] at hcalls
        exact h8 earlier last hcalls.2

/-- Witness for C9: scenario 2 of the specification. The name is created once with
programs [P], then created three more times with the same programs and TTLs 300,
120 and 60, ten units of time apart. -/
theorem createTracepoint_same_programs_idempotent_witness :
    (createRepeatedly reliableManager "http-latency"
        (mkDeployment "http-latency" [some programMin54])
        [{ elapsed := 10, ttl := 300, newV4 := Except.ok 43 },
         { elapsed := 10, ttl := 120, newV4 := Except.ok 44 },
         { elapsed := 10, ttl := 60, newV4 := Except.ok 45 }]
        (CreateTracepoint reliableManager (Except.ok 42) "http-latency"
          (mkDeployment "http-latency" [some programMin54]) 600 (freshWorld ())).1).2 =
      [(some 42, some ErrTracepointAlreadyExists), (some 42, some ErrTracepointAlreadyExists),
       (some 42, some ErrTracepointAlreadyExists)] ∧
    assocGet 42 (createRepeatedly reliableManager "http-latency"
        (mkDeployment "http-latency" [some programMin54])
        [{ elapsed := 10, ttl := 300, newV4 := Except.ok 43 },
         { elapsed := 10, ttl := 120, newV4 := Except.ok 44 },
         { elapsed := 10, ttl := 60, newV4 := Except.ok 45 }]
        (CreateTracepoint reliableManager (Except.ok 42) "http-latency"
          (mkDeployment "http-latency" [some programMin54]) 600
          (freshWorld ())).1).1.store.ttls = some 90 :=
  ⟨(createTracepoint_same_programs_idempotent reliableMessenger "http-latency"
      (mkDeployment "http-latency" [some programMin54]) 42
      (runningInfo 42 "http-latency" (mkDeployment "http-latency" [some programMin54]))
      [{ elapsed := 10, ttl := 300, newV4 := Except.ok 43 },
       { elapsed := 10, ttl := 120, newV4 := Except.ok 44 },
       { elapsed := 10, ttl := 60, newV4 := Except.ok 45 }]
      (CreateTracepoint reliableManager (Except.ok 42) "http-latency"
        (mkDeployment "http-latency" [some programMin54]) 600 (freshWorld ())).1
      (by decide) (by decide) (by decide)
      (List.Forall₂.cons (Or.inr (by decide)) List.Forall₂.nil)).1,
    by decide⟩

/-- C20: `terminateTracepoint(id)` over any store and messenger. When `GetTracepoint`
fails its error is returned after that one call. When the store has no record for
`id` the result is `nil` after that one call: no write, no broadcast. Otherwise the
record read is upserted with only `ExpectedState` changed to TERMINATED; a failed
upsert is returned and no broadcast is made; after a successful upsert one
RemoveTracepointRequest carrying the wire form of `id` is broadcast to the active
agents and the result of the broadcast is returned. -/
theorem terminateTracepoint_behaviour {S M : Type} (m : Manager S M) (id : UUID)
    (w : World S M) :
    (∀ err, (m.ts.GetTracepoint w.store id).2 = Except.error err →
      (terminateTracepoint m id w).2 = some err ∧
      (terminateTracepoint m id w).1.trace =
        w.trace ++ [{ call := Call.GetTracepoint id, err := some err }] ∧
      (terminateTracepoint m id w).1.messenger = w.messenger) ∧
    ((m.ts.GetTracepoint w.store id).2 = Except.ok none →
      (terminateTracepoint m id w).2 = none ∧
      (terminateTracepoint m id w).1.trace = w.trace ++ [returnedNil (Call.GetTracepoint id)] ∧
      (terminateTracepoint m id w).1.store = (m.ts.GetTracepoint w.store id).1 ∧
      (terminateTracepoint m id w).1.messenger = w.messenger) ∧
    (∀ tp, (m.ts.GetTracepoint w.store id).2 = Except.ok (some tp) →
      (∀ err,
        (m.ts.UpsertTracepoint (m.ts.GetTracepoint w.store id).1 id
          { tp with ExpectedState := LifeCycleState.TERMINATED_STATE }).2 = some err →
        (terminateTracepoint m id w).2 = some err ∧
        (terminateTracepoint m id w).1.trace = w.trace ++
          [returnedNil (Call.GetTracepoint id),
           { call := Call.UpsertTracepoint id
               { tp with ExpectedState := LifeCycleState.TERMINATED_STATE },
             err := some err }] ∧
        (terminateTracepoint m id w).1.messenger = w.messenger) ∧
      ((m.ts.UpsertTracepoint (m.ts.GetTracepoint w.store id).1 id
          { tp with ExpectedState := LifeCycleState.TERMINATED_STATE }).2 = none →
        (terminateTracepoint m id w).2 =
          (m.agtMgr.MessageActiveAgents w.messenger
            (VizierMessage.RemoveTracepointRequest (ProtoFromUUID id))).2 ∧
        (terminateTracepoint m id w).1.trace = w.trace ++
          [returnedNil (Call.GetTracepoint id),
           returnedNil (Call.UpsertTracepoint id
             { tp with ExpectedState := LifeCycleState.TERMINATED_STATE }),
           { call := Call.MessageActiveAgents
               (VizierMessage.RemoveTracepointRequest (ProtoFromUUID id)),
             err := (m.agtMgr.MessageActiveAgents w.messenger
               (VizierMessage.RemoveTracepointRequest (ProtoFromUUID id))).2 }] ∧
        (terminateTracepoint m id w).1.store =
          (m.ts.UpsertTracepoint (m.ts.GetTracepoint w.store id).1 id
            { tp with ExpectedState := LifeCycleState.TERMINATED_STATE }).1)) := by
  refine ⟨?_, ?_, ?_⟩
  · intro err h
    simp [terminateTracepoint, Manager.GetTracepoint, h, World.afterStore, errorOf]
  · intro h
    simp [terminateTracepoint, Manager.GetTracepoint, h, World.afterStore, errorOf, returnedNil]
  · intro tp h
    refine ⟨?_, ?_⟩
    · intro err hu
      simp [terminateTracepoint, Manager.GetTracepoint, Manager.UpsertTracepoint, h, hu,
        World.afterStore, errorOf, returnedNil]
    · intro hu
      simp [terminateTracepoint, Manager.GetTracepoint, Manager.UpsertTracepoint,
        Manager.MessageActiveAgents, h, hu, World.afterStore, World.afterMessenger, errorOf,
        returnedNil]

/-- Witness for C20: over the reference store, terminating the running record of
`idU` makes the three calls and leaves the record TERMINATED; terminating an id the
store does not hold makes the lookup only. -/
theorem terminateTracepoint_behaviour_witness :
    ((terminateTracepoint reliableManager idU
        (sampleWorld () LifeCycleState.RUNNING_STATE [] [])).2 = none ∧
      (terminateTracepoint reliableManager idU
        (sampleWorld () LifeCycleState.RUNNING_STATE [] [])).1.trace =
        (sampleWorld () LifeCycleState.RUNNING_STATE [] [] : World MemStore Unit).trace ++
        [returnedNil (Call.GetTracepoint idU),
         returnedNil (Call.UpsertTracepoint idU
           { sampleInfo idU LifeCycleState.RUNNING_STATE with
             ExpectedState := LifeCycleState.TERMINATED_STATE }),
         { call := Call.MessageActiveAgents
             (VizierMessage.RemoveTracepointRequest (ProtoFromUUID idU)),
           err := (reliableManager.agtMgr.MessageActiveAgents ()
             (VizierMessage.RemoveTracepointRequest (ProtoFromUUID idU))).2 }] ∧
      (terminateTracepoint reliableManager idU
        (sampleWorld () LifeCycleState.RUNNING_STATE [] [])).1.store =
        (reliableManager.ts.UpsertTracepoint
          (reliableManager.ts.GetTracepoint
            (sampleWorld () LifeCycleState.RUNNING_STATE [] [] : World MemStore Unit).store
            idU).1 idU
          { sampleInfo idU LifeCycleState.RUNNING_STATE with
            ExpectedState := LifeCycleState.TERMINATED_STATE }).1) ∧
    assocGet idU (terminateTracepoint reliableManager idU
        (sampleWorld () LifeCycleState.RUNNING_STATE [] [])).1.store.deployments =
      some (sampleInfo idU LifeCycleState.TERMINATED_STATE) ∧
    (terminateTracepoint reliableManager idV
        (sampleWorld () LifeCycleState.RUNNING_STATE [] [])).1.trace =
      [returnedNil (Call.GetTracepoint idV)] :=
  ⟨((terminateTracepoint_behaviour reliableManager idU
      (sampleWorld () LifeCycleState.RUNNING_STATE [] [])).2.2
        (sampleInfo idU LifeCycleState.RUNNING_STATE) rfl).2 rfl,
    by decide, by decide⟩

theorem assocSet_same {K V : Type} [DecidableEq K] (k : K) (v : V) (l : List (K × V))
    (h : assocGet k l = some v) : assocSet k v l = l := by
  induction l with
  | nil => simp [assocGet] at h
  | cons e rest ih =>
    obtain ⟨k0, v0⟩ := e
    by_cases hk : k0 = k
    · subst hk
      simp only [assocGet, if_true, Option.some.injEq] at h
      subst h
      simp [assocSet]
    · simp only [assocGet, hk, if_false] at h
      simp [assocSet, hk, ih h]

/-- C18, as amended: over the reference store, `terminateTracepoint(id)` on a record
that is already TERMINATED leaves the contents of the store as they are, by upserting
the record it read, and broadcasts one RemoveTracepointRequest for `id`, whose result
it returns. The guard is at the call site: a reaper pass skips every deployment
listed as TERMINATED. -/
theorem terminateTracepoint_on_terminated {M : Type} (agt : AgentMessenger M) (id : UUID)
    (tp : TracepointInfo) (w : World MemStore M)
    (hrec : assocGet id w.store.deployments = some tp)
    (hterm : tp.ExpectedState = LifeCycleState.TERMINATED_STATE) :
    (terminateTracepoint { ts := memStore, agtMgr := agt } id w).1.store = w.store ∧
    (terminateTracepoint { ts := memStore, agtMgr := agt } id w).1.trace = w.trace ++
      [returnedNil (Call.GetTracepoint id),
       returnedNil (Call.UpsertTracepoint id tp),
       { call := Call.MessageActiveAgents
           (VizierMessage.RemoveTracepointRequest (ProtoFromUUID id)),
         err := (agt.MessageActiveAgents w.messenger
           (VizierMessage.RemoveTracepointRequest (ProtoFromUUID id))).2 }] ∧
    (terminateTracepoint { ts := memStore, agtMgr := agt } id w).2 =
      (agt.MessageActiveAgents w.messenger
        (VizierMessage.RemoveTracepointRequest (ProtoFromUUID id))).2 ∧
    (∀ (tpActive : List (UUID × Bool)) (tps : List TracepointInfo) (w0 : World MemStore M),
      reapLoop { ts := memStore, agtMgr := agt } tpActive (tp :: tps) w0 =
        reapLoop { ts := memStore, agtMgr := agt } tpActive tps w0) := by
  have hsame : ({ tp with ExpectedState := LifeCycleState.TERMINATED_STATE } : TracepointInfo)
      = tp := by
    cases tp
    simp only at hterm
    simp [hterm]
  refine ⟨?_, ?_, ?_, ?_⟩
  · simp only [terminateTracepoint, Manager.GetTracepoint, Manager.UpsertTracepoint,
      Manager.MessageActiveAgents, memStore, hrec, hsame, World.afterStore,
      World.afterMessenger, assocSet_same id tp _ hrec]
  · simp [terminateTracepoint, Manager.GetTracepoint, Manager.UpsertTracepoint,
      Manager.MessageActiveAgents, memStore, hrec, hsame, World.afterStore,
      World.afterMessenger, errorOf, returnedNil]
  · simp [terminateTracepoint, Manager.GetTracepoint, Manager.UpsertTracepoint,
      Manager.MessageActiveAgents, memStore, hrec, hsame, World.afterStore,
      World.afterMessenger]
  · intro tpActive tps w0
    simp [reapLoop, hterm]

/-- Witness for C18 as amended: the record of `idU` is TERMINATED. -/
theorem terminateTracepoint_on_terminated_witness :
    (terminateTracepoint { ts := memStore, agtMgr := reliableMessenger } idU
        (sampleWorld () LifeCycleState.TERMINATED_STATE [] [])).1.store =
      (sampleWorld () LifeCycleState.TERMINATED_STATE [] [] : World MemStore Unit).store :=
  (terminateTracepoint_on_terminated reliableMessenger idU
    (sampleInfo idU LifeCycleState.TERMINATED_STATE)
    (sampleWorld () LifeCycleState.TERMINATED_STATE [] []) (by decide) rfl).1

/-- Counterexample for C18 as stated: the record of `idU` is already TERMINATED, yet
`terminateTracepoint` makes an `UpsertTracepoint` call on the store and broadcasts a
RemoveTracepointRequest. -/
theorem terminateTracepoint_on_terminated_still_broadcasts :
    assocGet idU (sampleWorld () LifeCycleState.TERMINATED_STATE [] [] :
        World MemStore Unit).store.deployments =
      some (sampleInfo idU LifeCycleState.TERMINATED_STATE) ∧
    (terminateTracepoint reliableManager idU
        (sampleWorld () LifeCycleState.TERMINATED_STATE [] [])).1.trace =
      [returnedNil (Call.GetTracepoint idU),
       returnedNil (Call.UpsertTracepoint idU (sampleInfo idU LifeCycleState.TERMINATED_STATE)),
       returnedNil (Call.MessageActiveAgents
         (VizierMessage.RemoveTracepointRequest (ProtoFromUUID idU)))] := by
  decide

/-! ## `CreateTracepoint`: when two deployments count as the same -/

theorem samePrograms_refl (programs : List (Option TracepointProgram)) :
    SamePrograms programs programs := by
  unfold SamePrograms
  induction programs with
  | nil => exact List.Forall₂.nil
  | cons p rest ih =>
    refine List.Forall₂.cons ?_ ih
    right
    simp [protoEqual]

/-- C11, as amended: over the reference store, for a name bound to a live deployment,
`CreateTracepoint` returns the bound id with `ErrTracepointAlreadyExists` if and only
if the two program lists have the same length and, at every index, the incoming
program is `nil` or `proto.Equal` to the stored one. Lists that are equal index by
index are such lists. -/
theorem createTracepoint_alreadyExists_iff {M : Type} (agt : AgentMessenger M)
    (newV4 : Except GoError UUID) (name : String) (d : TracepointDeployment) (ttl : Int)
    (prevID : UUID) (prev : TracepointInfo) (w : World MemStore M)
    (hname : assocGet name w.store.names = some prevID)
    (hprev : assocGet prevID w.store.deployments = some prev)
    (hlive : prev.ExpectedState ≠ LifeCycleState.TERMINATED_STATE) :
    ((CreateTracepoint { ts := memStore, agtMgr := agt } newV4 name d ttl w).2 =
        (some prevID, some ErrTracepointAlreadyExists) ↔
      SamePrograms prev.Tracepoint.Programs d.Programs) ∧
    (prev.Tracepoint.Programs = d.Programs →
      (CreateTracepoint { ts := memStore, agtMgr := agt } newV4 name d ttl w).2 =
        (some prevID, some ErrTracepointAlreadyExists)) := by
  have hif : SamePrograms prev.Tracepoint.Programs d.Programs →
      (CreateTracepoint { ts := memStore, agtMgr := agt } newV4 name d ttl w).2 =
        (some prevID, some ErrTracepointAlreadyExists) := by
    intro hsame
    rw [createTracepoint_same_eq agt newV4 name d ttl prevID prev w hname hprev hlive hsame]
  refine ⟨⟨?_, hif⟩, ?_⟩
  · intro hres
    by_contra hdiff
    rw [createTracepoint_changed_eq agt newV4 name d ttl prevID prev w hname hprev hlive hdiff]
      at hres
    cases newV4 with
    | error err => simp [createFresh] at hres
    | ok tpID =>
      rw [createFresh_memStore] at hres
      simp at hres
  · intro heq
    apply hif
    rw [heq]
    exact samePrograms_refl _

/-- Witness for C11 as amended: the stored programs [P] against the incoming [P]. -/
theorem createTracepoint_alreadyExists_iff_witness :
    (CreateTracepoint { ts := memStore, agtMgr := reliableMessenger } (Except.ok idV)
        "http-latency" (mkDeployment "other" [some programMin54]) 300
        (sampleWorld () LifeCycleState.RUNNING_STATE [] [])).2 =
      (some idU, some ErrTracepointAlreadyExists) :=
  (createTracepoint_alreadyExists_iff reliableMessenger (Except.ok idV) "http-latency"
    (mkDeployment "other" [some programMin54]) 300 idU
    (sampleInfo idU LifeCycleState.RUNNING_STATE)
    (sampleWorld () LifeCycleState.RUNNING_STATE [] []) (by decide) (by decide)
    (by decide)).2 rfl

/-- Counterexample for C11 as stated: the stored program list is [P], the incoming
list is [nil]. The two lists are not equal at index 0, yet `CreateTracepoint` returns
the bound id with `ErrTracepointAlreadyExists`. -/
theorem createTracepoint_nil_program_counts_as_same :
    (sampleInfo idU LifeCycleState.RUNNING_STATE).Tracepoint.Programs = [some programMin54] ∧
    (mkDeployment "http-latency" [none]).Programs = [none] ∧
    (some programMin54 : Option TracepointProgram) ≠ none ∧
    (CreateTracepoint reliableManager (Except.ok idV) "http-latency"
        (mkDeployment "http-latency" [none]) 300
        (sampleWorld () LifeCycleState.RUNNING_STATE [] [])).2 =
      (some idU, some ErrTracepointAlreadyExists) := by
  decide

/-! ## `UpdateAgentTracepointStatus` -/

theorem allTerminated_iff (agentID : Option UUIDpb) (states : List AgentTracepointStatus) :
    allTerminated agentID states = true ↔
      ∀ s ∈ states, s.AgentID ≠ agentID → s.State = LifeCycleState.TERMINATED_STATE := by
  induction states with
  | nil => simp [allTerminated]
  | cons s rest ih =>
    rw [allTerminated]
    split_ifs with h
    · simp only [Bool.false_eq_true, false_iff]
      intro hall
      exact h.1 (hall s (List.mem_cons_self _ _) h.2)
    · rw [ih]
      constructor
      · intro hall x hx
        rcases List.mem_cons.1 hx with h1 | h1
        · subst h1
          intro hne
          by_contra hst
          exact h ⟨hst, hne⟩
        · exact hall x h1
      · intro hall x hx
        exact hall x (List.mem_cons_of_mem _ hx)

/-- C13, as amended: `UpdateAgentTracepointStatus` over any store and messenger. For a
state other than TERMINATED it makes the one call `UpdateTracepointState` with the
record (tracepointID, agentID, state, status). For TERMINATED it first lists the
statuses of the tracepoint: a failed listing is returned and nothing is deleted or
written; after a successful listing it calls `DeleteTracepoint` on the tracepoint,
and writes no status, exactly when every listed status of another agent is
TERMINATED, and otherwise makes the one `UpdateTracepointState` call. -/
theorem updateAgentTracepointStatus_behaviour {S M : Type} (m : Manager S M)
    (tracepointID agentID : Option UUIDpb) (state : LifeCycleState) (status : Option Nat)
    (w : World S M) :
    (state ≠ LifeCycleState.TERMINATED_STATE →
      (UpdateAgentTracepointStatus m tracepointID agentID state status w).1.trace = w.trace ++
        [{ call := Call.UpdateTracepointState
             { State := state, Status := status, ID := tracepointID, AgentID := agentID },
           err := (UpdateAgentTracepointStatus m tracepointID agentID state status w).2 }]) ∧
    (state = LifeCycleState.TERMINATED_STATE →
      (∀ err, (m.ts.GetTracepointStates w.store (UUIDFromProtoOrNil tracepointID)).2 =
          Except.error err →
        (UpdateAgentTracepointStatus m tracepointID agentID state status w).2 = some err ∧
        (UpdateAgentTracepointStatus m tracepointID agentID state status w).1.trace =
          w.trace ++ [{ call := Call.GetTracepointStates (UUIDFromProtoOrNil tracepointID),
                        err := some err }]) ∧
      (∀ states, (m.ts.GetTracepointStates w.store (UUIDFromProtoOrNil tracepointID)).2 =
          Except.ok states →
        ((∀ s ∈ states, s.AgentID ≠ agentID → s.State = LifeCycleState.TERMINATED_STATE) →
          (UpdateAgentTracepointStatus m tracepointID agentID state status w).1.trace =
            w.trace ++
              [returnedNil (Call.GetTracepointStates (UUIDFromProtoOrNil tracepointID)),
               { call := Call.DeleteTracepoint (UUIDFromProtoOrNil tracepointID),
                 err := (UpdateAgentTracepointStatus m tracepointID agentID state status
                   w).2 }]) ∧
        (¬ (∀ s ∈ states, s.AgentID ≠ agentID → s.State = LifeCycleState.TERMINATED_STATE) →
          (UpdateAgentTracepointStatus m tracepointID agentID state status w).1.trace =
            w.trace ++
              [returnedNil (Call.GetTracepointStates (UUIDFromProtoOrNil tracepointID)),
               { call := Call.UpdateTracepointState
                   { State := state, Status := status, ID := tracepointID,
                     AgentID := agentID },
                 err := (UpdateAgentTracepointStatus m tracepointID agentID state status
                   w).2 }]))) := by
  refine ⟨?_, ?_⟩
  · intro hstate
    simp [UpdateAgentTracepointStatus, hstate, Manager.UpdateTracepointState, World.afterStore]
  · intro hstate
    refine ⟨?_, ?_⟩
    · intro err hlist
      simp [UpdateAgentTracepointStatus, hstate, Manager.GetTracepointStates, hlist,
        World.afterStore, errorOf]
    · intro states hlist
      refine ⟨?_, ?_⟩
      · intro hall
        have hflag := (allTerminated_iff agentID states).2 hall
        simp [UpdateAgentTracepointStatus, hstate, Manager.GetTracepointStates, hlist,
          Manager.deleteTracepoint, World.afterStore, errorOf, returnedNil, hflag]
      · intro hall
        have hflag : allTerminated agentID states = false := by
          rw [← Bool.not_eq_true]
          exact fun h => hall ((allTerminated_iff agentID states).1 h)
        simp [UpdateAgentTracepointStatus, hstate, Manager.GetTracepointStates, hlist,
          Manager.UpdateTracepointState, World.afterStore, errorOf, returnedNil, hflag]

/-- Witness for C13 as amended: scenario 5 of the specification. Agents A and B are
stored as RUNNING for `idU`; TERMINATED from A is written without a delete, then
TERMINATED from B deletes the deployment. -/
theorem updateAgentTracepointStatus_behaviour_witness :
    (UpdateAgentTracepointStatus reliableManager wireU wireA
        LifeCycleState.TERMINATED_STATE none
        (sampleWorld () LifeCycleState.RUNNING_STATE []
          [statusOf wireA LifeCycleState.RUNNING_STATE,
           statusOf wireB LifeCycleState.RUNNING_STATE])).1.trace =
      (sampleWorld () LifeCycleState.RUNNING_STATE []
          [statusOf wireA LifeCycleState.RUNNING_STATE,
           statusOf wireB LifeCycleState.RUNNING_STATE] : World MemStore Unit).trace ++
      [returnedNil (Call.GetTracepointStates (UUIDFromProtoOrNil wireU)),
       { call := Call.UpdateTracepointState
           { State := LifeCycleState.TERMINATED_STATE, Status := none, ID := wireU,
             AgentID := wireA },
         err := (UpdateAgentTracepointStatus reliableManager wireU wireA
           LifeCycleState.TERMINATED_STATE none
           (sampleWorld () LifeCycleState.RUNNING_STATE []
             [statusOf wireA LifeCycleState.RUNNING_STATE,
              statusOf wireB LifeCycleState.RUNNING_STATE])).2 }] ∧
    (UpdateAgentTracepointStatus reliableManager wireU wireB
        LifeCycleState.TERMINATED_STATE none
        (UpdateAgentTracepointStatus reliableManager wireU wireA
          LifeCycleState.TERMINATED_STATE none
          (sampleWorld () LifeCycleState.RUNNING_STATE []
            [statusOf wireA LifeCycleState.RUNNING_STATE,
             statusOf wireB LifeCycleState.RUNNING_STATE])).1).1.trace =
      [returnedNil (Call.GetTracepointStates idU),
       returnedNil (Call.UpdateTracepointState (statusOf wireA LifeCycleState.TERMINATED_STATE)),
       returnedNil (Call.GetTracepointStates idU),
       returnedNil (Call.DeleteTracepoint idU)] ∧
    assocGet idU (UpdateAgentTracepointStatus reliableManager wireU wireB
        LifeCycleState.TERMINATED_STATE none
        (UpdateAgentTracepointStatus reliableManager wireU wireA
          LifeCycleState.TERMINATED_STATE none
          (sampleWorld () LifeCycleState.RUNNING_STATE []
            [statusOf wireA LifeCycleState.RUNNING_STATE,
             statusOf wireB LifeCycleState.RUNNING_STATE])).1).1.store.deployments = none :=
  ⟨((updateAgentTracepointStatus_behaviour reliableManager wireU wireA
      LifeCycleState.TERMINATED_STATE none
      (sampleWorld () LifeCycleState.RUNNING_STATE []
        [statusOf wireA LifeCycleState.RUNNING_STATE,
         statusOf wireB LifeCycleState.RUNNING_STATE])).2 rfl).2
      [statusOf wireA LifeCycleState.RUNNING_STATE,
       statusOf wireB LifeCycleState.RUNNING_STATE] rfl |>.2 (by decide),
    by decide, by decide⟩

/-- Counterexample for C13 as stated: the store holds no status for `idU`, so every
stored status of another agent is TERMINATED, and the reported state is TERMINATED;
the listing of the statuses fails, and `UpdateAgentTracepointStatus` returns that
error after the one listing call: it neither calls `DeleteTracepoint` nor writes a
status. -/
theorem updateAgentTracepointStatus_listing_failure :
    (sampleWorld () LifeCycleState.RUNNING_STATE [] [] : World MemStore Unit).store.statuses
      = [] ∧
    UpdateAgentTracepointStatus { ts := listingFailsStore, agtMgr := reliableMessenger }
        wireU wireA LifeCycleState.TERMINATED_STATE none
        (sampleWorld () LifeCycleState.RUNNING_STATE [] []) =
      ({ store := (sampleWorld () LifeCycleState.RUNNING_STATE [] [] :
            World MemStore Unit).store,
         messenger := (),
         trace := [{ call := Call.GetTracepointStates idU,
                     err := some (GoError.external 3) }] },
       some (GoError.external 3)) := by
  refine ⟨rfl, ?_⟩
  rfl

/-! ## `RemoveTracepoints` -/

theorem collectLoop_all_present (ids : List UUID) :
    ∀ names : List String, collectLoop (ids.map some) names = some (Except.ok ids) := by
  induction ids with
  | nil => intro names; simp [collectLoop]
  | cons id rest ih =>
    intro names
    simp [collectLoop, ih]

theorem collectLoop_first_missing (present : List UUID) (later : List (Option UUID)) :
    ∀ (names : List String) (name : String), names[present.length]? = some name →
      collectLoop (present.map some ++ none :: later) names =
        some (Except.error
          (GoError.text ("Could not find tracepoint for given name: " ++ name))) := by
  induction present with
  | nil =>
    intro names name h
    cases names with
    | nil => simp at h
    | cons n rest =>
      simp only [List.length_nil, List.getElem?_cons_zero, Option.some.injEq] at h
      subst h
      simp [collectLoop]
  | cons id rest ih =>
    intro names name h
    cases names with
    | nil => simp at h
    | cons n tail =>
      simp only [List.length_cons, List.getElem?_cons_succ] at h
      simp [collectLoop, ih tail name h]

/-- C15: `RemoveTracepoints` over any store whose name lookup answers with a list as
long as `names` and leaves the store as it is. If an id is missing, the first such
entry decides: the result is the error "Could not find tracepoint for given name: "
followed by the name at that index, the lookup is the only call made, and the store
is unchanged. If no id is missing, `DeleteTracepointTTLs` is called once, with the
ids in input order, and its result is returned. -/
theorem removeTracepoints_behaviour {S M : Type} (m : Manager S M) (names : List String)
    (tpIDs : List (Option UUID)) (w : World S M)
    (hlookup : m.ts.GetTracepointsWithNames w.store names = (w.store, Except.ok tpIDs))
    (hlen : tpIDs.length = names.length) :
    (∀ (present : List UUID) (later : List (Option UUID)),
      tpIDs = present.map some ++ none :: later →
      ∃ name, names[present.length]? = some name ∧
        RemoveTracepoints m names w =
          some ({ store := w.store, messenger := w.messenger,
                  trace := w.trace ++ [returnedNil (Call.GetTracepointsWithNames names)] },
                some (GoError.text ("Could not find tracepoint for given name: " ++ name)))) ∧
    (∀ ids : List UUID, tpIDs = ids.map some →
      RemoveTracepoints m names w =
        some ({ store := (m.ts.DeleteTracepointTTLs w.store ids).1, messenger := w.messenger,
                trace := w.trace ++
                  [returnedNil (Call.GetTracepointsWithNames names),
                   { call := Call.DeleteTracepointTTLs ids,
                     err := (m.ts.DeleteTracepointTTLs w.store ids).2 }] },
              (m.ts.DeleteTracepointTTLs w.store ids).2)) := by
  refine ⟨?_, ?_⟩
  · intro present later hsplit
    have hlt : present.length < names.length := by
      rw [← hlen, hsplit]
      simp
    refine ⟨names[present.length], by simp [hlt], ?_⟩
    have hloop := collectLoop_first_missing present later names names[present.length]
      (by simp [hlt])
    simp [RemoveTracepoints, Manager.GetTracepointsWithNames, hlookup, hsplit, hloop,
      World.afterStore, errorOf, returnedNil]
  · intro ids hall
    simp [RemoveTracepoints, Manager.GetTracepointsWithNames, Manager.DeleteTracepointTTLs,
      hlookup, hall, collectLoop_all_present, World.afterStore, errorOf, returnedNil]

/-- Witness for C15: scenario 6 of the specification, and a removal that succeeds. The
name "http-latency" is bound to `idU` with a TTL entry; removing "http-latency" and
"missing" fails on "missing" and leaves the store unchanged; removing "http-latency"
alone deletes the TTL entry. -/
theorem removeTracepoints_behaviour_witness :
    (∃ name, ["http-latency", "missing"][[idU].length]? = some name ∧
      RemoveTracepoints reliableManager ["http-latency", "missing"]
          (sampleWorld () LifeCycleState.RUNNING_STATE [(idU, 600)] []) =
        some ({ store := (sampleWorld () LifeCycleState.RUNNING_STATE [(idU, 600)] [] :
                    World MemStore Unit).store,
                messenger := (),
                trace := (sampleWorld () LifeCycleState.RUNNING_STATE [(idU, 600)] [] :
                    World MemStore Unit).trace ++
                  [returnedNil (Call.GetTracepointsWithNames ["http-latency", "missing"])] },
              some (GoError.text ("Could not find tracepoint for given name: " ++ name)))) ∧
    (RemoveTracepoints reliableManager ["http-latency", "missing"]
        (sampleWorld () LifeCycleState.RUNNING_STATE [(idU, 600)] [])).map (fun r => r.2) =
      some (some (GoError.text "Could not find tracepoint for given name: missing")) ∧
    (RemoveTracepoints reliableManager ["http-latency"]
        (sampleWorld () LifeCycleState.RUNNING_STATE [(idU, 600)] [])).map
        (fun r => (r.1.trace, r.1.store.ttls, r.2)) =
      some ([returnedNil (Call.GetTracepointsWithNames ["http-latency"]),
             returnedNil (Call.DeleteTracepointTTLs [idU])], [], none) :=
  ⟨(removeTracepoints_behaviour reliableManager ["http-latency", "missing"] [some idU, none]
      (sampleWorld () LifeCycleState.RUNNING_STATE [(idU, 600)] []) rfl rfl).1 [idU] [] rfl,
    by decide, by decide⟩

/-! ## The reaper pass -/

theorem activeLoop_spec (now : Int) (id : UUID) :
    ∀ (ttlKeys : List UUID) (ttlVals : List Int) (acc : List (UUID × Bool)),
      ttlKeys.length = ttlVals.length →
      ∃ tpActive, activeLoop now ttlKeys ttlVals acc = some tpActive ∧
        assocGet id tpActive =
          match ttlEntry id ttlKeys ttlVals with
          | some expiry => some (decide (expiry > now))
          | none => assocGet id acc := by
  intro ttlKeys
  induction ttlKeys with
  | nil =>
    intro ttlVals acc _
    exact ⟨acc, by simp [activeLoop], by simp [ttlEntry]⟩
  | cons k ks ih =>
    intro ttlVals acc hlen
    cases ttlVals with
    | nil => simp at hlen
    | cons v vs =>
      have hlen' : ks.length = vs.length := by simpa using hlen
      obtain ⟨tpActive, hrun, hget⟩ := ih vs (assocSet k (decide (v > now)) acc) hlen'
      refine ⟨tpActive, by simpa [activeLoop] using hrun, ?_⟩
      rw [hget]
      cases hlater : ttlEntry id ks vs with
      | some later => simp [ttlEntry, hlater]
      | none =>
        by_cases hk : k = id
        · subst hk
          simp [ttlEntry, hlater, assocGet_assocSet_self]
        · have hk' : id ≠ k := fun e => hk e.symm
          simp [ttlEntry, hlater, hk, assocGet_assocSet_ne _ _ _ _ hk']

theorem activeLoop_total (now : Int) :
    ∀ (ttlKeys : List UUID) (ttlVals : List Int) (acc : List (UUID × Bool)),
      ttlKeys.length = ttlVals.length →
      ∃ tpActive, activeLoop now ttlKeys ttlVals acc = some tpActive := by
  intro ttlKeys ttlVals acc hlen
  obtain ⟨tpActive, h, _⟩ := activeLoop_spec now 0 ttlKeys ttlVals acc hlen
  exact ⟨tpActive, h⟩

theorem reapLoop_eq_runTerminations {S M : Type} (m : Manager S M) (now : Int)
    (ttlKeys : List UUID) (ttlVals : List Int) (tpActive : List (UUID × Bool))
    (hactive : ∀ id, assocGet id tpActive =
      (ttlEntry id ttlKeys ttlVals).map (fun expiry => decide (expiry > now))) :
    ∀ (tps : List TracepointInfo) (w : World S M),
      reapLoop m tpActive tps w = runTerminations m (dueIDs now ttlKeys ttlVals tps) w := by
  intro tps
  induction tps with
  | nil => intro w; simp [reapLoop, dueIDs, runTerminations]
  | cons tp rest ih =>
    intro w
    rw [reapLoop, hactive]
    cases hentry : ttlEntry (UUIDFromProtoOrNil tp.ID) ttlKeys ttlVals with
    | none =>
      by_cases hterm : tp.ExpectedState = LifeCycleState.TERMINATED_STATE
      · have hdue : dueForTermination now ttlKeys ttlVals tp = false := by
          simp [dueForTermination, hterm]
        simp only [Option.map_none', Option.getD_none, Bool.false_eq_true, if_false, hterm,
          if_true, ih]
        simp [dueIDs, hdue]
      · have hdue : dueForTermination now ttlKeys ttlVals tp = true := by
          simp [dueForTermination, hterm, hentry]
        simp only [Option.map_none', Option.getD_none, Bool.false_eq_true, if_false, hterm, ih]
        simp [dueIDs, hdue, runTerminations]
    | some expiry =>
      by_cases hlive : expiry > now
      · have hdue : dueForTermination now ttlKeys ttlVals tp = false := by
          simp [dueForTermination, hentry, not_le.2 hlive]
        simp only [Option.map_some', Option.getD_some, decide_eq_true_eq, hlive, if_true, ih]
        simp [dueIDs, hdue]
      · by_cases hterm : tp.ExpectedState = LifeCycleState.TERMINATED_STATE
        · have hdue : dueForTermination now ttlKeys ttlVals tp = false := by
            simp [dueForTermination, hterm]
          simp only [Option.map_some', Option.getD_some, decide_eq_true_eq, hlive, if_false,
            hterm, if_true, ih]
          simp [dueIDs, hdue]
        · have hdue : dueForTermination now ttlKeys ttlVals tp = true := by
            simp [dueForTermination, hterm, hentry, not_lt.1 hlive]
          simp only [Option.map_some', Option.getD_some, decide_eq_true_eq, hlive, if_false,
            hterm, ih]
          simp [dueIDs, hdue, runTerminations]

theorem terminateExpired_eq {S M : Type} (m : Manager S M) (now : Int)
    (tps : List TracepointInfo) (ttlKeys : List UUID) (ttlVals : List Int) (w : World S M)
    (hlist : (m.ts.GetTracepoints w.store).2 = Except.ok tps)
    (httl : (m.ts.GetTracepointTTLs (m.ts.GetTracepoints w.store).1).2 =
      Except.ok (ttlKeys, ttlVals))
    (hlen : ttlKeys.length = ttlVals.length) :
    terminateExpiredTracepoints m now w =
      some (runTerminations m (dueIDs now ttlKeys ttlVals tps)
        { store := (m.ts.GetTracepointTTLs (m.ts.GetTracepoints w.store).1).1,
          messenger := w.messenger,
          trace := w.trace ++
            [returnedNil Call.GetTracepoints, returnedNil Call.GetTracepointTTLs] }) := by
  obtain ⟨tpActive, hrun, _⟩ := activeLoop_spec now 0 ttlKeys ttlVals [] hlen
  have hactive : ∀ id, assocGet id tpActive =
      (ttlEntry id ttlKeys ttlVals).map (fun expiry => decide (expiry > now)) := by
    intro id
    obtain ⟨tpActive', hrun', hget⟩ := activeLoop_spec now id ttlKeys ttlVals [] hlen
    rw [hrun] at hrun'
    cases hrun'
    rw [hget]
    cases ttlEntry id ttlKeys ttlVals <;> simp [assocGet]
  simp only [terminateExpiredTracepoints, Manager.GetTracepoints, Manager.GetTracepointTTLs,
    hlist, httl, World.afterStore, hrun, errorOf]
  rw [reapLoop_eq_runTerminations m now ttlKeys ttlVals tpActive hactive]
  simp [returnedNil]

theorem dueForTermination_iff (now : Int) (ttlKeys : List UUID) (ttlVals : List Int)
    (tp : TracepointInfo) :
    dueForTermination now ttlKeys ttlVals tp = true ↔
      (tp.ExpectedState ≠ LifeCycleState.TERMINATED_STATE ∧
        (ttlEntry (UUIDFromProtoOrNil tp.ID) ttlKeys ttlVals = none ∨
          ∃ expiry, ttlEntry (UUIDFromProtoOrNil tp.ID) ttlKeys ttlVals = some expiry ∧
            ¬ (expiry > now))) := by
  unfold dueForTermination
  cases ttlEntry (UUIDFromProtoOrNil tp.ID) ttlKeys ttlVals with
  | none => simp
  | some expiry => simp

/-- C19: a reaper pass at time `now`, over any store and messenger, after the store has
listed the deployments and two TTL arrays of equal length. The pass is the two
listing calls followed by one `terminateTracepoint` invocation for each listed
deployment that is due, in listing order, and by nothing else. A listed deployment
is due exactly when its expected state is not TERMINATED and its id has no TTL entry
or an expiry that is not strictly after `now`. -/
theorem reaperPass_terminates_exactly_due {S M : Type} (m : Manager S M) (now : Int)
    (tps : List TracepointInfo) (ttlKeys : List UUID) (ttlVals : List Int) (w : World S M)
    (hlist : (m.ts.GetTracepoints w.store).2 = Except.ok tps)
    (httl : (m.ts.GetTracepointTTLs (m.ts.GetTracepoints w.store).1).2 =
      Except.ok (ttlKeys, ttlVals))
    (hlen : ttlKeys.length = ttlVals.length) :
    terminateExpiredTracepoints m now w =
      some (runTerminations m
        ((tps.filter (dueForTermination now ttlKeys ttlVals)).map
          (fun tp => UUIDFromProtoOrNil tp.ID))
        { store := (m.ts.GetTracepointTTLs (m.ts.GetTracepoints w.store).1).1,
          messenger := w.messenger,
          trace := w.trace ++
            [returnedNil Call.GetTracepoints, returnedNil Call.GetTracepointTTLs] }) ∧
    (∀ tp, dueForTermination now ttlKeys ttlVals tp = true ↔
      (tp.ExpectedState ≠ LifeCycleState.TERMINATED_STATE ∧
        (ttlEntry (UUIDFromProtoOrNil tp.ID) ttlKeys ttlVals = none ∨
          ∃ expiry, ttlEntry (UUIDFromProtoOrNil tp.ID) ttlKeys ttlVals = some expiry ∧
            ¬ (expiry > now)))) := by
  exact ⟨terminateExpired_eq m now tps ttlKeys ttlVals w hlist httl hlen,
    dueForTermination_iff now ttlKeys ttlVals⟩

/-- Witness for C19: three records listed over the reference store at time 100: one
with an expired TTL entry, one with a TTL entry in the future, one without a TTL
entry but TERMINATED. Only the first is terminated. -/
theorem reaperPass_terminates_exactly_due_witness :
    terminateExpiredTracepoints reliableManager 100
        ({ store := { now := 100,
                      deployments := [(idU, sampleInfo idU LifeCycleState.RUNNING_STATE),
                                      (idV, sampleInfo idV LifeCycleState.RUNNING_STATE),
                                      (idV + 1, sampleInfo (idV + 1)
                                        LifeCycleState.TERMINATED_STATE)],
                      names := [], ttls := [(idU, 100), (idV, 101)], statuses := [] },
           messenger := (), trace := [] } : World MemStore Unit) =
      some (runTerminations reliableManager [idU]
        { store := { now := 100,
                     deployments := [(idU, sampleInfo idU LifeCycleState.RUNNING_STATE),
                                     (idV, sampleInfo idV LifeCycleState.RUNNING_STATE),
                                     (idV + 1, sampleInfo (idV + 1)
                                       LifeCycleState.TERMINATED_STATE)],
                     names := [], ttls := [(idU, 100), (idV, 101)], statuses := [] },
          messenger := (),
          trace := [returnedNil Call.GetTracepoints, returnedNil Call.GetTracepointTTLs] }) :=
  (reaperPass_terminates_exactly_due reliableManager 100
    [sampleInfo idU LifeCycleState.RUNNING_STATE, sampleInfo idV LifeCycleState.RUNNING_STATE,
     sampleInfo (idV + 1) LifeCycleState.TERMINATED_STATE]
    [idU, idV] [100, 101]
    ({ store := { now := 100,
                  deployments := [(idU, sampleInfo idU LifeCycleState.RUNNING_STATE),
                                  (idV, sampleInfo idV LifeCycleState.RUNNING_STATE),
                                  (idV + 1, sampleInfo (idV + 1)
                                    LifeCycleState.TERMINATED_STATE)],
                  names := [], ttls := [(idU, 100), (idV, 101)], statuses := [] },
       messenger := (), trace := [] } : World MemStore Unit) rfl rfl rfl).1

/-! ## Terminations over the reference store -/

theorem terminate_memStore_absent {M : Type} (agt : AgentMessenger M) (id : UUID)
    (w : World MemStore M) (habsent : assocGet id w.store.deployments = none) :
    terminateTracepoint { ts := memStore, agtMgr := agt } id w =
      ({ store := w.store, messenger := w.messenger,
         trace := w.trace ++ [returnedNil (Call.GetTracepoint id)] }, none) := by
  simp [terminateTracepoint, Manager.GetTracepoint, memStore, habsent, World.afterStore,
    errorOf, returnedNil]

theorem terminate_memStore_present {M : Type} (agt : AgentMessenger M) (id : UUID)
    (tp : TracepointInfo) (w : World MemStore M)
    (hrec : assocGet id w.store.deployments = some tp) :
    terminateTracepoint { ts := memStore, agtMgr := agt } id w =
      ({ store := { w.store with
           deployments := assocSet id (markTerminated tp) w.store.deployments },
         messenger := (agt.MessageActiveAgents w.messenger
           (VizierMessage.RemoveTracepointRequest (ProtoFromUUID id))).1,
         trace := w.trace ++
           [returnedNil (Call.GetTracepoint id),
            returnedNil (Call.UpsertTracepoint id (markTerminated tp)),
            removeBroadcast id (agt.MessageActiveAgents w.messenger
              (VizierMessage.RemoveTracepointRequest (ProtoFromUUID id))).2] },
        (agt.MessageActiveAgents w.messenger
          (VizierMessage.RemoveTracepointRequest (ProtoFromUUID id))).2) := by
  simp [terminateTracepoint, Manager.GetTracepoint, Manager.UpsertTracepoint,
    Manager.MessageActiveAgents, memStore, hrec, World.afterStore, World.afterMessenger,
    errorOf, returnedNil, removeBroadcast, markTerminated]

theorem markTerminated_idem (tp : TracepointInfo) :
    markTerminated (markTerminated tp) = markTerminated tp := rfl

/-- What one `terminateTracepoint` does to the reference store: the record of the id,
if there is one, is marked TERMINATED, nothing else changes, and a record found gets
its broadcast. -/
theorem terminate_memStore_frame {M : Type} (agt : AgentMessenger M) (j : UUID)
    (w : World MemStore M) :
    (terminateTracepoint { ts := memStore, agtMgr := agt } j w).1.store.now = w.store.now ∧
    (terminateTracepoint { ts := memStore, agtMgr := agt } j w).1.store.names = w.store.names ∧
    (terminateTracepoint { ts := memStore, agtMgr := agt } j w).1.store.ttls = w.store.ttls ∧
    (terminateTracepoint { ts := memStore, agtMgr := agt } j w).1.store.statuses =
      w.store.statuses ∧
    (∀ id, assocGet id
        (terminateTracepoint { ts := memStore, agtMgr := agt } j w).1.store.deployments =
      if id = j then (assocGet id w.store.deployments).map markTerminated
      else assocGet id w.store.deployments) ∧
    (∃ events, (terminateTracepoint { ts := memStore, agtMgr := agt } j w).1.trace =
        w.trace ++ events ∧ returnedNil (Call.GetTracepoint j) ∈ events ∧
      ((assocGet j w.store.deployments).isSome → ∃ err, removeBroadcast j err ∈ events)) := by
  cases hrec : assocGet j w.store.deployments with
  | none =>
    rw [terminate_memStore_absent agt j w hrec]
    refine ⟨rfl, rfl, rfl, rfl, ?_, ⟨[returnedNil (Call.GetTracepoint j)], rfl, by simp,
      by simp⟩⟩
    intro id
    by_cases hj : id = j
    · subst hj
      simp [hrec]
    · simp [hj]
  | some tp =>
    rw [terminate_memStore_present agt j tp w hrec]
    refine ⟨rfl, rfl, rfl, rfl, ?_,
      ⟨[returnedNil (Call.GetTracepoint j),
        returnedNil (Call.UpsertTracepoint j (markTerminated tp)),
        removeBroadcast j (agt.MessageActiveAgents w.messenger
          (VizierMessage.RemoveTracepointRequest (ProtoFromUUID j))).2], rfl, by simp, ?_⟩⟩
    · intro id
      by_cases hj : id = j
      · subst hj
        simp [hrec, assocGet_assocSet_self]
      · simp only [hj, if_false]
        exact assocGet_assocSet_ne _ _ _ _ hj
    · intro _
      exact ⟨(agt.MessageActiveAgents w.messenger
        (VizierMessage.RemoveTracepointRequest (ProtoFromUUID j))).2, by simp⟩

/-- What a run of terminations does to the reference store: the records of the ids
terminated are marked TERMINATED and nothing else changes; every id that had a record
gets its broadcast. -/
theorem runTerminations_memStore {M : Type} (agt : AgentMessenger M) (ids : List UUID) :
    ∀ w : World MemStore M,
      (runTerminations { ts := memStore, agtMgr := agt } ids w).store.now = w.store.now ∧
      (runTerminations { ts := memStore, agtMgr := agt } ids w).store.names = w.store.names ∧
      (runTerminations { ts := memStore, agtMgr := agt } ids w).store.ttls = w.store.ttls ∧
      (runTerminations { ts := memStore, agtMgr := agt } ids w).store.statuses =
        w.store.statuses ∧
      (∀ id, assocGet id
          (runTerminations { ts := memStore, agtMgr := agt } ids w).store.deployments =
        if id ∈ ids then (assocGet id w.store.deployments).map markTerminated
        else assocGet id w.store.deployments) ∧
      (∃ events, (runTerminations { ts := memStore, agtMgr := agt } ids w).trace =
          w.trace ++ events ∧
        ∀ id ∈ ids, returnedNil (Call.GetTracepoint id) ∈ events ∧
          ((assocGet id w.store.deployments).isSome →
            ∃ err, removeBroadcast id err ∈ events)) := by
  induction ids with
  | nil =>
    intro w
    exact ⟨rfl, rfl, rfl, rfl, by simp [runTerminations], ⟨[], by simp [runTerminations],
      by simp⟩⟩
  | cons j rest ih =>
    intro w
    rw [runTerminations]
    obtain ⟨t1, t2, t3, t4, t5, ⟨ev1, t6, t8, t7⟩⟩ := terminate_memStore_frame agt j w
    obtain ⟨h1, h2, h3, h4, h5, ⟨ev2, h6, h7⟩⟩ :=
      ih (terminateTracepoint { ts := memStore, agtMgr := agt } j w).1
    refine ⟨h1.trans t1, h2.trans t2, h3.trans t3, h4.trans t4, ?_, ⟨ev1 ++ ev2, ?_, ?_⟩⟩
    · intro id
      rw [h5 id, t5 id]
      by_cases hj : id = j
      · subst hj
        cases assocGet id w.store.deployments <;> simp [markTerminated_idem]
      · simp [hj]
    · rw [h6, t6, List.append_assoc]
    · intro id hid
      by_cases hj : id = j
      · subst hj
        refine ⟨List.mem_append_left _ t8, ?_⟩
        intro hsome
        obtain ⟨err, herr⟩ := t7 hsome
        exact ⟨err, List.mem_append_left _ herr⟩
      · have hrest : id ∈ rest := by
          rcases List.mem_cons.1 hid with h | h
          · exact absurd h hj
          · exact h
        refine ⟨List.mem_append_right _ (h7 id hrest).1, ?_⟩
        intro hsome
        have hsome' : (assocGet id (terminateTracepoint { ts := memStore, agtMgr := agt } j
            w).1.store.deployments).isSome := by
          rw [t5 id]; simpa [hj] using hsome
        obtain ⟨err, herr⟩ := (h7 id hrest).2 hsome'
        exact ⟨err, List.mem_append_right _ herr⟩

theorem assocGet_mem {K V : Type} [DecidableEq K] (k : K) (v : V) (l : List (K × V))
    (h : assocGet k l = some v) : (k, v) ∈ l := by
  induction l with
  | nil => simp [assocGet] at h
  | cons e rest ih =>
    obtain ⟨k0, v0⟩ := e
    by_cases hk : k0 = k
    · subst hk
      simp only [assocGet, if_true, Option.some.injEq] at h
      subst h
      exact List.mem_cons_self _ _
    · simp only [assocGet, hk, if_false] at h
      exact List.mem_cons_of_mem _ (ih h)

/-- A reaper pass over the reference store is the two listings followed by the
terminations of the due ids. -/
theorem reaperPass_memStore {M : Type} (agt : AgentMessenger M) (now : Int)
    (w : World MemStore M) :
    terminateExpiredTracepoints { ts := memStore, agtMgr := agt } now w =
      some (runTerminations { ts := memStore, agtMgr := agt }
        (dueIDs now (w.store.ttls.map (fun e => e.1)) (w.store.ttls.map (fun e => e.2))
          (w.store.deployments.map (fun e => e.2)))
        { store := w.store, messenger := w.messenger,
          trace := w.trace ++
            [returnedNil Call.GetTracepoints, returnedNil Call.GetTracepointTTLs] }) :=
  terminateExpired_eq { ts := memStore, agtMgr := agt } now _ _ _ w rfl rfl (by simp)

theorem createTracepoint_unbound_eq {M : Type} (agt : AgentMessenger M)
    (newV4 : Except GoError UUID) (name : String) (d : TracepointDeployment) (ttl : Int)
    (w : World MemStore M) (hunbound : assocGet name w.store.names = none) :
    CreateTracepoint { ts := memStore, agtMgr := agt } newV4 name d ttl w =
      createFresh { ts := memStore, agtMgr := agt } newV4 name d ttl
        { store := w.store, messenger := w.messenger,
          trace := w.trace ++ [returnedNil (Call.GetTracepointsWithNames [name])] } := by
  simp [CreateTracepoint, Manager.GetTracepointsWithNames, memStore, hunbound, errorOf,
    World.afterStore, returnedNil]

theorem createTracepoint_dangling_eq {M : Type} (agt : AgentMessenger M)
    (newV4 : Except GoError UUID) (name : String) (d : TracepointDeployment) (ttl : Int)
    (prevID : UUID) (w : World MemStore M)
    (hname : assocGet name w.store.names = some prevID)
    (hprev : assocGet prevID w.store.deployments = none) :
    CreateTracepoint { ts := memStore, agtMgr := agt } newV4 name d ttl w =
      createFresh { ts := memStore, agtMgr := agt } newV4 name d ttl
        { store := w.store, messenger := w.messenger,
          trace := w.trace ++ [returnedNil (Call.GetTracepointsWithNames [name]),
            returnedNil (Call.GetTracepoint prevID)] } := by
  simp [CreateTracepoint, createOverPrevious, Manager.GetTracepointsWithNames,
    Manager.GetTracepoint, memStore, hname, hprev, errorOf, World.afterStore, returnedNil]

theorem createTracepoint_terminated_eq {M : Type} (agt : AgentMessenger M)
    (newV4 : Except GoError UUID) (name : String) (d : TracepointDeployment) (ttl : Int)
    (prevID : UUID) (prev : TracepointInfo) (w : World MemStore M)
    (hname : assocGet name w.store.names = some prevID)
    (hprev : assocGet prevID w.store.deployments = some prev)
    (hterm : prev.ExpectedState = LifeCycleState.TERMINATED_STATE) :
    CreateTracepoint { ts := memStore, agtMgr := agt } newV4 name d ttl w =
      createFresh { ts := memStore, agtMgr := agt } newV4 name d ttl
        { store := w.store, messenger := w.messenger,
          trace := w.trace ++ [returnedNil (Call.GetTracepointsWithNames [name]),
            returnedNil (Call.GetTracepoint prevID)] } := by
  simp [CreateTracepoint, createOverPrevious, Manager.GetTracepointsWithNames,
    Manager.GetTracepoint, memStore, hname, hprev, hterm, errorOf, World.afterStore,
    returnedNil]

/-- The paths of `CreateTracepoint` over the reference store: it refreshes the TTL of
the bound id and returns it with `ErrTracepointAlreadyExists`, or it runs the minting
part on a world with the same records, clock, name index and statuses whose TTL index
has at most lost the entry of the bound id. -/
theorem createTracepoint_paths {M : Type} (agt : AgentMessenger M)
    (newV4 : Except GoError UUID) (name : String) (d : TracepointDeployment) (ttl : Int)
    (w : World MemStore M) :
    (∃ prevID prev, assocGet prevID w.store.deployments = some prev ∧
      prev.ExpectedState ≠ LifeCycleState.TERMINATED_STATE ∧
      CreateTracepoint { ts := memStore, agtMgr := agt } newV4 name d ttl w =
        ({ store := { w.store with ttls := assocSet prevID (w.store.now + ttl) w.store.ttls },
           messenger := w.messenger,
           trace := w.trace ++
             [returnedNil (Call.GetTracepointsWithNames [name]),
              returnedNil (Call.GetTracepoint prevID),
              returnedNil (Call.SetTracepointTTL prevID ttl)] },
          (some prevID, some ErrTracepointAlreadyExists))) ∨
    (∃ w0 : World MemStore M, w0.store.deployments = w.store.deployments ∧
      w0.store.now = w.store.now ∧ w0.store.names = w.store.names ∧
      w0.store.statuses = w.store.statuses ∧ w0.messenger = w.messenger ∧
      CreateTracepoint { ts := memStore, agtMgr := agt } newV4 name d ttl w =
        createFresh { ts := memStore, agtMgr := agt } newV4 name d ttl w0) := by
  cases hname : assocGet name w.store.names with
  | none =>
    refine Or.inr ⟨_, ?_, ?_, ?_, ?_, ?_,
      createTracepoint_unbound_eq agt newV4 name d ttl w hname⟩ <;> rfl
  | some prevID =>
    cases hprev : assocGet prevID w.store.deployments with
    | none =>
      refine Or.inr ⟨_, ?_, ?_, ?_, ?_, ?_,
        createTracepoint_dangling_eq agt newV4 name d ttl prevID w hname hprev⟩ <;> rfl
    | some prev =>
      by_cases hterm : prev.ExpectedState = LifeCycleState.TERMINATED_STATE
      · refine Or.inr ⟨_, ?_, ?_, ?_, ?_, ?_,
          createTracepoint_terminated_eq agt newV4 name d ttl prevID prev w hname hprev
            hterm⟩ <;> rfl
      · by_cases hsame : SamePrograms prev.Tracepoint.Programs d.Programs
        · exact Or.inl ⟨prevID, prev, hprev, hterm,
            createTracepoint_same_eq agt newV4 name d ttl prevID prev w hname hprev hterm hsame⟩
        · refine Or.inr ⟨_, ?_, ?_, ?_, ?_, ?_,
            createTracepoint_changed_eq agt newV4 name d ttl prevID prev w hname hprev hterm
              hsame⟩ <;> rfl

theorem createFresh_memStore_error {M : Type} (agt : AgentMessenger M) (err : GoError)
    (name : String) (d : TracepointDeployment) (ttl : Int) (w : World MemStore M) :
    createFresh { ts := memStore, agtMgr := agt } (Except.error err) name d ttl w =
      (w, (none, some err)) := rfl

/-! ## Expected states never go back -/

theorem assocGet_assocErase {K V : Type} [DecidableEq K] (k id : K) (l : List (K × V)) :
    assocGet id (assocErase k l) = if id = k then none else assocGet id l := by
  induction l with
  | nil => simp [assocErase, assocGet]
  | cons e rest ih =>
    obtain ⟨k0, v0⟩ := e
    by_cases hk : k0 = k
    · subst hk
      by_cases hid : id = k0
      · subst hid
        simpa [assocErase] using ih
      · have hne : ¬ k0 = id := fun h => hid h.symm
        simp only [assocErase, if_true, ih, hid, if_false, assocGet, hne]
    · by_cases hid : id = k
      · subst hid
        simp only [assocErase, hk, if_false, assocGet, if_true]
        simpa using ih
      · by_cases he : k0 = id
        · simp [assocErase, assocGet, hk, hid, he]
        · simp [assocErase, assocGet, hk, ih, hid, he]

theorem create_keeps_terminated {M : Type} (agt : AgentMessenger M)
    (newV4 : Except GoError UUID) (name : String) (d : TracepointDeployment) (ttl : Int)
    (w : World MemStore M) (id : UUID) (hnomint : newV4 ≠ Except.ok id)
    (h : AbsentOrTerminated id w.store) :
    AbsentOrTerminated id
      (CreateTracepoint { ts := memStore, agtMgr := agt } newV4 name d ttl w).1.store := by
  rcases createTracepoint_paths agt newV4 name d ttl w with
    ⟨prevID, prev, _, _, heq⟩ | ⟨w0, hdep, _, _, _, _, heq⟩
  · rw [heq]
    exact h
  · rw [heq]
    cases newV4 with
    | error err =>
      rw [createFresh_memStore_error]
      intro tp htp
      rw [hdep] at htp
      exact h tp htp
    | ok tpID =>
      rw [createFresh_memStore]
      have hne : id ≠ tpID := fun e => hnomint (by rw [e])
      intro tp htp
      simp only at htp
      rw [assocGet_assocSet_ne _ _ _ _ hne, hdep] at htp
      exact h tp htp

theorem collectLoop_parallel (f : String → Option UUID) :
    ∀ names : List String, ∃ r, collectLoop (names.map f) names = some r := by
  intro names
  induction names with
  | nil => exact ⟨_, rfl⟩
  | cons n rest ih =>
    cases hf : f n with
    | none =>
      exact ⟨Except.error
        (GoError.text ("Could not find tracepoint for given name: " ++ n)),
        by simp [collectLoop, hf]⟩
    | some id =>
      obtain ⟨r, hr⟩ := ih
      cases r with
      | error err => exact ⟨Except.error err, by simp [collectLoop, hf, hr]⟩
      | ok ids => exact ⟨Except.ok (id :: ids), by simp [collectLoop, hf, hr]⟩

theorem removeTracepoints_memStore_frame {M : Type} (agt : AgentMessenger M)
    (names : List String) (w : World MemStore M) :
    ∃ (w1 : World MemStore M) (r : Option GoError),
      RemoveTracepoints { ts := memStore, agtMgr := agt } names w = some (w1, r) ∧
      w1.store.deployments = w.store.deployments ∧ w1.store.now = w.store.now ∧
      w1.store.names = w.store.names ∧ w1.store.statuses = w.store.statuses := by
  obtain ⟨r, hr⟩ := collectLoop_parallel (fun name => assocGet name w.store.names) names
  cases r with
  | error err =>
    refine ⟨{ store := w.store, messenger := w.messenger,
              trace := w.trace ++ [returnedNil (Call.GetTracepointsWithNames names)] },
      some err, ?_, rfl, rfl, rfl, rfl⟩
    simp [RemoveTracepoints, Manager.GetTracepointsWithNames, memStore, hr,
      World.afterStore, errorOf, returnedNil]
  | ok ids =>
    refine ⟨{ store := { w.store with
                ttls := w.store.ttls.filter (fun e => !(ids.contains e.1)) },
              messenger := w.messenger,
              trace := w.trace ++ [returnedNil (Call.GetTracepointsWithNames names),
                returnedNil (Call.DeleteTracepointTTLs ids)] },
      none, ?_, rfl, rfl, rfl, rfl⟩
    simp [RemoveTracepoints, Manager.GetTracepointsWithNames, Manager.DeleteTracepointTTLs,
      memStore, hr, World.afterStore, errorOf, returnedNil]

theorem update_memStore_deployments {M : Type} (agt : AgentMessenger M)
    (tracepointID agentID : Option UUIDpb) (state : LifeCycleState) (status : Option Nat)
    (w : World MemStore M) :
    (UpdateAgentTracepointStatus { ts := memStore, agtMgr := agt } tracepointID agentID state
        status w).1.store.deployments = w.store.deployments ∨
    (UpdateAgentTracepointStatus { ts := memStore, agtMgr := agt } tracepointID agentID state
        status w).1.store.deployments =
      assocErase (UUIDFromProtoOrNil tracepointID) w.store.deployments := by
  unfold UpdateAgentTracepointStatus
  by_cases hstate : state = LifeCycleState.TERMINATED_STATE
  · by_cases hall : allTerminated agentID (w.store.statuses.filter
        (fun st => decide (UUIDFromProtoOrNil st.ID = UUIDFromProtoOrNil tracepointID))) = true
    · right
      simp [hstate, Manager.GetTracepointStates, Manager.deleteTracepoint, memStore, hall,
        World.afterStore]
    · left
      simp [hstate, Manager.GetTracepointStates, Manager.UpdateTracepointState, memStore, hall,
        World.afterStore]
  · left
    simp [hstate, Manager.UpdateTracepointState, memStore, World.afterStore]

theorem applyOp_keeps_terminated {M : Type} (agt : AgentMessenger M) (id : UUID)
    (op : ManagerOp) (w : World MemStore M) (hnomint : ¬ mintsID id op)
    (h : AbsentOrTerminated id w.store) :
    ∃ w1, applyOp { ts := memStore, agtMgr := agt } op w = some w1 ∧
      AbsentOrTerminated id w1.store := by
  cases op with
  | create newV4 name d ttl =>
    refine ⟨_, rfl, create_keeps_terminated agt newV4 name d ttl w id ?_ h⟩
    intro hv
    exact hnomint ⟨name, d, ttl, by rw [hv]⟩
  | remove names =>
    obtain ⟨w1, r, hrun, hdep, _⟩ := removeTracepoints_memStore_frame agt names w
    refine ⟨w1, by simp [applyOp, hrun], ?_⟩
    intro tp htp
    rw [hdep] at htp
    exact h tp htp
  | update tracepointID agentID state status =>
    refine ⟨_, rfl, ?_⟩
    intro tp htp
    rcases update_memStore_deployments agt tracepointID agentID state status w with hd | hd
    · rw [hd] at htp
      exact h tp htp
    · rw [hd, assocGet_assocErase] at htp
      split_ifs at htp
      exact h tp htp
  | terminate j =>
    refine ⟨_, rfl, ?_⟩
    intro tp htp
    obtain ⟨_, _, _, _, h5, _⟩ := terminate_memStore_frame agt j w
    rw [h5 id] at htp
    split_ifs at htp
    · cases hrec : assocGet id w.store.deployments with
      | none => rw [hrec] at htp; simp at htp
      | some tp0 =>
        rw [hrec] at htp
        simp only [Option.map_some', Option.some.injEq] at htp
        rw [← htp]
        rfl
    · exact h tp htp
  | reap now =>
    refine ⟨_, reaperPass_memStore agt now w, ?_⟩
    intro tp htp
    obtain ⟨_, _, _, _, h5, _⟩ := runTerminations_memStore agt
      (dueIDs now (w.store.ttls.map (fun e => e.1)) (w.store.ttls.map (fun e => e.2))
        (w.store.deployments.map (fun e => e.2)))
      { store := w.store, messenger := w.messenger,
        trace := w.trace ++
          [returnedNil Call.GetTracepoints, returnedNil Call.GetTracepointTTLs] }
    rw [h5 id] at htp
    split_ifs at htp
    · cases hrec : assocGet id w.store.deployments with
      | none => rw [hrec] at htp; simp at htp
      | some tp0 =>
        rw [hrec] at htp
        simp only [Option.map_some', Option.some.injEq] at htp
        rw [← htp]
        rfl
    · exact h tp htp
  | wait elapsed =>
    exact ⟨_, rfl, h⟩

/-- C17: over the reference store, for every sequence of manager operations
(CreateTracepoint, RemoveTracepoints, UpdateAgentTracepointStatus,
terminateTracepoint, reaper passes, with any time passing in between) in which no
CreateTracepoint mints the id again: the sequence runs to its end, and if the store
held the id with expected state TERMINATED at the start, then at the end it holds the
id as TERMINATED or does not hold it. -/
theorem terminated_never_runs_again {M : Type} (agt : AgentMessenger M) (id : UUID)
    (tp : TracepointInfo) (ops : List ManagerOp) (w : World MemStore M)
    (hrec : assocGet id w.store.deployments = some tp)
    (hterm : tp.ExpectedState = LifeCycleState.TERMINATED_STATE)
    (hfresh : ∀ op ∈ ops, ¬ mintsID id op) :
    ∃ w1, applyOps { ts := memStore, agtMgr := agt } ops w = some w1 ∧
      (assocGet id w1.store.deployments = none ∨
        ∃ tp1, assocGet id w1.store.deployments = some tp1 ∧
          tp1.ExpectedState = LifeCycleState.TERMINATED_STATE) := by
  have hstart : AbsentOrTerminated id w.store := by
    intro tp0 h0
    rw [hrec] at h0
    cases h0
    exact hterm
  have hrun : ∀ (ops : List ManagerOp) (w : World MemStore M),
      (∀ op ∈ ops, ¬ mintsID id op) → AbsentOrTerminated id w.store →
      ∃ w1, applyOps { ts := memStore, agtMgr := agt } ops w = some w1 ∧
        AbsentOrTerminated id w1.store := by
    intro ops
    induction ops with
    | nil => intro w _ h; exact ⟨w, rfl, h⟩
    | cons op rest ih =>
      intro w hf h
      obtain ⟨w1, hstep, h1⟩ :=
        applyOp_keeps_terminated agt id op w (hf op (List.mem_cons_self _ _)) h
      obtain ⟨w2, hrest, h2⟩ := ih w1 (fun o ho => hf o (List.mem_cons_of_mem _ ho)) h1
      exact ⟨w2, by simp [applyOps, hstep, hrest], h2⟩
  obtain ⟨w1, hops, hend⟩ := hrun ops w hfresh hstart
  refine ⟨w1, hops, ?_⟩
  cases hfinal : assocGet id w1.store.deployments with
  | none => exact Or.inl rfl
  | some tp1 => exact Or.inr ⟨tp1, rfl, hend tp1 hfinal⟩

/-- Witness for C17: the record of `idU` is TERMINATED; the name is created again
(minting `idV`), removed, a reaper pass runs, an agent reports TERMINATED and
`terminateTracepoint` is called on `idU`. -/
theorem terminated_never_runs_again_witness :
    ∃ w1 : World MemStore Unit,
      applyOps { ts := memStore, agtMgr := reliableMessenger }
          [ManagerOp.create (Except.ok idV) "http-latency"
             (mkDeployment "http-latency" [some programMin60]) 600,
           ManagerOp.wait 700,
           ManagerOp.remove ["http-latency"],
           ManagerOp.reap 700,
           ManagerOp.terminate idU,
           ManagerOp.update (some (ProtoFromUUID idV)) wireA LifeCycleState.TERMINATED_STATE
             none]
          (sampleWorld () LifeCycleState.TERMINATED_STATE [] []) = some w1 ∧
      (assocGet idU w1.store.deployments = none ∨
        ∃ tp1, assocGet idU w1.store.deployments = some tp1 ∧
          tp1.ExpectedState = LifeCycleState.TERMINATED_STATE) :=
  terminated_never_runs_again reliableMessenger idU
    (sampleInfo idU LifeCycleState.TERMINATED_STATE) _
    (sampleWorld () LifeCycleState.TERMINATED_STATE [] []) (by decide) rfl
    (by
      intro op hop hmint
      obtain ⟨name, d, ttl, heq⟩ := hmint
      subst heq
      simp [idU, idV] at hop)

/-! ## TTL entries of the reference store, as the reaper pass reads them -/

theorem ttlEntry_zip_some (id : UUID) (expiry : Int) (ttls : List (UUID × Int))
    (h : ttlEntry id (ttls.map (fun e => e.1)) (ttls.map (fun e => e.2)) = some expiry) :
    (id, expiry) ∈ ttls := by
  induction ttls with
  | nil => simp [ttlEntry] at h
  | cons e rest ih =>
    obtain ⟨k, v⟩ := e
    simp only [List.map_cons, ttlEntry] at h
    cases hlater : ttlEntry id (rest.map (fun e => e.1)) (rest.map (fun e => e.2)) with
    | some later =>
      rw [hlater] at h
      simp only [Option.some.injEq] at h
      subst h
      exact List.mem_cons_of_mem _ (ih hlater)
    | none =>
      rw [hlater] at h
      simp only at h
      split_ifs at h with hk
      simp only [Option.some.injEq] at h
      subst h
      subst hk
      exact List.mem_cons_self _ _

/-! ## The last TERMINATED report deletes the deployment -/

theorem update_memStore_delete {M : Type} (agt : AgentMessenger M)
    (tracepointID agentID : Option UUIDpb) (status : Option Nat) (w : World MemStore M)
    (hall : ∀ st ∈ w.store.statuses,
      UUIDFromProtoOrNil st.ID = UUIDFromProtoOrNil tracepointID →
      st.AgentID ≠ agentID → st.State = LifeCycleState.TERMINATED_STATE) :
    UpdateAgentTracepointStatus { ts := memStore, agtMgr := agt } tracepointID agentID
        LifeCycleState.TERMINATED_STATE status w =
      ({ store := { w.store with
           deployments := assocErase (UUIDFromProtoOrNil tracepointID) w.store.deployments },
         messenger := w.messenger,
         trace := w.trace ++
           [returnedNil (Call.GetTracepointStates (UUIDFromProtoOrNil tracepointID)),
            returnedNil (Call.DeleteTracepoint (UUIDFromProtoOrNil tracepointID))] },
        none) := by
  have hflag : allTerminated agentID (w.store.statuses.filter
      (fun st => decide (UUIDFromProtoOrNil st.ID = UUIDFromProtoOrNil tracepointID))) = true := by
    rw [allTerminated_iff]
    intro st hst hne
    rw [List.mem_filter, decide_eq_true_eq] at hst
    exact hall st hst.1 hst.2 hne
  simp [UpdateAgentTracepointStatus, Manager.GetTracepointStates, Manager.deleteTracepoint,
    memStore, hflag, World.afterStore, errorOf, returnedNil]

theorem update_memStore_write {M : Type} (agt : AgentMessenger M)
    (tracepointID agentID : Option UUIDpb) (status : Option Nat) (w : World MemStore M)
    (other : AgentTracepointStatus) (hmem : other ∈ w.store.statuses)
    (hid : UUIDFromProtoOrNil other.ID = UUIDFromProtoOrNil tracepointID)
    (hagent : other.AgentID ≠ agentID)
    (hlive : other.State ≠ LifeCycleState.TERMINATED_STATE) :
    UpdateAgentTracepointStatus { ts := memStore, agtMgr := agt } tracepointID agentID
        LifeCycleState.TERMINATED_STATE status w =
      ({ store := { w.store with
           statuses := (w.store.statuses.filter (fun old =>
             !(decide (old.ID = tracepointID) && decide (old.AgentID = agentID)))) ++
             [{ State := LifeCycleState.TERMINATED_STATE, Status := status,
                ID := tracepointID, AgentID := agentID }] },
         messenger := w.messenger,
         trace := w.trace ++ writeEvents tracepointID (agentID, status) },
        none) := by
  have hflag : allTerminated agentID (w.store.statuses.filter
      (fun st => decide (UUIDFromProtoOrNil st.ID = UUIDFromProtoOrNil tracepointID))) = false := by
    rw [← Bool.not_eq_true, allTerminated_iff]
    intro hall
    exact hlive (hall other (List.mem_filter.2 ⟨hmem, by simpa using hid⟩) hagent)
  simp [UpdateAgentTracepointStatus, Manager.GetTracepointStates,
    Manager.UpdateTracepointState, memStore, hflag, World.afterStore, errorOf, returnedNil,
    writeEvents]

theorem awaiting_after_write (tracepointID agentID : Option UUIDpb) (status : Option Nat)
    (pending : List (Option UUIDpb)) (s : MemStore)
    (hnodup : (agentID :: pending).Nodup)
    (hinv : AwaitingReports tracepointID (agentID :: pending) s) :
    AwaitingReports tracepointID pending
      { s with
        statuses := (s.statuses.filter (fun old =>
          !(decide (old.ID = tracepointID) && decide (old.AgentID = agentID)))) ++
          [{ State := LifeCycleState.TERMINATED_STATE, Status := status,
             ID := tracepointID, AgentID := agentID }] } := by
  obtain ⟨hclass, hcover⟩ := hinv
  rw [List.nodup_cons] at hnodup
  refine ⟨?_, ?_⟩
  · intro st hst hid
    simp only [List.mem_append, List.mem_filter, List.mem_singleton] at hst
    rcases hst with ⟨hold, hkeep⟩ | hnew
    · rcases hclass st hold hid with ⟨hp, hlive, hwire⟩ | ⟨hp, hterm⟩
      · left
        have hne : st.AgentID ≠ agentID := by
          intro h
          simp [hwire, h] at hkeep
        refine ⟨?_, hlive, hwire⟩
        rcases List.mem_cons.1 hp with h | h
        · exact absurd h hne
        · exact h
      · right
        exact ⟨fun h => hp (List.mem_cons_of_mem _ h), hterm⟩
    · right
      subst hnew
      exact ⟨hnodup.1, rfl⟩
  · intro a ha
    obtain ⟨st, hst, hid, hagent⟩ := hcover a (List.mem_cons_of_mem _ ha)
    refine ⟨st, ?_, hid, hagent⟩
    simp only [List.mem_append, List.mem_filter, List.mem_singleton]
    left
    refine ⟨hst, ?_⟩
    have hne : st.AgentID ≠ agentID := by
      rw [hagent]
      intro h
      exact hnodup.1 (h ▸ ha)
    simp [hne]

theorem reportTerminated_trace {M : Type} (agt : AgentMessenger M)
    (tracepointID : Option UUIDpb) (last : Option UUIDpb × Option Nat) :
    ∀ (earlier : List (Option UUIDpb × Option Nat)) (w : World MemStore M),
      ((earlier ++ [last]).map (fun r => r.1)).Nodup →
      AwaitingReports tracepointID ((earlier ++ [last]).map (fun r => r.1)) w.store →
      (reportTerminated { ts := memStore, agtMgr := agt } tracepointID (earlier ++ [last])
          w).trace =
        w.trace ++ (earlier.map (writeEvents tracepointID)).flatten ++
          [returnedNil (Call.GetTracepointStates (UUIDFromProtoOrNil tracepointID)),
           returnedNil (Call.DeleteTracepoint (UUIDFromProtoOrNil tracepointID))] := by
  intro earlier
  induction earlier with
  | nil =>
    intro w _ hinv
    have hall : ∀ st ∈ w.store.statuses,
        UUIDFromProtoOrNil st.ID = UUIDFromProtoOrNil tracepointID →
        st.AgentID ≠ last.1 → st.State = LifeCycleState.TERMINATED_STATE := by
      intro st hst hid hne
      rcases hinv.1 st hst hid with ⟨hp, _, _⟩ | ⟨_, hterm⟩
      · simp at hp
        exact absurd hp hne
      · exact hterm
    simp only [List.nil_append, reportTerminated]
    rw [update_memStore_delete agt tracepointID last.1 last.2 w hall]
    simp
  | cons report rest ih =>
    intro w hnodup hinv
    simp only [List.cons_append, List.map_cons] at hnodup hinv
    have hlastmem : last.1 ∈ (rest ++ [last]).map (fun r => r.1) := by simp
    obtain ⟨other, hmem, hid, hagent⟩ := hinv.2 last.1 (List.mem_cons_of_mem _ hlastmem)
    have hne : other.AgentID ≠ report.1 := by
      rw [hagent]
      intro h
      exact (List.nodup_cons.1 hnodup).1 (h ▸ hlastmem)
    have hlive : other.State ≠ LifeCycleState.TERMINATED_STATE := by
      rcases hinv.1 other hmem hid with ⟨_, hl, _⟩ | ⟨hp, _⟩
      · exact hl
      · exact absurd (by rw [hagent]; exact List.mem_cons_of_mem _ hlastmem) hp
    have hstep : reportTerminated { ts := memStore, agtMgr := agt } tracepointID
        (report :: rest ++ [last]) w =
        reportTerminated { ts := memStore, agtMgr := agt } tracepointID (rest ++ [last])
          (UpdateAgentTracepointStatus { ts := memStore, agtMgr := agt } tracepointID report.1
            LifeCycleState.TERMINATED_STATE report.2 w).1 := rfl
    rw [hstep,
      update_memStore_write agt tracepointID report.1 report.2 w other hmem hid hne hlive]
    have hrest := ih
      { store := { w.store with
          statuses := (w.store.statuses.filter (fun old =>
            !(decide (old.ID = tracepointID) && decide (old.AgentID = report.1)))) ++
            [{ State := LifeCycleState.TERMINATED_STATE, Status := report.2,
               ID := tracepointID, AgentID := report.1 }] },
        messenger := w.messenger,
        trace := w.trace ++ writeEvents tracepointID (report.1, report.2) }
      (List.nodup_cons.1 hnodup).2
      (awaiting_after_write tracepointID report.1 report.2 _ w.store hnodup hinv)
    rw [hrest]
    simp [List.append_assoc]

theorem writeEvents_no_delete (tracepointID : Option UUIDpb)
    (reports : List (Option UUIDpb × Option Nat)) :
    ((reports.map (writeEvents tracepointID)).flatten).countP isDeleteCall = 0 := by
  induction reports with
  | nil => simp
  | cons r rest ih =>
    simp only [List.map_cons, List.flatten_cons, List.countP_append, ih]
    simp [writeEvents, isDeleteCall, returnedNil, List.countP_cons]

/-- C14: over the reference store (a status is keyed by tracepoint id and agent id, the
last writer wins). The statuses stored for the tracepoint belong to the distinct
agents of the reports, each agent has one, and none is TERMINATED. Then, in whatever
order the agents report TERMINATED, one `UpdateAgentTracepointStatus` call each, every
call but the last lists the statuses and writes its own, and the last call lists the
statuses and calls `DeleteTracepoint`: the one `DeleteTracepoint` call of the whole
run. -/
theorem last_report_deletes_once {M : Type} (agt : AgentMessenger M)
    (tracepointID : Option UUIDpb) (earlier : List (Option UUIDpb × Option Nat))
    (last : Option UUIDpb × Option Nat) (w : World MemStore M)
    (hdistinct : ((earlier ++ [last]).map (fun r => r.1)).Nodup)
    (hstored : ∀ st ∈ w.store.statuses,
      UUIDFromProtoOrNil st.ID = UUIDFromProtoOrNil tracepointID →
      st.ID = tracepointID ∧ st.State ≠ LifeCycleState.TERMINATED_STATE ∧
        st.AgentID ∈ (earlier ++ [last]).map (fun r => r.1))
    (hcover : ∀ a ∈ (earlier ++ [last]).map (fun r => r.1), ∃ st ∈ w.store.statuses,
      UUIDFromProtoOrNil st.ID = UUIDFromProtoOrNil tracepointID ∧ st.AgentID = a) :
    ∃ events : List Event,
      (reportTerminated { ts := memStore, agtMgr := agt } tracepointID (earlier ++ [last])
          w).trace = w.trace ++ events ∧
      events = (earlier.map (writeEvents tracepointID)).flatten ++
        [returnedNil (Call.GetTracepointStates (UUIDFromProtoOrNil tracepointID)),
         returnedNil (Call.DeleteTracepoint (UUIDFromProtoOrNil tracepointID))] ∧
      events.countP isDeleteCall = 1 := by
  have hinv : AwaitingReports tracepointID ((earlier ++ [last]).map (fun r => r.1)) w.store := by
    refine ⟨?_, hcover⟩
    intro st hst hid
    obtain ⟨h1, h2, h3⟩ := hstored st hst hid
    exact Or.inl ⟨h3, h2, h1⟩
  refine ⟨_, ?_, rfl, ?_⟩
  · rw [reportTerminated_trace agt tracepointID last earlier w hdistinct hinv,
      List.append_assoc]
  · rw [List.countP_append, writeEvents_no_delete]
    simp [isDeleteCall, returnedNil, List.countP_cons]

/-- Witness for C14: agents A and B are stored as RUNNING for `idU`; B reports
TERMINATED first, then A. -/
theorem last_report_deletes_once_witness :
    (∃ events : List Event,
      (reportTerminated { ts := memStore, agtMgr := reliableMessenger } wireU
          ([(wireB, none)] ++ [(wireA, some 7)])
          (sampleWorld () LifeCycleState.RUNNING_STATE []
            [statusOf wireA LifeCycleState.RUNNING_STATE,
             statusOf wireB LifeCycleState.RUNNING_STATE])).trace =
        (sampleWorld () LifeCycleState.RUNNING_STATE []
            [statusOf wireA LifeCycleState.RUNNING_STATE,
             statusOf wireB LifeCycleState.RUNNING_STATE] : World MemStore Unit).trace
          ++ events ∧
      events = ([(wireB, none)].map (writeEvents wireU)).flatten ++
        [returnedNil (Call.GetTracepointStates (UUIDFromProtoOrNil wireU)),
         returnedNil (Call.DeleteTracepoint (UUIDFromProtoOrNil wireU))] ∧
      events.countP isDeleteCall = 1) ∧
    (reportTerminated reliableManager wireU [(wireB, none), (wireA, some 7)]
        (sampleWorld () LifeCycleState.RUNNING_STATE []
          [statusOf wireA LifeCycleState.RUNNING_STATE,
           statusOf wireB LifeCycleState.RUNNING_STATE])).trace =
      [returnedNil (Call.GetTracepointStates idU),
       returnedNil (Call.UpdateTracepointState (statusOf wireB LifeCycleState.TERMINATED_STATE)),
       returnedNil (Call.GetTracepointStates idU),
       returnedNil (Call.DeleteTracepoint idU)] :=
  ⟨last_report_deletes_once reliableMessenger wireU [(wireB, none)] (wireA, some 7)
      (sampleWorld () LifeCycleState.RUNNING_STATE []
        [statusOf wireA LifeCycleState.RUNNING_STATE,
         statusOf wireB LifeCycleState.RUNNING_STATE])
      (by decide) (by decide) (by decide),
    by decide⟩

/-! ## utils/uuid.go: wire form and back -/

/-- C24: for every 128-bit UUID `u`, `UUIDFromProto(ProtoFromUUID(u))` returns `u`
without an error if and only if the high 64 bits and the low 64 bits of `u` are both
non-zero; when either half is zero it returns `uuid.Nil` with the error "uuid data in
proto is nil", and `IsNilUUIDProto(ProtoFromUUID(u))` is true in exactly that case.
Some `u` that `IsNilUUID` reports as not nil has a wire form that `IsNilUUIDProto`
reports as nil. -/
theorem uuid_wire_roundtrip (u : UUID) (hu : u < 2 ^ 128) :
    (UUIDFromProto (some (ProtoFromUUID u)) = (u, none) ↔
      (u / 2 ^ 64 ≠ 0 ∧ u % 2 ^ 64 ≠ 0)) ∧
    ((u / 2 ^ 64 = 0 ∨ u % 2 ^ 64 = 0) →
      UUIDFromProto (some (ProtoFromUUID u)) =
        (UUID.Nil, some (GoError.text "uuid data in proto is nil"))) ∧
    (IsNilUUIDProto (some (ProtoFromUUID u)) = true ↔
      (u / 2 ^ 64 = 0 ∨ u % 2 ^ 64 = 0)) ∧
    (∃ v : UUID, v < 2 ^ 128 ∧ IsNilUUID v = false ∧
      IsNilUUIDProto (some (ProtoFromUUID v)) = true) := by
  have hhigh : u / 2 ^ 64 % 2 ^ 64 = u / 2 ^ 64 := by
    apply Nat.mod_eq_of_lt
    rw [Nat.div_lt_iff_lt_mul (by norm_num)]
    calc u < 2 ^ 128 := hu
      _ = 2 ^ 64 * 2 ^ 64 := by norm_num
  have hval : u / 2 ^ 64 % 2 ^ 64 % 2 ^ 64 * 2 ^ 64 + u % 2 ^ 64 % 2 ^ 64 = u := by
    rw [hhigh, hhigh, Nat.mod_mod, Nat.div_add_mod']
  have hdef : UUIDFromProto (some (ProtoFromUUID u)) =
      if u / 2 ^ 64 ≠ 0 ∧ u % 2 ^ 64 ≠ 0 then (u, none)
      else (UUID.Nil, some (GoError.text "uuid data in proto is nil")) := by
    show (if u / 2 ^ 64 % 2 ^ 64 ≠ 0 ∧ u % 2 ^ 64 ≠ 0 then
        (u / 2 ^ 64 % 2 ^ 64 % 2 ^ 64 * 2 ^ 64 + u % 2 ^ 64 % 2 ^ 64, none)
      else (UUID.Nil, some (GoError.text "uuid data in proto is nil"))) = _
    rw [hval]
    simp only [hhigh]
  have hnil : IsNilUUIDProto (some (ProtoFromUUID u)) =
      if u / 2 ^ 64 ≠ 0 ∧ u % 2 ^ 64 ≠ 0 then false else true := by
    show (if u / 2 ^ 64 % 2 ^ 64 ≠ 0 ∧ u % 2 ^ 64 ≠ 0 then false else true) = _
    simp only [hhigh]
  refine ⟨?_, ?_, ?_, ⟨1, by norm_num, by decide, by decide⟩⟩
  · rw [hdef]
    constructor
    · intro h
      by_contra hzero
      rw [if_neg hzero] at h
      cases h
    · intro hboth
      rw [if_pos hboth]
  · intro hzero
    rw [hdef, if_neg]
    intro hboth
    rcases hzero with h | h
    · exact hboth.1 h
    · exact hboth.2 h
  · rw [hnil]
    by_cases h1 : u / 2 ^ 64 = 0 <;> by_cases h2 : u % 2 ^ 64 = 0 <;> simp [h1, h2]

/-- Witness for C24: the id `idU`, whose halves are both 1, comes back from its wire
form without an error. -/
theorem uuid_wire_roundtrip_witness :
    UUIDFromProto (some (ProtoFromUUID idU)) = (idU, none) :=
  (uuid_wire_roundtrip idU (by decide)).1.2 (by decide)

/-! ## The filtered agents keep the order of the input -/

/-- C23: for every agent list and every list of selectors, the agents left after the
selectors have been applied one after the other are a subsequence of the input list,
in its order. So two programs whose selectors retain the same agents of one input
list hand the same sequence of agent ids to the fingerprint, and with it get the same
map key in `RegisterTracepoint`, without a sorting step; the input list need not be
free of duplicates for this. -/
theorem filtered_agents_keep_input_order (agents : List Agent) :
    (∀ selectors : List TracepointSelector,
      List.Sublist (applySelectors agents selectors) agents) ∧
    (∀ p1 p2 : TracepointProgram,
      (∀ agent ∈ agents, agent ∈ applySelectors agents p1.Selectors ↔
        agent ∈ applySelectors agents p2.Selectors) →
      agentIDsOf (applySelectors agents p1.Selectors) =
        agentIDsOf (applySelectors agents p2.Selectors) ∧
      ∀ (K : Type) (HashUUIDs : List UUID → K),
        groupKey HashUUIDs agents p1 = groupKey HashUUIDs agents p2) := by
  refine ⟨?_, ?_⟩
  · intro selectors
    rw [applySelectors_eq_filter]
    exact List.filter_sublist _
  · intro p1 p2 hsame
    have hlists : applySelectors agents p1.Selectors = applySelectors agents p2.Selectors := by
      rw [applySelectors_eq_filter, applySelectors_eq_filter]
      refine List.filter_congr ?_
      intro agent hmem
      have h := hsame agent hmem
      rw [applySelectors_eq_filter, applySelectors_eq_filter, List.mem_filter,
        List.mem_filter] at h
      have h' : (p1.Selectors.all (fun selector => selectorKeeps selector agent) = true ↔
          p2.Selectors.all (fun selector => selectorKeeps selector agent) = true) :=
        ⟨fun h1 => (h.1 ⟨hmem, h1⟩).2, fun h2 => (h.2 ⟨hmem, h2⟩).2⟩
      exact Bool.eq_iff_iff.2 h'
    refine ⟨by rw [hlists], ?_⟩
    intro K HashUUIDs
    simp only [groupKey, validAgents, hlists]

/-- Witness for C23: over the agents A, B, C, the program that asks for kernel 5.4 or
later and a program that asks for kernel 6.1 or earlier both retain all three agents,
and hand the ids of A, B, C in this order to the fingerprint. -/
theorem filtered_agents_keep_input_order_witness :
    agentIDsOf (applySelectors [agentA, agentB, agentC] programMin54.Selectors) =
      agentIDsOf (applySelectors [agentA, agentB, agentC]
        (mkProgram "max61" [mkSelector SelectorType.MAX_KERNEL "6.1.0"]).Selectors) :=
  ((filtered_agents_keep_input_order [agentA, agentB, agentC]).2 programMin54
    (mkProgram "max61" [mkSelector SelectorType.MAX_KERNEL "6.1.0"]) (by decide)).1

/-! ## Errors during a reaper pass -/

/-- The calls of one `terminateTracepoint`: the first is the lookup of the id, and an
error returned is the error of the last call made. -/
theorem terminate_trace {S M : Type} (m : Manager S M) (id : UUID) (w : World S M) :
    ∃ (first : Event) (rest : List Event),
      (terminateTracepoint m id w).1.trace = w.trace ++ first :: rest ∧
      first.call = Call.GetTracepoint id ∧
      ∀ err, (terminateTracepoint m id w).2 = some err →
        ∃ last, (first :: rest).getLast? = some last ∧ last.err = some err := by
  cases h : (m.ts.GetTracepoint w.store id).2 with
  | error e =>
    refine ⟨{ call := Call.GetTracepoint id, err := some e }, [], ?_, rfl, ?_⟩
    · simp [terminateTracepoint, Manager.GetTracepoint, h, World.afterStore, errorOf]
    · intro err herr
      simp [terminateTracepoint, Manager.GetTracepoint, h, World.afterStore, errorOf] at herr
      exact ⟨_, rfl, by simp [herr]⟩
  | ok found =>
    cases found with
    | none =>
      refine ⟨returnedNil (Call.GetTracepoint id), [], ?_, rfl, ?_⟩
      · simp [terminateTracepoint, Manager.GetTracepoint, h, World.afterStore, errorOf,
          returnedNil]
      · intro err herr
        simp [terminateTracepoint, Manager.GetTracepoint, h, World.afterStore, errorOf] at herr
    | some tp =>
      cases hu : (m.ts.UpsertTracepoint (m.ts.GetTracepoint w.store id).1 id
          { tp with ExpectedState := LifeCycleState.TERMINATED_STATE }).2 with
      | some e =>
        refine ⟨returnedNil (Call.GetTracepoint id),
          [{ call := Call.UpsertTracepoint id
               { tp with ExpectedState := LifeCycleState.TERMINATED_STATE },
             err := some e }], ?_, rfl, ?_⟩
        · simp [terminateTracepoint, Manager.GetTracepoint, Manager.UpsertTracepoint, h, hu,
            World.afterStore, errorOf, returnedNil]
        · intro err herr
          simp [terminateTracepoint, Manager.GetTracepoint, Manager.UpsertTracepoint, h, hu,
            World.afterStore, errorOf] at herr
          exact ⟨_, rfl, by simp [herr]⟩
      | none =>
        refine ⟨returnedNil (Call.GetTracepoint id),
          [returnedNil (Call.UpsertTracepoint id
             { tp with ExpectedState := LifeCycleState.TERMINATED_STATE }),
           removeBroadcast id (m.agtMgr.MessageActiveAgents w.messenger
             (VizierMessage.RemoveTracepointRequest (ProtoFromUUID id))).2], ?_, rfl, ?_⟩
        · simp [terminateTracepoint, Manager.GetTracepoint, Manager.UpsertTracepoint,
            Manager.MessageActiveAgents, h, hu, World.afterStore, World.afterMessenger,
            errorOf, returnedNil, removeBroadcast]
        · intro err herr
          simp [terminateTracepoint, Manager.GetTracepoint, Manager.UpsertTracepoint,
            Manager.MessageActiveAgents, h, hu, World.afterStore, World.afterMessenger,
            errorOf] at herr
          exact ⟨_, rfl, by simp [removeBroadcast, herr]⟩

/-- A run of terminations only adds calls to the trace, among them the lookup of
every id of the run. -/
theorem runTerminations_trace {S M : Type} (m : Manager S M) (ids : List UUID) :
    ∀ w : World S M, ∃ events, (runTerminations m ids w).trace = w.trace ++ events ∧
      ∀ id ∈ ids, ∃ e ∈ events, e.call = Call.GetTracepoint id := by
  induction ids with
  | nil =>
    intro w
    exact ⟨[], by simp [runTerminations], by simp⟩
  | cons j rest ih =>
    intro w
    obtain ⟨first, more, htrace, hcall, _⟩ := terminate_trace m j w
    obtain ⟨events, hrest, hall⟩ := ih (terminateTracepoint m j w).1
    refine ⟨(first :: more) ++ events, ?_, ?_⟩
    · rw [runTerminations, hrest, htrace, List.append_assoc]
    · intro id hid
      rcases List.mem_cons.1 hid with h | h
      · subst h
        exact ⟨first, by simp, hcall⟩
      · obtain ⟨e, he, hc⟩ := hall id h
        exact ⟨e, List.mem_append_right _ he, hc⟩

theorem runTerminations_append {S M : Type} (m : Manager S M) (ids later : List UUID) :
    ∀ w : World S M,
      runTerminations m (ids ++ later) w = runTerminations m later (runTerminations m ids w) := by
  induction ids with
  | nil => intro w; rfl
  | cons j rest ih =>
    intro w
    have hstep : runTerminations m (j :: rest ++ later) w =
        runTerminations m (rest ++ later) (terminateTracepoint m j w).1 := rfl
    rw [hstep, ih]
    rfl

/-- C21: a reaper pass at time `now`, over any store and messenger, in which
`terminateTracepoint` returns the error `err` for a listed deployment that is due. The
pass goes on: it is completed by one `terminateTracepoint` invocation for every due
deployment listed after the failed one, in listing order, each of which shows on the
trace with its `GetTracepoint` call after the call that failed. -/
theorem reaperPass_continues_after_error {S M : Type} (m : Manager S M) (now : Int)
    (before after : List TracepointInfo) (tp : TracepointInfo)
    (ttlKeys : List UUID) (ttlVals : List Int) (w : World S M) (err : GoError)
    (hlist : (m.ts.GetTracepoints w.store).2 = Except.ok (before ++ tp :: after))
    (httl : (m.ts.GetTracepointTTLs (m.ts.GetTracepoints w.store).1).2 =
      Except.ok (ttlKeys, ttlVals))
    (hlen : ttlKeys.length = ttlVals.length)
    (hdue : dueForTermination now ttlKeys ttlVals tp = true)
    (hfail : (terminateTracepoint m (UUIDFromProtoOrNil tp.ID)
        (runTerminations m (dueIDs now ttlKeys ttlVals before) (afterListings m w))).2 =
      some err) :
    ∃ (failed : Event) (events : List Event),
      terminateExpiredTracepoints m now w =
        some (runTerminations m (dueIDs now ttlKeys ttlVals after)
          (terminateTracepoint m (UUIDFromProtoOrNil tp.ID)
            (runTerminations m (dueIDs now ttlKeys ttlVals before) (afterListings m w))).1) ∧
      (terminateTracepoint m (UUIDFromProtoOrNil tp.ID)
        (runTerminations m (dueIDs now ttlKeys ttlVals before)
          (afterListings m w))).1.trace.getLast? = some failed ∧
      failed.err = some err ∧
      (runTerminations m (dueIDs now ttlKeys ttlVals after)
          (terminateTracepoint m (UUIDFromProtoOrNil tp.ID)
            (runTerminations m (dueIDs now ttlKeys ttlVals before)
              (afterListings m w))).1).trace =
        (terminateTracepoint m (UUIDFromProtoOrNil tp.ID)
          (runTerminations m (dueIDs now ttlKeys ttlVals before)
            (afterListings m w))).1.trace ++ events ∧
      ∀ later ∈ after, dueForTermination now ttlKeys ttlVals later = true →
        ∃ e ∈ events, e.call = Call.GetTracepoint (UUIDFromProtoOrNil later.ID) := by
  have hids : dueIDs now ttlKeys ttlVals (before ++ tp :: after) =
      dueIDs now ttlKeys ttlVals before ++
        (UUIDFromProtoOrNil tp.ID :: dueIDs now ttlKeys ttlVals after) := by
    simp [dueIDs, List.filter_append, List.filter_cons, hdue]
  obtain ⟨first, more, htrace, _, hlast⟩ := terminate_trace m (UUIDFromProtoOrNil tp.ID)
    (runTerminations m (dueIDs now ttlKeys ttlVals before) (afterListings m w))
  obtain ⟨failed, hfailed, herr⟩ := hlast err hfail
  obtain ⟨events, hevents, hall⟩ := runTerminations_trace m (dueIDs now ttlKeys ttlVals after)
    (terminateTracepoint m (UUIDFromProtoOrNil tp.ID)
      (runTerminations m (dueIDs now ttlKeys ttlVals before) (afterListings m w))).1
  refine ⟨failed, events, ?_, ?_, herr, hevents, ?_⟩
  · rw [terminateExpired_eq m now _ ttlKeys ttlVals w hlist httl hlen, hids,
      runTerminations_append]
    rfl
  · rw [htrace, List.getLast?_append_of_ne_nil _ (by simp)]
    exact hfailed
  · intro later hmem hlater
    apply hall
    unfold dueIDs
    exact List.mem_map.2 ⟨later, List.mem_filter.2 ⟨hmem, hlater⟩, rfl⟩

/-- Witness for C21: the store holds running records for `idU` and `idV` without TTL
entries, and its `GetTracepoint` fails for `idU`. The pass goes on to terminate `idV`. -/
theorem reaperPass_continues_after_error_witness :
    ∃ (failed : Event) (events : List Event),
      terminateExpiredTracepoints
          { ts := faultyStore (failsFor idU (GoError.external 4)) neverFails,
            agtMgr := reliableMessenger } 100 (twoRecordsWorld ()) =
        some (runTerminations
          { ts := faultyStore (failsFor idU (GoError.external 4)) neverFails,
            agtMgr := reliableMessenger } [idV]
          (terminateTracepoint
            { ts := faultyStore (failsFor idU (GoError.external 4)) neverFails,
              agtMgr := reliableMessenger } idU
            (afterListings
              { ts := faultyStore (failsFor idU (GoError.external 4)) neverFails,
                agtMgr := reliableMessenger } (twoRecordsWorld ()))).1) ∧
      failed.err = some (GoError.external 4) ∧
      ∃ e ∈ events, e.call = Call.GetTracepoint idV := by
  obtain ⟨failed, events, hpass, _, herr, _, hall⟩ :=
    reaperPass_continues_after_error
      { ts := faultyStore (failsFor idU (GoError.external 4)) neverFails,
        agtMgr := reliableMessenger } 100 []
      [sampleInfo idV LifeCycleState.RUNNING_STATE]
      (sampleInfo idU LifeCycleState.RUNNING_STATE) [] [] (twoRecordsWorld ())
      (GoError.external 4) rfl rfl rfl (by decide) rfl
  exact ⟨failed, events, hpass, herr,
    hall (sampleInfo idV LifeCycleState.RUNNING_STATE) (by simp) (by decide)⟩

/-! ## Terminations over a store whose calls may fail -/

theorem terminate_faultyStore_getFails {M : Type} (agt : AgentMessenger M)
    (getFails upsertFails : UUID → Option GoError) (j : UUID) (err : GoError)
    (w : World MemStore M) (hget : getFails j = some err) :
    terminateTracepoint { ts := faultyStore getFails upsertFails, agtMgr := agt } j w =
      ({ store := w.store, messenger := w.messenger,
         trace := w.trace ++ [{ call := Call.GetTracepoint j, err := some err }] },
        some err) := by
  simp [terminateTracepoint, Manager.GetTracepoint, faultyStore, hget, World.afterStore,
    errorOf]

theorem terminate_faultyStore_absent {M : Type} (agt : AgentMessenger M)
    (getFails upsertFails : UUID → Option GoError) (j : UUID)
    (w : World MemStore M) (hget : getFails j = none)
    (habsent : assocGet j w.store.deployments = none) :
    terminateTracepoint { ts := faultyStore getFails upsertFails, agtMgr := agt } j w =
      ({ store := w.store, messenger := w.messenger,
         trace := w.trace ++ [returnedNil (Call.GetTracepoint j)] }, none) := by
  simp [terminateTracepoint, Manager.GetTracepoint, faultyStore, memStore, hget, habsent,
    World.afterStore, errorOf, returnedNil]

theorem terminate_faultyStore_upsertFails {M : Type} (agt : AgentMessenger M)
    (getFails upsertFails : UUID → Option GoError) (j : UUID) (err : GoError)
    (tp : TracepointInfo) (w : World MemStore M) (hget : getFails j = none)
    (hrec : assocGet j w.store.deployments = some tp) (hupsert : upsertFails j = some err) :
    terminateTracepoint { ts := faultyStore getFails upsertFails, agtMgr := agt } j w =
      ({ store := w.store, messenger := w.messenger,
         trace := w.trace ++
           [returnedNil (Call.GetTracepoint j),
            { call := Call.UpsertTracepoint j (markTerminated tp), err := some err }] },
        some err) := by
  simp [terminateTracepoint, Manager.GetTracepoint, Manager.UpsertTracepoint, faultyStore,
    memStore, hget, hrec, hupsert, World.afterStore, errorOf, returnedNil, markTerminated]

theorem terminate_faultyStore_present {M : Type} (agt : AgentMessenger M)
    (getFails upsertFails : UUID → Option GoError) (j : UUID)
    (tp : TracepointInfo) (w : World MemStore M) (hget : getFails j = none)
    (hrec : assocGet j w.store.deployments = some tp) (hupsert : upsertFails j = none) :
    terminateTracepoint { ts := faultyStore getFails upsertFails, agtMgr := agt } j w =
      ({ store := { w.store with
           deployments := assocSet j (markTerminated tp) w.store.deployments },
         messenger := (agt.MessageActiveAgents w.messenger
           (VizierMessage.RemoveTracepointRequest (ProtoFromUUID j))).1,
         trace := w.trace ++
           [returnedNil (Call.GetTracepoint j),
            returnedNil (Call.UpsertTracepoint j (markTerminated tp)),
            removeBroadcast j (agt.MessageActiveAgents w.messenger
              (VizierMessage.RemoveTracepointRequest (ProtoFromUUID j))).2] },
        (agt.MessageActiveAgents w.messenger
          (VizierMessage.RemoveTracepointRequest (ProtoFromUUID j))).2) := by
  simp [terminateTracepoint, Manager.GetTracepoint, Manager.UpsertTracepoint,
    Manager.MessageActiveAgents, faultyStore, memStore, hget, hrec, hupsert, World.afterStore,
    World.afterMessenger, errorOf, returnedNil, removeBroadcast, markTerminated]

/-- What one `terminateTracepoint` does over a store whose lookups and upserts may
fail: the TTL index is untouched; the record of the id is marked TERMINATED when both
calls go through and is left alone when one of them fails; a failure shows on the
trace as a call with an error. -/
theorem terminate_faultyStore_frame {M : Type} (agt : AgentMessenger M)
    (getFails upsertFails : UUID → Option GoError) (j : UUID) (w : World MemStore M) :
    (terminateTracepoint { ts := faultyStore getFails upsertFails, agtMgr := agt } j
        w).1.store.ttls = w.store.ttls ∧
    (∀ id, assocGet id
        (terminateTracepoint { ts := faultyStore getFails upsertFails, agtMgr := agt } j
          w).1.store.deployments =
      if id = j ∧ getFails j = none ∧ upsertFails j = none then
        (assocGet id w.store.deployments).map markTerminated
      else assocGet id w.store.deployments) ∧
    (∀ tp, assocGet j w.store.deployments = some tp →
      (getFails j ≠ none ∨ upsertFails j ≠ none) →
      ∃ e ∈ (terminateTracepoint { ts := faultyStore getFails upsertFails, agtMgr := agt } j
          w).1.trace.drop w.trace.length,
        e.err ≠ none ∧
          (e.call = Call.GetTracepoint j ∨
            e.call = Call.UpsertTracepoint j (markTerminated tp))) := by
  cases hget : getFails j with
  | some err =>
    rw [terminate_faultyStore_getFails agt getFails upsertFails j err w hget]
    refine ⟨rfl, ?_, ?_⟩
    · intro id
      simp
    · intro tp _ _
      exact ⟨{ call := Call.GetTracepoint j, err := some err }, by simp, by simp, Or.inl rfl⟩
  | none =>
    cases hrec : assocGet j w.store.deployments with
    | none =>
      rw [terminate_faultyStore_absent agt getFails upsertFails j w hget hrec]
      refine ⟨rfl, ?_, ?_⟩
      · intro id
        by_cases hj : id = j
        · subst hj
          simp [hrec]
        · simp [hj]
      · intro tp htp
        cases htp
    | some tp =>
      cases hupsert : upsertFails j with
      | some err =>
        rw [terminate_faultyStore_upsertFails agt getFails upsertFails j err tp w hget hrec
          hupsert]
        refine ⟨rfl, ?_, ?_⟩
        · intro id
          simp
        · intro tp1 htp _
          cases htp
          exact ⟨{ call := Call.UpsertTracepoint j (markTerminated tp), err := some err },
            by simp, by simp, Or.inr rfl⟩
      | none =>
        rw [terminate_faultyStore_present agt getFails upsertFails j tp w hget hrec hupsert]
        refine ⟨rfl, ?_, ?_⟩
        · intro id
          by_cases hj : id = j
          · subst hj
            simp [hrec, assocGet_assocSet_self]
          · simp only [hj, false_and, if_false]
            exact assocGet_assocSet_ne _ _ _ _ hj
        · intro tp1 _ hfault
          rcases hfault with h | h
          · exact absurd rfl h
          · exact absurd rfl h

/-- What a run of terminations does over a store whose lookups and upserts may fail:
the TTL index is untouched; the record of an id of the run is marked TERMINATED when
lookup and upsert go through for it, and every other record is left alone; every id
of the run gets its lookup, and a failure for an id that has a record shows on the
trace as a call with an error. -/
theorem runTerminations_faultyStore {M : Type} (agt : AgentMessenger M)
    (getFails upsertFails : UUID → Option GoError) (ids : List UUID) :
    ∀ w : World MemStore M,
      (runTerminations { ts := faultyStore getFails upsertFails, agtMgr := agt } ids
          w).store.ttls = w.store.ttls ∧
      (∀ id, assocGet id
          (runTerminations { ts := faultyStore getFails upsertFails, agtMgr := agt } ids
            w).store.deployments =
        if id ∈ ids ∧ getFails id = none ∧ upsertFails id = none then
          (assocGet id w.store.deployments).map markTerminated
        else assocGet id w.store.deployments) ∧
      (∃ events,
        (runTerminations { ts := faultyStore getFails upsertFails, agtMgr := agt } ids
            w).trace = w.trace ++ events ∧
        (∀ id ∈ ids, ∃ e ∈ events, e.call = Call.GetTracepoint id) ∧
        (∀ id ∈ ids, ∀ tp, assocGet id w.store.deployments = some tp →
          (getFails id ≠ none ∨ upsertFails id ≠ none) →
          ∃ e ∈ events, e.err ≠ none ∧
            (e.call = Call.GetTracepoint id ∨
              e.call = Call.UpsertTracepoint id (markTerminated tp)))) := by
  induction ids with
  | nil =>
    intro w
    exact ⟨rfl, by simp [runTerminations], ⟨[], by simp [runTerminations], by simp, by simp⟩⟩
  | cons j rest ih =>
    intro w
    rw [runTerminations]
    obtain ⟨first, more, htrace, hcall, _⟩ :=
      terminate_trace { ts := faultyStore getFails upsertFails, agtMgr := agt } j w
    obtain ⟨t1, t2, t3⟩ := terminate_faultyStore_frame agt getFails upsertFails j w
    obtain ⟨h1, h2, ⟨ev2, h3, h4, h5⟩⟩ :=
      ih (terminateTracepoint { ts := faultyStore getFails upsertFails, agtMgr := agt } j w).1
    have hdrop : (terminateTracepoint { ts := faultyStore getFails upsertFails, agtMgr := agt }
        j w).1.trace.drop w.trace.length = first :: more := by
      rw [htrace]
      simp
    refine ⟨h1.trans t1, ?_, ⟨(first :: more) ++ ev2, ?_, ?_, ?_⟩⟩
    · intro id
      rw [h2 id, t2 id]
      by_cases hj : id = j
      · subst hj
        by_cases hg : getFails id = none <;> by_cases hu : upsertFails id = none <;>
          by_cases hr : id ∈ rest <;> cases assocGet id w.store.deployments <;>
          simp [hg, hu, hr, markTerminated_idem]
      · simp [hj]
    · rw [h3, htrace, List.append_assoc]
    · intro id hid
      rcases List.mem_cons.1 hid with h | h
      · subst h
        exact ⟨first, by simp, hcall⟩
      · obtain ⟨e, he, hc⟩ := h4 id h
        exact ⟨e, List.mem_append_right _ he, hc⟩
    · intro id hid tp hrec hfault
      by_cases hj : id = j
      · subst hj
        obtain ⟨e, he, herr, hc⟩ := t3 tp hrec hfault
        rw [hdrop] at he
        exact ⟨e, List.mem_append_left _ he, herr, hc⟩
      · have hrest : id ∈ rest := by
          rcases List.mem_cons.1 hid with h | h
          · exact absurd h hj
          · exact h
        have hrec' : assocGet id (terminateTracepoint
            { ts := faultyStore getFails upsertFails, agtMgr := agt } j
            w).1.store.deployments = some tp := by
          rw [t2 id]
          simpa [hj] using hrec
        obtain ⟨e, he, herr, hc⟩ := h5 id hrest tp hrec' hfault
        exact ⟨e, List.mem_append_right _ he, herr, hc⟩

/-- A reaper pass over a store whose lookups and upserts may fail is the two listings
followed by the terminations of the due ids. -/
theorem reaperPass_faultyStore {M : Type} (agt : AgentMessenger M)
    (getFails upsertFails : UUID → Option GoError) (now : Int) (w : World MemStore M) :
    terminateExpiredTracepoints { ts := faultyStore getFails upsertFails, agtMgr := agt } now
        w =
      some (runTerminations { ts := faultyStore getFails upsertFails, agtMgr := agt }
        (dueIDs now (w.store.ttls.map (fun e => e.1)) (w.store.ttls.map (fun e => e.2))
          (w.store.deployments.map (fun e => e.2)))
        { store := w.store, messenger := w.messenger,
          trace := w.trace ++
            [returnedNil Call.GetTracepoints, returnedNil Call.GetTracepointTTLs] }) :=
  terminateExpired_eq { ts := faultyStore getFails upsertFails, agtMgr := agt } now _ _ _ w
    rfl rfl (by simp)

/-- What a reaper pass does over a store whose lookups and upserts may fail. -/
theorem reaperPass_faultyStore_frame {M : Type} (agt : AgentMessenger M)
    (getFails upsertFails : UUID → Option GoError) (now : Int) (w : World MemStore M) :
    ∃ (w1 : World MemStore M) (events : List Event),
      terminateExpiredTracepoints { ts := faultyStore getFails upsertFails, agtMgr := agt }
        now w = some w1 ∧
      w1.trace = w.trace ++ events ∧
      w1.store.ttls = w.store.ttls ∧
      (∀ id, assocGet id w1.store.deployments =
        if id ∈ dueIDs now (w.store.ttls.map (fun e => e.1)) (w.store.ttls.map (fun e => e.2))
            (w.store.deployments.map (fun e => e.2)) ∧
            getFails id = none ∧ upsertFails id = none then
          (assocGet id w.store.deployments).map markTerminated
        else assocGet id w.store.deployments) ∧
      (∀ id ∈ dueIDs now (w.store.ttls.map (fun e => e.1)) (w.store.ttls.map (fun e => e.2))
          (w.store.deployments.map (fun e => e.2)),
        (∃ e ∈ events, e.call = Call.GetTracepoint id) ∧
        ∀ tp, assocGet id w.store.deployments = some tp →
          (getFails id ≠ none ∨ upsertFails id ≠ none) →
          ∃ e ∈ events, e.err ≠ none ∧
            (e.call = Call.GetTracepoint id ∨
              e.call = Call.UpsertTracepoint id (markTerminated tp))) := by
  obtain ⟨h1, h2, ⟨events, h3, h4, h5⟩⟩ := runTerminations_faultyStore agt getFails upsertFails
    (dueIDs now (w.store.ttls.map (fun e => e.1)) (w.store.ttls.map (fun e => e.2))
      (w.store.deployments.map (fun e => e.2)))
    { store := w.store, messenger := w.messenger,
      trace := w.trace ++
        [returnedNil Call.GetTracepoints, returnedNil Call.GetTracepointTTLs] }
  refine ⟨_, [returnedNil Call.GetTracepoints, returnedNil Call.GetTracepointTTLs] ++ events,
    reaperPass_faultyStore agt getFails upsertFails now w, ?_, h1, h2, ?_⟩
  · rw [h3, List.append_assoc]
  · intro id hid
    refine ⟨?_, ?_⟩
    · obtain ⟨e, he, hc⟩ := h4 id hid
      exact ⟨e, List.mem_append_right _ he, hc⟩
    · intro tp hrec hfault
      obtain ⟨e, he, herr, hc⟩ := h5 id hid tp hrec hfault
      exact ⟨e, List.mem_append_right _ he, herr, hc⟩

/-- With fault tables that name no id, the store with faults is the reference store. -/
theorem faultyStore_neverFails : faultyStore neverFails neverFails = memStore := rfl

/-- What holds right after a `CreateTracepoint` over the reference store that returns
an id, for a positive `ttl`. -/
theorem held_after_create {M : Type} (agt : AgentMessenger M) (w : World MemStore M)
    (newV4 : Except GoError UUID) (name : String) (d : TracepointDeployment) (ttl : Int)
    (id : UUID) (hpos : ttl > 0)
    (hid : (CreateTracepoint { ts := memStore, agtMgr := agt } newV4 name d ttl w).2.1 =
      some id) :
    ((CreateTracepoint { ts := memStore, agtMgr := agt } newV4 name d ttl w).2.2 = none ∨
      (CreateTracepoint { ts := memStore, agtMgr := agt } newV4 name d ttl w).2.2 =
        some ErrTracepointAlreadyExists) ∧
    (∃ tp, assocGet id (CreateTracepoint { ts := memStore, agtMgr := agt } newV4 name d ttl
          w).1.store.deployments = some tp ∧
      tp.ExpectedState ≠ LifeCycleState.TERMINATED_STATE) ∧
    (∃ expiry, assocGet id (CreateTracepoint { ts := memStore, agtMgr := agt } newV4 name d
          ttl w).1.store.ttls = some expiry ∧
      expiry > (CreateTracepoint { ts := memStore, agtMgr := agt } newV4 name d ttl
          w).1.store.now) := by
  rcases createTracepoint_paths agt newV4 name d ttl w with
    ⟨prevID, prev, hprev, hlive, heq⟩ | ⟨w0, _, hnow, _, _, _, heq⟩
  · rw [heq] at hid ⊢
    simp only [Option.some.injEq] at hid
    subst hid
    refine ⟨Or.inr rfl, ⟨prev, hprev, hlive⟩, ⟨w.store.now + ttl, ?_, ?_⟩⟩
    · exact assocGet_assocSet_self _ _ _
    · show w.store.now + ttl > w.store.now
      omega
  · rw [heq] at hid ⊢
    cases newV4 with
    | error err =>
      rw [createFresh_memStore_error] at hid
      simp at hid
    | ok tpID =>
      rw [createFresh_memStore] at hid ⊢
      simp only [Option.some.injEq] at hid
      subst hid
      refine ⟨Or.inl rfl, ⟨runningInfo tpID name d, assocGet_assocSet_self _ _ _, ?_⟩,
        ⟨w0.store.now + ttl, assocGet_assocSet_self _ _ _, ?_⟩⟩
      · simp [runningInfo]
      · show w0.store.now + ttl > w0.store.now
        omega

/-- What holds right after a reaper pass over a store whose lookups and upserts may
fail: a record that reads back its id is TERMINATED, or has a TTL entry that expires
after the time of the pass, or is one whose lookup or upsert failed in this pass. -/
theorem held_after_reaperPass {M : Type} (agt : AgentMessenger M)
    (getFails upsertFails : UUID → Option GoError) (now : Int) (w : World MemStore M) :
    ∃ (w2 : World MemStore M) (events : List Event),
      terminateExpiredTracepoints { ts := faultyStore getFails upsertFails, agtMgr := agt }
        now w = some w2 ∧
      w2.trace = w.trace ++ events ∧
      ∀ id tp, assocGet id w2.store.deployments = some tp → UUIDFromProtoOrNil tp.ID = id →
        tp.ExpectedState = LifeCycleState.TERMINATED_STATE ∨
        (∃ expiry, (id, expiry) ∈ w2.store.ttls ∧ expiry > now) ∨
        ((getFails id ≠ none ∨ upsertFails id ≠ none) ∧
          ∃ e ∈ events, e.err ≠ none ∧
            (e.call = Call.GetTracepoint id ∨
              e.call = Call.UpsertTracepoint id (markTerminated tp))) := by
  obtain ⟨w2, events, hpass, htrace, httl, hrecs, hcalls⟩ :=
    reaperPass_faultyStore_frame agt getFails upsertFails now w
  refine ⟨w2, events, hpass, htrace, ?_⟩
  intro id tp hrec hwf
  rw [hrecs id] at hrec
  rw [httl]
  by_cases hdue : id ∈ dueIDs now (w.store.ttls.map (fun e => e.1))
      (w.store.ttls.map (fun e => e.2)) (w.store.deployments.map (fun e => e.2))
  · by_cases hclean : getFails id = none ∧ upsertFails id = none
    · left
      rw [if_pos ⟨hdue, hclean.1, hclean.2⟩] at hrec
      cases h0 : assocGet id w.store.deployments with
      | none => rw [h0] at hrec; simp at hrec
      | some tp0 =>
        rw [h0] at hrec
        simp only [Option.map_some', Option.some.injEq] at hrec
        rw [← hrec]
        rfl
    · have hfault : getFails id ≠ none ∨ upsertFails id ≠ none := by
        by_contra hnone
        apply hclean
        constructor
        · by_contra hg
          exact hnone (Or.inl hg)
        · by_contra hu
          exact hnone (Or.inr hu)
      rw [if_neg (fun hall => hclean hall.2)] at hrec
      exact Or.inr (Or.inr ⟨hfault, (hcalls id hdue).2 tp hrec hfault⟩)
  · rw [if_neg (fun hall => hdue hall.1)] at hrec
    have hlisted : tp ∈ w.store.deployments.map (fun e => e.2) :=
      List.mem_map.2 ⟨(id, tp), assocGet_mem _ _ _ hrec, rfl⟩
    have hnotdue : ¬ dueForTermination now (w.store.ttls.map (fun e => e.1))
        (w.store.ttls.map (fun e => e.2)) tp = true := by
      intro hd
      apply hdue
      unfold dueIDs
      exact List.mem_map.2 ⟨tp, List.mem_filter.2 ⟨hlisted, hd⟩, hwf⟩
    rw [dueForTermination_iff, hwf] at hnotdue
    by_cases hterm : tp.ExpectedState = LifeCycleState.TERMINATED_STATE
    · exact Or.inl hterm
    · right
      left
      cases hentry : ttlEntry id (w.store.ttls.map (fun e => e.1))
          (w.store.ttls.map (fun e => e.2)) with
      | none => exact absurd ⟨hterm, Or.inl hentry⟩ hnotdue
      | some expiry =>
        refine ⟨expiry, ttlEntry_zip_some id expiry _ hentry, ?_⟩
        by_contra hexp
        exact hnotdue ⟨hterm, Or.inr ⟨expiry, hentry, hexp⟩⟩

/-- C12, as amended. Right after a `CreateTracepoint` call over the reference store
with a positive `ttl` that returns an id, the error is `nil` or
`ErrTracepointAlreadyExists`, and the store holds a record for the id that is not
TERMINATED and a TTL entry for it that expires after the current time. Right after a
reaper pass at time `now` over a store whose listings succeed and whose lookups and
upserts may fail, every record the store holds that reads back its own id is
TERMINATED, or has a TTL entry that expires after `now`, or is one whose
`GetTracepoint` or `UpsertTracepoint` call failed during the pass; over the reference
store, where no call fails, it is TERMINATED or has a TTL entry that expires after
`now`. -/
theorem lease_after_create_and_after_reaper {M : Type} (agt : AgentMessenger M)
    (w : World MemStore M) :
    (∀ (newV4 : Except GoError UUID) (name : String) (d : TracepointDeployment) (ttl : Int)
      (id : UUID), ttl > 0 →
      (CreateTracepoint { ts := memStore, agtMgr := agt } newV4 name d ttl w).2.1 = some id →
      ((CreateTracepoint { ts := memStore, agtMgr := agt } newV4 name d ttl w).2.2 = none ∨
        (CreateTracepoint { ts := memStore, agtMgr := agt } newV4 name d ttl w).2.2 =
          some ErrTracepointAlreadyExists) ∧
      (∃ tp, assocGet id (CreateTracepoint { ts := memStore, agtMgr := agt } newV4 name d ttl
            w).1.store.deployments = some tp ∧
        tp.ExpectedState ≠ LifeCycleState.TERMINATED_STATE) ∧
      (∃ expiry, assocGet id (CreateTracepoint { ts := memStore, agtMgr := agt } newV4 name d
            ttl w).1.store.ttls = some expiry ∧
        expiry > (CreateTracepoint { ts := memStore, agtMgr := agt } newV4 name d ttl
            w).1.store.now)) ∧
    (∀ (getFails upsertFails : UUID → Option GoError) (now : Int),
      ∃ (w2 : World MemStore M) (events : List Event),
        terminateExpiredTracepoints { ts := faultyStore getFails upsertFails, agtMgr := agt }
          now w = some w2 ∧
        w2.trace = w.trace ++ events ∧
        ∀ id tp, assocGet id w2.store.deployments = some tp →
          UUIDFromProtoOrNil tp.ID = id →
          tp.ExpectedState = LifeCycleState.TERMINATED_STATE ∨
          (∃ expiry, (id, expiry) ∈ w2.store.ttls ∧ expiry > now) ∨
          ((getFails id ≠ none ∨ upsertFails id ≠ none) ∧
            ∃ e ∈ events, e.err ≠ none ∧
              (e.call = Call.GetTracepoint id ∨
                e.call = Call.UpsertTracepoint id (markTerminated tp)))) ∧
    (∀ now : Int, ∃ w2 : World MemStore M,
      terminateExpiredTracepoints { ts := memStore, agtMgr := agt } now w = some w2 ∧
      ∀ id tp, assocGet id w2.store.deployments = some tp → UUIDFromProtoOrNil tp.ID = id →
        tp.ExpectedState = LifeCycleState.TERMINATED_STATE ∨
          ∃ expiry, (id, expiry) ∈ w2.store.ttls ∧ expiry > now) := by
  refine ⟨?_, ?_, ?_⟩
  · intro newV4 name d ttl id hpos hid
    exact held_after_create agt w newV4 name d ttl id hpos hid
  · intro getFails upsertFails now
    exact held_after_reaperPass agt getFails upsertFails now w
  · intro now
    obtain ⟨w2, _, hpass, _, hall⟩ := held_after_reaperPass agt neverFails neverFails now w
    rw [faultyStore_neverFails] at hpass
    refine ⟨w2, hpass, ?_⟩
    intro id tp hrec hwf
    rcases hall id tp hrec hwf with h | h | ⟨hfault, _⟩
    · exact Or.inl h
    · exact Or.inr h
    · rcases hfault with hf | hf
      · exact absurd rfl hf
      · exact absurd rfl hf

/-- Witness for C12 as amended: scenario 1 of the specification, a create on the empty
store with a TTL of 600. -/
theorem lease_after_create_and_after_reaper_witness :
    ((CreateTracepoint { ts := memStore, agtMgr := reliableMessenger } (Except.ok idU)
        "http-latency" (mkDeployment "http-latency" [some programMin54]) 600
        (freshWorld ())).2.2 = none ∨
      (CreateTracepoint { ts := memStore, agtMgr := reliableMessenger } (Except.ok idU)
        "http-latency" (mkDeployment "http-latency" [some programMin54]) 600
        (freshWorld ())).2.2 = some ErrTracepointAlreadyExists) ∧
    (∃ tp, assocGet idU (CreateTracepoint { ts := memStore, agtMgr := reliableMessenger }
          (Except.ok idU) "http-latency" (mkDeployment "http-latency" [some programMin54]) 600
          (freshWorld ())).1.store.deployments = some tp ∧
      tp.ExpectedState ≠ LifeCycleState.TERMINATED_STATE) ∧
    (∃ expiry, assocGet idU (CreateTracepoint { ts := memStore, agtMgr := reliableMessenger }
          (Except.ok idU) "http-latency" (mkDeployment "http-latency" [some programMin54]) 600
          (freshWorld ())).1.store.ttls = some expiry ∧
      expiry > (CreateTracepoint { ts := memStore, agtMgr := reliableMessenger }
          (Except.ok idU) "http-latency" (mkDeployment "http-latency" [some programMin54]) 600
          (freshWorld ())).1.store.now) :=
  (lease_after_create_and_after_reaper reliableMessenger (freshWorld ())).1 (Except.ok idU)
    "http-latency" (mkDeployment "http-latency" [some programMin54]) 600 idU (by decide) rfl

/-- Counterexample for C12 as stated, in five states reached from the empty store.
`CreateTracepoint` with a TTL of 600 returns `idU` with a `nil` error. (1) After
`RemoveTracepoints` on the name, the store holds the record of `idU` as RUNNING and
holds no TTL entry for it. (2) After an agent reports TERMINATED for it instead, the
store holds no record of `idU` at all. (3) With a TTL of 0 the create returns `idU`
with a `nil` error as well, and right after it the record is RUNNING and the expiry
of the TTL entry is the current time, not a later one. (4) After the removal, a
reaper pass in which `UpsertTracepoint` fails for `idU` leaves the record RUNNING
without a TTL entry. (5) So does a reaper pass in which the listing of the
deployments fails. -/
theorem lease_lost_after_remove_or_last_report :
    (CreateTracepoint reliableManager (Except.ok idU) "http-latency"
        (mkDeployment "http-latency" [some programMin54]) 600 (freshWorld ())).2 =
      (some idU, none) ∧
    (applyOps reliableManager
        [ManagerOp.create (Except.ok idU) "http-latency"
           (mkDeployment "http-latency" [some programMin54]) 600,
         ManagerOp.remove ["http-latency"]]
        (freshWorld ())).map
        (fun w1 => ((assocGet idU w1.store.deployments).map (fun tp => tp.ExpectedState),
          assocGet idU w1.store.ttls)) =
      some (some LifeCycleState.RUNNING_STATE, none) ∧
    (applyOps reliableManager
        [ManagerOp.create (Except.ok idU) "http-latency"
           (mkDeployment "http-latency" [some programMin54]) 600,
         ManagerOp.update wireU wireA LifeCycleState.TERMINATED_STATE none]
        (freshWorld ())).map
        (fun w1 => assocGet idU w1.store.deployments) = some none ∧
    (CreateTracepoint reliableManager (Except.ok idU) "http-latency"
        (mkDeployment "http-latency" [some programMin54]) 0 (freshWorld ())).2 =
      (some idU, none) ∧
    ((assocGet idU (CreateTracepoint reliableManager (Except.ok idU) "http-latency"
          (mkDeployment "http-latency" [some programMin54]) 0
          (freshWorld ())).1.store.deployments).map (fun tp => tp.ExpectedState),
      assocGet idU (CreateTracepoint reliableManager (Except.ok idU) "http-latency"
          (mkDeployment "http-latency" [some programMin54]) 0 (freshWorld ())).1.store.ttls,
      (CreateTracepoint reliableManager (Except.ok idU) "http-latency"
          (mkDeployment "http-latency" [some programMin54]) 0 (freshWorld ())).1.store.now) =
      (some LifeCycleState.RUNNING_STATE, some 0, 0) ∧
    ((applyOps reliableManager
        [ManagerOp.create (Except.ok idU) "http-latency"
           (mkDeployment "http-latency" [some programMin54]) 600,
         ManagerOp.remove ["http-latency"]]
        (freshWorld ())).bind
        (terminateExpiredTracepoints
          { ts := faultyStore neverFails (failsFor idU (GoError.external 5)),
            agtMgr := reliableMessenger } 100)).map
        (fun w2 => ((assocGet idU w2.store.deployments).map (fun tp => tp.ExpectedState),
          assocGet idU w2.store.ttls)) =
      some (some LifeCycleState.RUNNING_STATE, none) ∧
    ((applyOps reliableManager
        [ManagerOp.create (Except.ok idU) "http-latency"
           (mkDeployment "http-latency" [some programMin54]) 600,
         ManagerOp.remove ["http-latency"]]
        (freshWorld ())).bind
        (terminateExpiredTracepoints
          { ts := deploymentListingFailsStore, agtMgr := reliableMessenger } 100)).map
        (fun w2 => ((assocGet idU w2.store.deployments).map (fun tp => tp.ExpectedState),
          assocGet idU w2.store.ttls)) =
      some (some LifeCycleState.RUNNING_STATE, none) := by
  decide

end Pixie
